import Mathlib

/-! Component runtime of coolfluid3: library lifecycle, component tree, signals.

A shallow embedding of the plugin-library lifecycle (`Lib*.cpp`), of the RDM core
library set-up and tear-down (`LibCore.cpp`), of the plotter signal
(`CPlotter.cpp`) and of the boundary-term loop selection (`WeakDirichlet.cpp`),
followed by the properties established about them.
-/

namespace CF

/-! ## Library lifecycle (`LibCGNS.cpp`, `LibGmsh.cpp`, `LibSolver.cpp`, `LibActions.cpp`,
`LibNetwork.cpp`, `LibClientUI.cpp`, `LibFieldGeneration.cpp`, `LibGooglePerfTools.cpp`) -/

/-- The eight plugin libraries whose `initiate`/`terminate` bodies are embedded below. -/
inductive PluginLibrary where
  | LibCGNS
  | LibGmsh
  | LibSolver
  | LibActions
  | LibNetwork
  | LibClientUI
  | LibFieldGeneration
  | LibGooglePerfTools
  deriving DecidableEq, Repr

/-- What a violated `cf_assert` does. The macro is not part of the sources at hand, so its
behaviour is a parameter: `raises` stops the enclosing function at the assertion (an exception
or an abort), `continues` lets the function body go on (assertions only dumped, or compiled
out). -/
inductive AssertMode where
  | raises
  | continues
  deriving DecidableEq, Repr

/-- State of one library object: the flag `m_is_initiated`. -/
structure Library where
  which : PluginLibrary
  m_is_initiated : Bool
  deriving DecidableEq, Repr

/-- Result of one lifecycle call: the library afterwards, whether an assertion condition was
violated during the call, and whether the body ran to its end. -/
structure Outcome where
  lib : Library
  assertion_failed : Bool
  completed : Bool
  deriving DecidableEq, Repr

/-- Body shared, character for character, by the eight `initiate()` functions:
`cf_assert( !m_is_initiated ); m_is_initiated = true;`. -/
def initiate_body (mode : AssertMode) (l : Library) : Outcome :=
  if !l.m_is_initiated then
    -- the assertion holds; the assignment runs
    { lib := { l with m_is_initiated := true }, assertion_failed := false, completed := true }
  else
    match mode with
    | .raises => { lib := l, assertion_failed := true, completed := false }
    | .continues =>
      { lib := { l with m_is_initiated := true }, assertion_failed := true, completed := true }

/-- Body shared by the eight `terminate()` functions: `m_is_initiated = false;`. -/
def terminate_body (l : Library) : Outcome :=
  { lib := { l with m_is_initiated := false }, assertion_failed := false, completed := true }

/-- The function `initiate()` of each library (`Lib*::initiate`). -/
def initiate (mode : AssertMode) (l : Library) : Outcome :=
  match l.which with
  | .LibCGNS => initiate_body mode l
  | .LibGmsh => initiate_body mode l
  | .LibSolver => initiate_body mode l
  | .LibActions => initiate_body mode l
  | .LibNetwork => initiate_body mode l
  | .LibClientUI => initiate_body mode l
  | .LibFieldGeneration => initiate_body mode l
  | .LibGooglePerfTools => initiate_body mode l

/-- The function `terminate()` of each library (`Lib*::terminate`). -/
def terminate (l : Library) : Outcome :=
  match l.which with
  | .LibCGNS => terminate_body l
  | .LibGmsh => terminate_body l
  | .LibSolver => terminate_body l
  | .LibActions => terminate_body l
  | .LibNetwork => terminate_body l
  | .LibClientUI => terminate_body l
  | .LibFieldGeneration => terminate_body l
  | .LibGooglePerfTools => terminate_body l

/-- One lifecycle call issued by the hosting process. -/
inductive Call where
  | initiate
  | terminate
  deriving DecidableEq, Repr

/-- Effect of one call. -/
def call (mode : AssertMode) (l : Library) : Call → Outcome
  | .initiate => initiate mode l
  | .terminate => terminate l

/-- A sequence of calls on one library object; a raised assertion is reported to the host,
which goes on with the next call. Returns the final library and, per call, whether an
assertion was violated. -/
def run (mode : AssertMode) : Library → List Call → Library × List Bool
  | l, [] => (l, [])
  | l, c :: cs =>
    let o := call mode l c
    let r := run mode o.lib cs
    (r.1, o.assertion_failed :: r.2)

/-- Library after a sequence of calls. -/
def run_state (mode : AssertMode) (l : Library) (cs : List Call) : Library :=
  (run mode l cs).1

/-! ## Component tree

The class `Component` itself is not among the sources at hand; its operations are modelled
from the specification (sections 3 and 4.1) and used by the embedded functions below. -/

/-- Failures that the embedded functions can report. `BadValue` and `InvalidURI` carry the
message given at the `throw` in the source; `NullDereference` stands for applying `->` or `*`
to a null pointer; `FailedAssertion` is a violated `cf_assert` that stops the function. -/
inductive Error where
  | BadValue (what : String)
  | InvalidURI (what : String)
  | ValueNotFound (what : String)
  | CastingFailed (what : String)
  | DuplicateName (name : String)
  | NotFound (what : String)
  | UnknownType (key : String)
  | TypeMismatch (key : String)
  | SignatureMismatch (signal : String)
  | NullDereference
  | FailedAssertion
  | ValidationError (key : String)
  deriving DecidableEq, Repr

/-- A component: its `name`, its `type_name`, the flag `is_basic`, and the owned children in
insertion order. -/
inductive Component where
  | mk (name : String) (type_name : String) (is_basic : Bool) (children : List Component)
  deriving Repr

namespace Component

/-- Name of the component. -/
def name : Component → String
  | mk n _ _ _ => n

/-- Type identifier the component was constructed with. -/
def type_name : Component → String
  | mk _ t _ _ => t

/-- Visibility hint. -/
def is_basic : Component → Bool
  | mk _ _ b _ => b

/-- Owned children, in insertion order. -/
def children : Component → List Component
  | mk _ _ _ cs => cs

/-- The same component with another list of children. -/
def set_children : Component → List Component → Component
  | mk n t b _, cs => mk n t b cs

/-- The call `mark_basic()`. -/
def mark_basic : Component → Component
  | mk n t _ cs => mk n t true cs

end Component

/-- First component of the list that has the given name. -/
def find_child (n : String) : List Component → Option Component
  | [] => none
  | c :: cs => if c.name = n then some c else find_child n cs

/-- The list with its first component of the given name replaced. -/
def replace_child (n : String) (d : Component) : List Component → List Component
  | [] => []
  | c :: cs => if c.name = n then d :: cs else c :: replace_child n d cs

/-- The list without its first component of the given name. -/
def erase_child (n : String) : List Component → List Component
  | [] => []
  | c :: cs => if c.name = n then cs else c :: erase_child n cs

/-- Modelled from the spec: `get_child(parent, name) -> handle or not-found` of the class
`Component`, which is not among the sources. `none` is the null pointer that
`get_child_ptr` hands back for a missing child (`WeakDirichlet::execute` tests the result
with `is_null`). -/
def get_child_ptr (parent : Component) (n : String) : Option Component :=
  find_child n parent.children

/-- Modelled from the spec: `add_component(parent, component)` of the class `Component`, which
is not among the sources. Attaching under an existing sibling name fails with `DuplicateName`
and changes nothing; otherwise the child is appended (children are ordered by insertion). -/
def add_component (parent child : Component) : Except Error Component :=
  match get_child_ptr parent child.name with
  | some _ => .error (.DuplicateName child.name)
  | none => .ok (parent.set_children (parent.children ++ [child]))

/-- Modelled from the spec: the constructor of a component class that is not among the sources
(`CGroup`, `SteadyExplicit`, `MySim`, `CPlotXY`): a fresh, unattached component of that type
with the given name, not marked basic, without children. -/
def construct (type_id name : String) : Component :=
  .mk name type_id false []

/-- Modelled from the spec: `create_component(parent, type_id, name)` in its statically typed
form `create_component_ptr<T>(name)` of the class `Component`, which is not among the sources:
constructs the instance and attaches it under `parent`; fails if the name already exists. -/
def create_component_ptr (parent : Component) (type_id name : String) : Except Error Component :=
  add_component parent (construct type_id name)

/-- Modelled from the spec: `remove_component(parent, name)` of the class `Component`, which is
not among the sources: releases the named child (with its subtree) from `parent`. The
specification does not say what happens when there is no such child, so that is left to
`missing_raises`: a `NotFound` failure, or nothing at all. Returns the parent afterwards and
the released component. -/
def remove_component (missing_raises : Bool) (parent : Component) (n : String) :
    Except Error (Component × Option Component) :=
  match get_child_ptr parent n with
  | some c => .ok (parent.set_children (erase_child n parent.children), some c)
  | none => if missing_raises then .error (.NotFound n) else .ok (parent, none)

/-- The component reached from `c` by following child names. -/
def get_at : Component → List String → Option Component
  | c, [] => some c
  | c, n :: ns =>
    match get_child_ptr c n with
    | none => none
    | some d => get_at d ns

/-- A member call `p->f(...)` through the pointer chain
`c.get_child_ptr(n1)->get_child_ptr(n2)->...`: the component at the end of the chain is
changed by `f` in place, inside the tree rooted at `c`. A null pointer on the way is
dereferenced by `->`, which is reported as `NullDereference`. -/
def update_at (f : Component → Except Error Component) :
    Component → List String → Except Error Component
  | c, [] => f c
  | c, n :: ns =>
    match get_child_ptr c n with
    | none => .error .NullDereference
    | some d =>
      match update_at f d ns with
      | .error e => .error e
      | .ok d2 => .ok (c.set_children (replace_child n d2 c.children))

/-! ## RDM core library (`plugins/RDM/src/RDM/Core/LibCore.cpp`) -/

/-- The function `LibCore::initiate_impl()`, acting on the tree below
`Core::instance().root()`. -/
def LibCore.initiate_impl (root : Component) : Except Error Component := do
  -- rdm_group = root.get_child_ptr("Tools")->create_component_ptr<CGroup>("RDM")
  let r1 ← update_at (fun tools => create_component_ptr tools "CGroup" "RDM") root ["Tools"]
  -- rdm_group->mark_basic()
  let r2 ← update_at (fun g => .ok g.mark_basic) r1 ["Tools", "RDM"]
  -- rdm_group->create_component_ptr<RDM::SteadyExplicit>("Setup_RD_Steady_Explicit")->mark_basic()
  let r3 ← update_at
    (fun g => create_component_ptr g "SteadyExplicit" "Setup_RD_Steady_Explicit")
    r2 ["Tools", "RDM"]
  let r4 ← update_at (fun s => .ok s.mark_basic) r3 ["Tools", "RDM", "Setup_RD_Steady_Explicit"]
  -- rdm_group->create_component_ptr<RDM::MySim>("Setup_RD_My_Sim")->mark_basic()
  let r5 ← update_at (fun g => create_component_ptr g "MySim" "Setup_RD_My_Sim")
    r4 ["Tools", "RDM"]
  update_at (fun s => .ok s.mark_basic) r5 ["Tools", "RDM", "Setup_RD_My_Sim"]

/-- The function `LibCore::terminate_impl()`, acting on the tree below
`Core::instance().root()`. -/
def LibCore.terminate_impl (missing_raises : Bool) (root : Component) :
    Except Error Component := do
  -- root.get_child_ptr("Tools")->get_child_ptr("RDM")->remove_component("Setup_RD_Steady_Explicit")
  let r1 ← update_at
    (fun g => (remove_component missing_raises g "Setup_RD_Steady_Explicit").map Prod.fst)
    root ["Tools", "RDM"]
  -- root.get_child_ptr("Tools")->get_child_ptr("RDM")->remove_component("Setup_RD_My_Sim")
  let r2 ← update_at
    (fun g => (remove_component missing_raises g "Setup_RD_My_Sim").map Prod.fst)
    r1 ["Tools", "RDM"]
  -- root.get_child_ptr("Tools")->remove_component("RDM")
  update_at (fun t => (remove_component missing_raises t "RDM").map Prod.fst) r2 ["Tools"]

/-! ## Addresses and argument bundles

The classes `URI` and `XML::SignalFrame` are not among the sources at hand. -/

/-- The scheme of a `URI` (`URI::Scheme`). -/
inductive Scheme where
  | HTTP
  | HTTPS
  | CPATH
  | FILE
  deriving DecidableEq, Repr

/-- A `URI`: scheme and path. -/
structure URI where
  scheme : Scheme
  path : String
  deriving DecidableEq, Repr

/-- The call `uri.empty()`: the address carries no path. -/
def URI.empty (u : URI) : Bool :=
  decide (u.path = "")

/-- A value of an argument bundle (section 6 of the specification): boolean, integer, string,
URI, or a list of strings. -/
inductive Value where
  | boolean (b : Bool)
  | integer (i : Int)
  | string (s : String)
  | uri (u : URI)
  | array (l : List String)
  deriving DecidableEq, Repr

/-- The options map of a signal frame: named values. -/
abbrev SignalFrame := List (String × Value)

/-- The value stored under `key`, if any. -/
def SignalFrame.lookup (key : String) : SignalFrame → Option Value
  | [] => none
  | (k, v) :: rest => if k = key then some v else SignalFrame.lookup key rest

/-- Modelled from the spec: `get_option<std::string>(key)` of `XML::SignalFrame`, which is not
among the sources: the string stored under `key`; reading a value of another type fails with
`TypeMismatch`, a missing key is reported as `ValueNotFound`. -/
def get_option_string (options : SignalFrame) (key : String) : Except Error String :=
  match options.lookup key with
  | some (.string s) => .ok s
  | some _ => .error (.TypeMismatch key)
  | none => .error (.ValueNotFound key)

/-- Modelled from the spec: `get_option<URI>(key)` of `XML::SignalFrame`, which is not among the
sources: the URI stored under `key`; reading a value of another type fails with
`TypeMismatch`, a missing key is reported as `ValueNotFound`. -/
def get_option_uri (options : SignalFrame) (key : String) : Except Error URI :=
  match options.lookup key with
  | some (.uri u) => .ok u
  | some _ => .error (.TypeMismatch key)
  | none => .error (.ValueNotFound key)

/-- Modelled from the spec: the segments of a `/`-delimited path (the parsing of a `URI` is
not among the sources); `acc` holds the current segment, reversed. -/
def split_segments : List Char → List Char → List String
  | acc, [] => [String.mk acc.reverse]
  | acc, c :: cs =>
    if c = '/' then String.mk acc.reverse :: split_segments [] cs
    else split_segments (c :: acc) cs

/-- Modelled from the spec: the walk of `resolve` over the segments of a path, from the root
(the function `look_component` is not among the sources); `addr` is the chain of child names
of the component reached so far. An empty segment and `.` stay, `..` goes to the parent, a
name goes to that child. -/
def walk_path (root : Component) : List String → List String → Option (List String)
  | addr, [] => some addr
  | addr, seg :: segs =>
    if seg = "" ∨ seg = "." then walk_path root addr segs
    else if seg = ".." then
      (if addr = [] then none else walk_path root addr.dropLast segs)
    else
      match get_at root (addr ++ [seg]) with
      | none => none
      | some _ => walk_path root (addr ++ [seg]) segs

/-- Modelled from the spec: `resolve(root, path) -> handle or not-found` (the function
`look_component` of the class `Component`, which is not among the sources): walks the
`/`-delimited path from `root`, applying `..` and `.` segments. The handle is the chain of
child names leading from the root to the component; a miss is the `NotFound` failure. -/
def look_component (root : Component) (u : URI) : Except Error (List String) :=
  match walk_path root [] (split_segments [] u.path.data) with
  | none => .error (.NotFound u.path)
  | some addr => .ok addr

/-! ## Plotter (`Common/CPlotter.cpp`) -/

/-- The process-wide `Core::instance()`: the root of the component tree, and a count of the
calls of `look_component` made so far (kept only to tell whether a traversal was attempted). -/
structure Core where
  root : Component
  look_component_calls : Nat

/-- The data of a `CPlotter` (`CPlotter.hpp`). -/
structure CPlotter where
  m_data_sets : List String

/-- The function `CPlotter::signal_create_xyplot`. Returns what the call reports and the core
as the call leaves it, also when it fails. -/
def CPlotter.signal_create_xyplot (options : SignalFrame) (core : Core) :
    Except Error Unit × Core :=
  match get_option_string options "Plot name" with
  | .error e => (.error e, core)
  | .ok name =>
  match get_option_uri options "Parent" with
  | .error e => (.error e, core)
  | .ok parent =>
  -- some checks
  if name = "" then (.error (.BadValue "The plot name is empty."), core)
  else if parent.empty then (.error (.BadValue "The parent is empty."), core)
  else if parent.scheme ≠ Scheme.CPATH then
    (.error (.InvalidURI "The parent scheme is not CPATH"), core)
  else
    -- create and add the component
    let core1 : Core := { core with look_component_calls := core.look_component_calls + 1 }
    match look_component core.root parent with
    | .error e => (.error e, core1)
    | .ok parent_comp =>
      let plot := construct "CPlotXY" name
      match update_at (fun p => add_component p plot) core1.root parent_comp with
      | .error e => (.error e, core1)
      | .ok root1 =>
        let core2 : Core := { core1 with root := root1 }
        match update_at (fun c => .ok c.mark_basic) core2.root (parent_comp ++ [name]) with
        | .error e => (.error e, core2)
        | .ok root2 => (.ok (), { core2 with root := root2 })

/-- One declared argument of a signal signature: key, default value (which fixes the type),
description, and the restricted values if any. -/
structure ArgDecl where
  key : String
  default_value : Value
  description : String
  restricted_values : Option (List String)
  deriving DecidableEq, Repr

/-- The function `CPlotter::signature_create_xyplot`, filling a fresh frame;
`root_full_path` is `Core::instance().root()->full_path()`. -/
def CPlotter.signature_create_xyplot (self : CPlotter) (root_full_path : URI) : List ArgDecl :=
  [ { key := "Plot name", default_value := .string "", description := "Name for the new plot",
      restricted_values := none },
    { key := "Data set", default_value := .string "", description := "The data set to watch",
      restricted_values := some self.m_data_sets },
    { key := "Parent", default_value := .uri root_full_path,
      description := "Parent of the new component", restricted_values := none } ]

/-- Modelled from the spec: whether two values of a bundle have the same type (the typed
arguments of a signature; the signal layer is not among the sources). -/
def Value.same_type : Value → Value → Bool
  | .boolean _, .boolean _ => true
  | .integer _, .integer _ => true
  | .string _, .string _ => true
  | .uri _, .uri _ => true
  | .array _, .array _ => true
  | _, _ => false

/-- Modelled from the spec: whether a bundle satisfies one declared argument of a signature
(the validation of the signal layer is not among the sources): the argument is present, has
the declared type, and lies in the restricted values when there are any. -/
def satisfies_decl (bundle : SignalFrame) (d : ArgDecl) : Bool :=
  match bundle.lookup d.key with
  | none => false
  | some v =>
    v.same_type d.default_value &&
    (match d.restricted_values with
     | none => true
     | some allowed => allowed.any (fun s => decide (v = .string s)))

/-- Modelled from the spec: whether a bundle satisfies a declared signature. -/
def satisfies_signature (bundle : SignalFrame) (signature : List ArgDecl) : Bool :=
  signature.all (satisfies_decl bundle)

/-- Modelled from the spec: `invoke(owner, name, argument_bundle)` of the signal layer, which
is not among the sources, for the signal `create_xyplot` registered by the constructor
`CPlotter::CPlotter`: validates the bundle against the signature declared by
`signature_create_xyplot` and rejects it with `SignatureMismatch` before the handler runs;
otherwise runs the bound handler `signal_create_xyplot`. -/
def CPlotter.invoke_create_xyplot (self : CPlotter) (root_full_path : URI)
    (bundle : SignalFrame) (core : Core) : Except Error Unit × Core :=
  if satisfies_signature bundle (self.signature_create_xyplot root_full_path) then
    CPlotter.signal_create_xyplot bundle core
  else
    (.error (.SignatureMismatch "create_xyplot"), core)

/-! ## Weak Dirichlet boundary term (`plugins/RDM/RDM/Core/WeakDirichlet.cpp`) -/

/-- One registration in the type registry (a `Common::ComponentBuilder<CONCRETE, BASE, LIB>`
object): concrete type identifier, interface identifier, owning library. -/
structure BuilderEntry where
  concrete : String
  interface_id : String
  library : String
  deriving DecidableEq, Repr

/-- The value of `WeakDirichlet::type_name()`. -/
def WeakDirichlet.type_name : String := "WeakDirichlet"

/-- Assumed type identifier of `FaceLoopT<ACTION, PHYSICS>`, the key under which its builder
is registered. The header of `FaceLoopT` is not among the sources, and the spec fixes no
punctuation for builder keys (section 6 speaks of a concatenation of identifiers, section 9
asks to test the key rather than to infer it). The format taken here is the one of the key
that `WeakDirichlet::execute` composes (line 114), so that with this definition the
registered keys agree with the looked-up keys by construction: it stands for the premise
`the physics is registered under the key that is looked up` of the statements about
`execute`, and says nothing about the keys that the absent header really gives. -/
def FaceLoopT_type_name (action physics : String) : String :=
  "FaceLoopT<" ++ action ++ "," ++ physics ++ ">"

/-- Names of the physics types for which `WeakDirichlet.cpp` registers a face loop
(lines 43 to 48; the registration for `LinearAdv3D` is commented out). -/
def registered_physics : List String :=
  ["LinearAdv2D", "LinearAdvSys2D", "RotationAdv2D", "Burgers2D", "Cons2D"]

/-- The builders registered by `WeakDirichlet.cpp` (lines 41 to 48). -/
def WeakDirichlet_builders : List BuilderEntry :=
  [ { concrete := WeakDirichlet.type_name, interface_id := "BoundaryTerm", library := "LibCore" },
    { concrete := FaceLoopT_type_name WeakDirichlet.type_name "LinearAdv2D",
      interface_id := "FaceLoop", library := "LibCore" },
    -- FaceLoopT< WeakDirichlet, Scalar::LinearAdv3D > is commented out
    { concrete := FaceLoopT_type_name WeakDirichlet.type_name "LinearAdvSys2D",
      interface_id := "FaceLoop", library := "LibCore" },
    { concrete := FaceLoopT_type_name WeakDirichlet.type_name "RotationAdv2D",
      interface_id := "FaceLoop", library := "LibCore" },
    { concrete := FaceLoopT_type_name WeakDirichlet.type_name "Burgers2D",
      interface_id := "FaceLoop", library := "LibCore" },
    { concrete := FaceLoopT_type_name WeakDirichlet.type_name "Cons2D",
      interface_id := "FaceLoop", library := "LibCore" } ]

/-- The builders registered by `WeakDirichlet.cpp` (lines 41 to 48) for any type identifier
of the face loops: `face_loop_type_name action physics` stands for what
`FaceLoopT<ACTION, PHYSICS>::type_name()` returns, which the sources do not tell. -/
def WeakDirichlet_builders_with (face_loop_type_name : String → String → String) :
    List BuilderEntry :=
  { concrete := WeakDirichlet.type_name, interface_id := "BoundaryTerm", library := "LibCore" }
    :: registered_physics.map (fun physics =>
      { concrete := face_loop_type_name WeakDirichlet.type_name physics,
        interface_id := "FaceLoop", library := "LibCore" })

/-- Modelled from the spec: `build_abstract(interface_id, discriminator, name)` (the function
`build_component_abstract_type_reduced<ATYPE>` is not among the sources): constructs an
unattached component of the concrete type registered under exactly the given key for the
interface; fails with `UnknownType` when there is no such registration. -/
def build_component_abstract_type_reduced (registry : List BuilderEntry)
    (interface_id key name : String) : Except Error Component :=
  if registry.any (fun b => decide (b.concrete = key) && decide (b.interface_id = interface_id))
  then .ok (construct key name)
  else .error (.UnknownType key)

/-- What the element loop is asked to do during `WeakDirichlet::execute`. -/
inductive LoopEvent where
  | select_region (region : String)
  | execute
  deriving DecidableEq, Repr

/-- A `WeakDirichlet` boundary term: the component itself (with its children), the type of its
physical model (`physical_model().type()`), the regions configured by the user
(`m_loop_regions`, each named by its path), and the calls made on the element loop so far. -/
structure WeakDirichlet where
  self : Component
  physics : String
  m_loop_regions : List String
  loop_calls : List LoopEvent

/-- The loop over `m_loop_regions` at the end of `WeakDirichlet::execute`:
`loop->select_region(region); loop->execute();` for each region in turn. -/
def loop_on_regions : List String → List LoopEvent
  | [] => []
  | region :: rest => .select_region region :: .execute :: loop_on_regions rest

/-- The function `WeakDirichlet::execute`. `is_ElementLoop` tells whether a component is an
`ElementLoop` (the cast `as_ptr_checked<ElementLoop>`; the class hierarchy is not among the
sources); `registry` is the type registry. Returns what the call reports and the boundary
term as the call leaves it, also when it fails. -/
def WeakDirichlet.execute (is_ElementLoop : Component → Bool) (registry : List BuilderEntry)
    (wd : WeakDirichlet) : Except Error Unit × WeakDirichlet :=
  let physics := wd.physics
  -- get the element loop or create it if does not exist
  match get_child_ptr wd.self "LOOP" with
  | none =>
    match build_component_abstract_type_reduced registry "FaceLoop"
        ("FaceLoopT<" ++ WeakDirichlet.type_name ++ "," ++ physics ++ ">") "LOOP" with
    | .error e => (.error e, wd)
    | .ok loop =>
      match add_component wd.self loop with
      | .error e => (.error e, wd)
      | .ok self1 =>
        (.ok (), { wd with self := self1,
                           loop_calls := wd.loop_calls ++ loop_on_regions wd.m_loop_regions })
  | some cloop =>
    if is_ElementLoop cloop then
      (.ok (), { wd with loop_calls := wd.loop_calls ++ loop_on_regions wd.m_loop_regions })
    else
      (.error (.CastingFailed "LOOP"), wd)

/-! ## Assertions, data sets of the plotter (`Common/CPlotter.cpp`, `add_data_set`) -/

/-- The macro `cf_assert(cond)`, under either behaviour of a violated assertion: the function
goes on (`ok`) or stops with `FailedAssertion`. -/
def cf_assert (mode : AssertMode) (cond : Bool) : Except Error Unit :=
  if cond then .ok ()
  else
    match mode with
    | .raises => .error .FailedAssertion
    | .continues => .ok ()

/-- Name of a scheme as it is written in an address. -/
def Scheme.name : Scheme → String
  | .HTTP => "http"
  | .HTTPS => "https"
  | .CPATH => "cpath"
  | .FILE => "file"

/-- Modelled from the spec: the text of an address, `uri.string()` (the class `URI` is not among
the sources): the scheme token, a colon, and the path, as in `cpath:/a`. -/
def URI.string (u : URI) : String :=
  u.scheme.name ++ ":" ++ u.path

/-- The function `CPlotter::add_data_set`. Returns what the call reports and the plotter as
the call leaves it, also when it fails. -/
def CPlotter.add_data_set (mode : AssertMode) (self : CPlotter) (uri : URI) :
    Except Error Unit × CPlotter :=
  match cf_assert mode (!uri.empty) with
  | .error e => (.error e, self)
  | .ok _ =>
  match cf_assert mode (decide (uri.scheme = Scheme.CPATH)) with
  | .error e => (.error e, self)
  | .ok _ =>
  -- std::find(m_data_sets.begin(), m_data_sets.end(), uri.path()) != m_data_sets.end()
  if uri.path ∈ self.m_data_sets then
    (.error (.BadValue (uri.string ++ ": is already known as a data set.")), self)
  else
    (.ok (), { self with m_data_sets := self.m_data_sets ++ [uri.path] })

/-- A new plotter, as the constructor `CPlotter::CPlotter` leaves it: no data set. -/
def CPlotter.new : CPlotter :=
  { m_data_sets := [] }

/-- A sequence of `add_data_set` calls on one plotter; a failed call is reported to the
caller, which goes on with the next one. -/
def CPlotter.add_data_sets (mode : AssertMode) : CPlotter → List URI → CPlotter
  | self, [] => self
  | self, u :: us => CPlotter.add_data_sets mode (CPlotter.add_data_set mode self u).2 us

/-! ## Loop over regions (`Solver/Actions/CLoop.cpp`) -/

/-- Modelled from the spec: `resolve(root, path) -> handle or not-found` in the form
`access_component_ptr(path)` of the class `Component`, which is not among the sources: the
component that the path leads to; a miss is the `NotFound` failure. -/
def access_component_ptr (root : Component) (u : URI) : Except Error Component :=
  match look_component root u with
  | .error e => .error e
  | .ok addr =>
    match get_at root addr with
    | none => .error (.NotFound u.path)
    | some c => .ok c

/-- The data of a `CLoop`: the component itself (with its children), the value of its option
`Regions`, and the list `m_loop_regions`. -/
structure CLoop where
  self : Component
  regions_option : List URI
  m_loop_regions : List Component

/-- The `BOOST_FOREACH` of `CLoop::trigger_Regions` over the paths still to visit; `regions`
is `m_loop_regions` so far. `is_CRegion` tells whether the cast `as_ptr<CRegion>` gives a
non-null pointer (the class hierarchy is not among the sources). The second
`access_component_ptr(region_path)->as_ptr<CRegion>()` of the loop body gives what the first
one gave. -/
def trigger_Regions_loop (is_CRegion : Component → Bool) (root : Component) :
    List URI → List Component → Except Error Unit × List Component
  | [], regions => (.ok (), regions)
  | region_path :: rest, regions =>
    match access_component_ptr root region_path with
    | .error e => (.error e, regions)
    | .ok comp =>
      if is_CRegion comp then
        -- m_loop_regions.push_back(...)
        trigger_Regions_loop is_CRegion root rest (regions ++ [comp])
      else
        (.error (.ValueNotFound
          ("Could not find region with path [" ++ region_path.path ++ "]")), regions)

/-- The function `CLoop::trigger_Regions`: `vec` is the value of the option `Regions`. -/
def CLoop.trigger_Regions (is_CRegion : Component → Bool) (root : Component) (loop : CLoop) :
    Except Error Unit × CLoop :=
  let vec := loop.regions_option
  let r := trigger_Regions_loop is_CRegion root vec loop.m_loop_regions
  (r.1, { loop with m_loop_regions := r.2 })

/-- The regions that a list of paths resolves to, in the order of the list (paths that do not
lead to a `CRegion` are left out). -/
def resolved_regions (is_CRegion : Component → Bool) (root : Component) : List URI → List Component
  | [] => []
  | u :: us =>
    match access_component_ptr root u with
    | .ok c =>
      if is_CRegion c then c :: resolved_regions is_CRegion root us
      else resolved_regions is_CRegion root us
    | .error _ => resolved_regions is_CRegion root us

/-- Whether a path leads to a `CRegion`. -/
def resolves_to_region (is_CRegion : Component → Bool) (root : Component) (u : URI) : Bool :=
  match access_component_ptr root u with
  | .ok c => is_CRegion c
  | .error _ => false

/-- Modelled from the spec: `build_abstract(interface_id, discriminator, name)` in the form
`create_component_abstract_type<ATYPE>(provider, name)`, which is not among the sources:
constructs an unattached component of the concrete type registered under exactly the given
key for the interface; fails with `UnknownType` when there is no such registration. -/
def create_component_abstract_type (registry : List BuilderEntry)
    (interface_id provider name : String) : Except Error Component :=
  if registry.any
      (fun b => decide (b.concrete = provider) && decide (b.interface_id = interface_id))
  then .ok (construct provider name)
  else .error (.UnknownType provider)

/-- The function `CLoop::create_loop_operation`. Returns the operation (or the failure) and
the loop as the call leaves it. -/
def CLoop.create_loop_operation (registry : List BuilderEntry) (loop : CLoop)
    (action_provider : String) : Except Error Component × CLoop :=
  -- The execuation of operations must be in chronological order,
  -- hence they get an alphabetical name
  let name := action_provider
  match create_component_abstract_type registry "CLoopOperation" action_provider name with
  | .error e => (.error e, loop)
  | .ok sub_operation =>
    match add_component loop.self sub_operation with
    | .error e => (.error e, loop)
    | .ok self1 => (.ok sub_operation, { loop with self := self1 })

/-- The function `CLoop::action` (both overloads have the same body):
`*get_child_ptr(name)->as_ptr<CLoopOperation>()`. `is_CLoopOperation` tells whether the cast
`as_ptr<CLoopOperation>` gives a non-null pointer. -/
def CLoop.action (is_CLoopOperation : Component → Bool) (loop : CLoop) (name : String) :
    Except Error Component :=
  match get_child_ptr loop.self name with
  | none => .error .NullDereference
  | some c => if is_CLoopOperation c then .ok c else .error .NullDereference

/-! ## Solution field of the weak Dirichlet term (`WeakDirichlet.cpp`, `config_mesh`) -/

/-- The configuration side of a `WeakDirichlet`: the mesh it points to (`m_mesh.lock()`, `none`
when the weak pointer is null), the value of its option `solution`, the cached reference
`solution` (`solution.lock()`, `none` when null), and the values of the option that the runs
of `config_mesh` have read so far (kept only to tell how often the trigger ran and what it
saw). -/
structure WeakDirichletConfig where
  m_mesh : Option Component
  solution_option : URI
  solution : Option Component
  config_mesh_seen : List URI

/-- The function `WeakDirichlet::config_mesh`. `is_CField` tells whether the cast
`as_ptr<CField>` gives a non-null pointer, and `find_component_ptr_with_tag` is the search
`find_component_ptr_with_tag<CField>(mesh, tag)` for a field with a tag below the mesh, and
`component_uri` is `uri()` of a component; the class hierarchy, the search and the class
`Component` are not among the sources, and these are parameters. Returns what the
call reports and the object as the call leaves it, also when it fails. -/
def WeakDirichletConfig.config_mesh (mode : AssertMode) (is_CField : Component → Bool)
    (find_component_ptr_with_tag : Component → String → Option Component)
    (component_uri : Component → URI)
    (root : Component) (wd : WeakDirichletConfig) : Except Error Unit × WeakDirichletConfig :=
  -- cf_assert( is_not_null( m_mesh.lock() ) )
  match cf_assert mode wd.m_mesh.isSome with
  | .error e => (.error e, wd)
  | .ok _ =>
  -- URI sol_uri = option("solution").value<URI>()
  let sol_uri := wd.solution_option
  let wd0 : WeakDirichletConfig := { wd with config_mesh_seen := wd.config_mesh_seen ++ [sol_uri] }
  -- solution = access_component_ptr(sol_uri)->as_ptr<CField>()
  match access_component_ptr root sol_uri with
  | .error e => (.error e, wd0)
  | .ok comp =>
    let wd1 : WeakDirichletConfig :=
      { wd0 with solution := if is_CField comp then some comp else none }
    match wd1.solution with
    | some _ => (.ok (), wd1)
    | none =>
      -- solution = find_component_ptr_with_tag<CField>( *(m_mesh.lock()) , "solution" )
      match wd1.m_mesh with
      | none => (.error .NullDereference, wd1)
      | some mesh =>
        let wd2 : WeakDirichletConfig :=
          { wd1 with solution := find_component_ptr_with_tag mesh "solution" }
        match wd2.solution with
        | some _ => (.ok (), wd2)
        | none =>
          -- throw CastingFailed (FromHere(), "..." + m_mesh.lock()->uri().string() )
          (.error (.CastingFailed
            ("Could not find a solution field on mesh " ++ (component_uri mesh).string)), wd2)

/-- Modelled from the spec: `set_value(owner, key, new_value)` of the option layer, which is not
among the sources, for the option `solution` of a `WeakDirichlet`, an `OptionURI` to which the
constructor attaches the single trigger `config_mesh`: a value that is not a URI is rejected
with `ValidationError` and nothing changes; otherwise the value is stored and then the
triggers run, in registration order, with the new value in place. -/
def WeakDirichletConfig.set_solution (mode : AssertMode) (is_CField : Component → Bool)
    (find_component_ptr_with_tag : Component → String → Option Component)
    (component_uri : Component → URI)
    (root : Component) (wd : WeakDirichletConfig) (new_value : Value) :
    Except Error Unit × WeakDirichletConfig :=
  match new_value with
  | .uri u =>
    WeakDirichletConfig.config_mesh mode is_CField find_component_ptr_with_tag component_uri root
      { wd with solution_option := u }
  | _ => (.error (.ValidationError "solution"), wd)

/-- Number of components of a list that have the given name. -/
def count_named (n : String) (l : List Component) : Nat :=
  (l.filter (fun c => decide (c.name = n))).length

/-- The invariant `names unique within a parent` for the children of one component. -/
def unique_child_names (c : Component) : Prop :=
  (c.children.map Component.name).Nodup

instance unique_child_names_decidable (c : Component) : Decidable (unique_child_names c) := by
  unfold unique_child_names
  infer_instance

/-! ## Names of loop operations (`Solver/Actions/CLoop.cpp`, `create_loop_operation`) -/

/-- Alphabetical comparison of two character sequences, character code by character code
(`operator<` of `std::string`). -/
def chars_less : List Char → List Char → Bool
  | [], [] => false
  | [], _ :: _ => true
  | _ :: _, [] => false
  | a :: as, b :: bs =>
    if a.toNat < b.toNat then true
    else if b.toNat < a.toNat then false
    else chars_less as bs

/-- Whether the name `a` comes strictly before the name `b` in alphabetical order. -/
def name_less (a b : String) : Bool :=
  chars_less a.data b.data

/-- Whether a list of names is strictly increasing in alphabetical order. -/
def names_increasing : List String → Bool
  | [] => true
  | [_] => true
  | a :: b :: rest => name_less a b && names_increasing (b :: rest)

/-- A sequence of `create_loop_operation` calls on one loop. Returns the names of the
operations created by the successful calls, in the order of creation, and the loop
afterwards. -/
def CLoop.create_loop_operations (registry : List BuilderEntry) :
    CLoop → List String → List String × CLoop
  | loop, [] => ([], loop)
  | loop, p :: ps =>
    match CLoop.create_loop_operation registry loop p with
    | (.ok op, loop1) =>
      let r := CLoop.create_loop_operations registry loop1 ps
      (op.name :: r.1, r.2)
    | (.error _, loop1) => CLoop.create_loop_operations registry loop1 ps

/-! ## CGNS reader (`Mesh/CGNS/CReader.cpp`): names and element-type keys -/

/-- The call `boost::algorithm::replace_all(s, from, to)` for a search string and a
replacement of one character each: every occurrence of `a` becomes `b`. -/
def replace_all (s : String) (a b : Char) : String :=
  ⟨s.data.map (fun c => if c = a then b else c)⟩

/-- The two statements `replace_all(name," ","_"); replace_all(name,".","_");` that
`read_base`, `read_zone`, `read_section`, `read_boco_unstructured` and `read_boco_structured`
apply to the name read from the file. -/
def sanitise_name (name : String) : String :=
  replace_all (replace_all name ' ' '_') '.' '_'

/-- The call `StringOps::to_str<int>(n)`: the decimal text of an integer. -/
def to_str (n : Int) : String :=
  toString n

/-- The value of `Point2D::type_name()` (`Mesh/Point2D.hpp`). -/
def Point2D.type_name : String := "Point2D"

/-- The key `etype_CF` that the first `switch (m_base.cell_dim)` of
`CReader::create_structured_elements` composes; the string stays empty in the `default`
case. -/
def create_structured_elements_etype_CF (cell_dim phys_dim : Int) : String :=
  if cell_dim = 3 then "Hexa" ++ to_str phys_dim ++ "DLagrangeP1"
  else if cell_dim = 2 then "Quad" ++ to_str phys_dim ++ "DLagrangeP1"
  else if cell_dim = 1 then "Line" ++ to_str phys_dim ++ "DLagrangeP1"
  else ""

/-- The keys `etype_CF` and `etypeBC_CF` that the `switch (m_base.cell_dim)` of
`CReader::read_boco_structured` composes; both strings stay empty in the `default` case. -/
def read_boco_structured_etypes (cell_dim phys_dim : Int) : String × String :=
  if cell_dim = 3 then
    ("Hexa" ++ to_str phys_dim ++ "DLagrangeP1", "Quad" ++ to_str phys_dim ++ "DLagrangeP1")
  else if cell_dim = 2 then
    ("Quad" ++ to_str phys_dim ++ "DLagrangeP1", "Line" ++ to_str phys_dim ++ "DLagrangeP1")
  else if cell_dim = 1 then
    ("Line" ++ to_str phys_dim ++ "DLagrangeP1", "Point" ++ to_str phys_dim ++ "D")
  else ("", "")

/-! ## CGNS reader: point range of a structured boundary (`read_boco_structured`) -/

/-- The index constant `XX`; its header is not among the sources, the value is the usual one
for the first coordinate direction. -/
def XX : Nat := 0

/-- The index constant `YY` (second coordinate direction). -/
def YY : Nat := 1

/-- The index constant `ZZ` (third coordinate direction). -/
def ZZ : Nat := 2

/-- The six positions of `boco_elems` that the `PointRange` case of
`CReader::read_boco_structured` reads, in the order of the source (lines 804 to 806). -/
def point_range_indices (cell_dim : Nat) : List Nat :=
  [XX + 0 * cell_dim, XX + 1 * cell_dim,
   YY + 0 * cell_dim, YY + 1 * cell_dim,
   ZZ + 0 * cell_dim, ZZ + 1 * cell_dim]

/-- The bounds of a point range: `imin, imax, jmin, jmax, kmin, kmax`. -/
structure PointRangeBounds where
  imin : Int
  imax : Int
  jmin : Int
  jmax : Int
  kmin : Int
  kmax : Int
  deriving DecidableEq, Repr

/-- The reads of lines 804 to 806 of `CReader::read_boco_structured`, from the buffer
`boco_elems` allocated with `m_boco.nBC_elem * m_base.cell_dim` entries; `none` when a read
lies outside the buffer. -/
def read_point_range (boco_elems : List Int) (cell_dim : Nat) : Option PointRangeBounds :=
  match boco_elems[XX + 0 * cell_dim]?, boco_elems[XX + 1 * cell_dim]?,
        boco_elems[YY + 0 * cell_dim]?, boco_elems[YY + 1 * cell_dim]?,
        boco_elems[ZZ + 0 * cell_dim]?, boco_elems[ZZ + 1 * cell_dim]? with
  | some i0, some i1, some j0, some j1, some k0, some k1 =>
    some { imin := i0 - 1, imax := i1 - 1, jmin := j0 - 1, jmax := j1 - 1,
           kmin := k0 - 1, kmax := k1 - 1 }
  | _, _, _, _, _, _ => none

/-! ## CGNS reader: element counts of a zone (`get_total_nbElements`,
`create_structured_elements`) -/

/-- The type of a zone (`ZoneType_t` of the CGNS library). -/
inductive ZoneType_t where
  | ZoneTypeNull
  | ZoneTypeUserDefined
  | Structured
  | Unstructured
  deriving DecidableEq, Repr

/-- Conversion of an `int` value to `Uint`, an unsigned integer of `uint_bits` bits (the
typedef `Uint` is not among the sources, so its width is a parameter): the value modulo
`2 ^ uint_bits`. -/
def to_Uint (uint_bits : Nat) (z : Int) : Nat :=
  (z % (2 ^ uint_bits : Int)).toNat

/-- What `cg_section_read` reports for one section: its first and last element number. -/
structure SectionRange where
  eBegin : Int
  eEnd : Int
  deriving DecidableEq, Repr

/-- The data of `m_zone` that the element counts depend on, and the sections of the zone in
the file, in the order of their index (1 to `nbSections`). -/
structure Zone where
  type : ZoneType_t
  coord_dim : Int
  nbVertices : Nat → Int
  sections : List SectionRange

/-- The function `CReader::get_total_nbElements`. The local `Uint nbElements` is computed
modulo `2 ^ uint_bits`; for a zone that is neither unstructured nor structured it is returned
without having been set (`none`). -/
def get_total_nbElements (uint_bits : Nat) (zone : Zone) : Option Nat :=
  match zone.type with
  | .Unstructured =>
    -- nbElements = 0; for every section: nbElements += eEnd - eBegin + 1
    some (zone.sections.foldl
      (fun nbElements sec =>
        (nbElements + to_Uint uint_bits (sec.eEnd - sec.eBegin + 1)) % 2 ^ uint_bits)
      (to_Uint uint_bits 0))
  | .Structured =>
    -- nbElements = 1; for (d = 0; d < coord_dim; ++d) nbElements *= nbVertices[d] - 1
    some ((List.range zone.coord_dim.toNat).foldl
      (fun nbElements d =>
        (nbElements * to_Uint uint_bits (zone.nbVertices d - 1)) % 2 ^ uint_bits)
      (to_Uint uint_bits 1))
  | _ => none

/-- The rows that the second `switch (m_base.cell_dim)` of
`CReader::create_structured_elements` adds with `add_row_directly`, in the order of the loops.
The function `structured_node_idx` is declared in a header that is not among the sources and
is a parameter. -/
def create_structured_elements_rows (structured_node_idx : Nat → Nat → Nat → Nat)
    (zone : Zone) (cell_dim : Int) : List (List Nat) :=
  if cell_dim = 3 then
    (List.range (zone.nbVertices ZZ - 1).toNat).flatMap fun (k : Nat) =>
      (List.range (zone.nbVertices YY - 1).toNat).flatMap fun (j : Nat) =>
        (List.range (zone.nbVertices XX - 1).toNat).map fun (i : Nat) =>
          [structured_node_idx i j k, structured_node_idx (i + 1) j k,
           structured_node_idx (i + 1) (j + 1) k, structured_node_idx i (j + 1) k,
           structured_node_idx i j (k + 1), structured_node_idx (i + 1) j (k + 1),
           structured_node_idx (i + 1) (j + 1) (k + 1), structured_node_idx i (j + 1) (k + 1)]
  else if cell_dim = 2 then
    (List.range (zone.nbVertices YY - 1).toNat).flatMap fun (j : Nat) =>
      (List.range (zone.nbVertices XX - 1).toNat).map fun (i : Nat) =>
        [structured_node_idx i j 0, structured_node_idx (i + 1) j 0,
         structured_node_idx (i + 1) (j + 1) 0, structured_node_idx i (j + 1) 0]
  else if cell_dim = 1 then
    (List.range (zone.nbVertices XX - 1).toNat).map fun (i : Nat) =>
      [structured_node_idx i 0 0, structured_node_idx (i + 1) 0 0]
  else []

/-! ## CGNS reader: elements of a section with one element type (`read_section`) -/

/-- The expression `std::find(v.begin(), v.end(), g) - v.begin()`: the position of the first
entry equal to `g`, or the size of `v` when there is none. -/
def find_index (g : Nat) : List Nat → Nat
  | [] => 0
  | a :: rest => if a = g then 0 else find_index g rest + 1

/-- What the branch of `CReader::read_section` for a section with a single element type
fills: the rows added to the connectivity table (`element_buffer`), the vector
`coords_added`, the rows added to the coordinate buffer of the section (`coord_buffer`; each
row is the copy of the row of `all_coordinates` whose index is recorded here), and the vector
`m_global_to_region` (element region, local element number). -/
structure SectionFill where
  rows : List (List Nat)
  coords_added : List Nat
  coord_rows : List Nat
  global_to_region : List (String × Nat)

/-- The body of the loop over `node` (lines 483 to 499): `acc.1` holds the entries of `row`
set so far. `coord_buffer.add_row` returns the index of the row it adds, the number of rows
the buffer held before. -/
def read_section_node (uint_bits : Nat) (shared_coordinates : Bool) (elemNodes : List Int)
    (elemNodeCount elem : Nat) (acc : List Nat × SectionFill) (node : Nat) :
    List Nat × SectionFill :=
  -- global_coord_idx = elemNodes[node+elem*m_section.elemNodeCount]-1
  let global_coord_idx := to_Uint uint_bits (elemNodes.getD (node + elem * elemNodeCount) 0 - 1)
  if shared_coordinates then
    (acc.1 ++ [global_coord_idx], acc.2)
  else
    let local_coord_idx := find_index global_coord_idx acc.2.coords_added
    if local_coord_idx ≥ acc.2.coords_added.length then
      (acc.1 ++ [acc.2.coord_rows.length],
       { acc.2 with coords_added := acc.2.coords_added ++ [global_coord_idx],
                    coord_rows := acc.2.coord_rows ++ [global_coord_idx] })
    else
      (acc.1 ++ [local_coord_idx], acc.2)

/-- The body of the loop over `elem` (lines 481 to 504). -/
def read_section_elem (uint_bits : Nat) (shared_coordinates : Bool) (elemNodes : List Int)
    (elemNodeCount : Nat) (element_region : String) (fill : SectionFill) (elem : Nat) :
    SectionFill :=
  let r := (List.range elemNodeCount).foldl
    (read_section_node uint_bits shared_coordinates elemNodes elemNodeCount elem) ([], fill)
  -- element_buffer.add_row_directly(row); m_global_to_region.push_back(...)
  { r.2 with rows := r.2.rows ++ [r.1],
             global_to_region := r.2.global_to_region ++ [(element_region, elem)] }

/-- The branch of `CReader::read_section` for a section with a single element type, from the
computation of `nbElems` (line 445) to the end of the loop over the elements (line 505);
`elemNodes` is what `cg_elements_read` delivers, `m_section.elemDataSize` entries. -/
def read_section_single (uint_bits : Nat) (shared_coordinates : Bool) (elemNodeCount : Nat)
    (elemNodes : List Int) (element_region : String) (fill : SectionFill) : SectionFill :=
  let elemDataSize := elemNodes.length
  let nbElems := elemDataSize / elemNodeCount
  (List.range nbElems).foldl
    (read_section_elem uint_bits shared_coordinates elemNodes elemNodeCount element_region) fill

/-- Specification of `in order of first occurrence`: the entries of `l` that are not in `seen`
and have not occurred before, in the order of `l`. -/
def first_occurrences_after (seen : List Nat) : List Nat → List Nat
  | [] => []
  | g :: rest =>
    if g ∈ seen then first_occurrences_after seen rest
    else g :: first_occurrences_after (seen ++ [g]) rest

/-- Specification: the distinct entries of `l`, each once, in the order of their first
occurrence. -/
def first_occurrences (l : List Nat) : List Nat :=
  first_occurrences_after [] l

/-! ## CGNS reader: boundary condition given as a list of elements
(`read_boco_unstructured`, case `ElementList`) -/

/-- A `CElements` component as `CReader::read_boco_unstructured` uses it: the region that
`get_parent()` gives (regions are identified by a number, since `rename` changes their name),
the name that `element_type().getElementTypeName()` gives, and the rows of
`connectivity_table()`. -/
structure ElementsComponent where
  parent : Nat
  element_type_name : String
  connectivity_table : List (List Nat)

/-- The part of the mesh and of the reader that the case `ElementList` of
`CReader::read_boco_unstructured` reads: the `CElements` components, the vector
`m_global_to_region` (each entry a pair of a position in `elements` and a local element
number), and what `recursive_elements_count()` returns for each region. -/
structure BocoMesh where
  elements : List ElementsComponent
  m_global_to_region : List (Nat × Nat)
  recursive_elements_count : Nat → Nat

/-- What the case `ElementList` of `CReader::read_boco_unstructured` does to the mesh: either
`group_region->rename(m_boco.name)` on an existing region, or `create_region(m_boco.name)`
followed by one `add_row` per listed element, each recorded with the element type name that
selects the buffer and the row that is copied. -/
inductive BocoResult where
  | renamed (group_region : Nat) (name : String)
  | created (name : String) (rows : List (String × List Nat))
deriving DecidableEq

/-- Read of entry `i` of a vector through an `int` index; `none` outside the vector. -/
def vector_at {α : Type} (v : List α) (i : Int) : Option α :=
  if i < 0 then none else v[i.toNat]?

/-- One pass of the loop over `i` in the case `ElementList`: the row that `add_row` copies for
the listed element `boco_elem`, with the element type name that selects the buffer. -/
def read_boco_unstructured_row (uint_bits : Nat) (mesh : BocoMesh) (boco_elem : Int) :
    Option (String × List Nat) := do
  let global_element := to_Uint uint_bits (boco_elem - 1)
  let entry ← mesh.m_global_to_region[global_element]?
  let element_region ← mesh.elements[entry.1]?
  let local_element := entry.2
  let row ← element_region.connectivity_table[local_element]?
  pure (element_region.element_type_name, row)

/-- The case `ElementList` of `CReader::read_boco_unstructured`, for an unstructured zone:
`boco_name_char` is the name read from the file and `boco_elems` the `nBC_elem` element
numbers read. The result is `none` when a read falls outside `boco_elems`,
`m_global_to_region` or a connectivity table. -/
def read_boco_unstructured_ElementList (uint_bits : Nat) (mesh : BocoMesh)
    (boco_name_char : String) (boco_elems : List Int) : Option BocoResult := do
  let name := sanitise_name boco_name_char
  let nBC_elem : Int := boco_elems.length
  let first ← vector_at boco_elems 0
  let last ← vector_at boco_elems (nBC_elem - 1)
  let first_entry ← vector_at mesh.m_global_to_region (first - 1)
  let last_entry ← vector_at mesh.m_global_to_region (last - 1)
  let first_elements ← mesh.elements[first_entry.1]?
  let last_elements ← mesh.elements[last_entry.1]?
  if first_elements.parent = last_elements.parent ∧
      mesh.recursive_elements_count first_elements.parent
        = to_Uint uint_bits (last - first + 1) then
    pure (BocoResult.renamed first_elements.parent name)
  else
    let rows ← boco_elems.mapM (read_boco_unstructured_row uint_bits mesh)
    pure (BocoResult.created name rows)

/-- The global element numbers (1-based positions in `m_global_to_region`) of the elements
that lie in `region`. -/
def region_global_elements (mesh : BocoMesh) (region : Nat) : List Int :=
  ((List.range mesh.m_global_to_region.length).filter (fun g =>
    match mesh.m_global_to_region[g]? with
    | some entry =>
      (match mesh.elements[entry.1]? with
       | some el => el.parent == region
       | none => false)
    | none => false)).map (fun g => ((g + 1 : Nat) : Int))

/-- The group `RDM` as `LibCore::initiate_impl` leaves it. -/
def rdm_group : Component :=
  .mk "RDM" "CGroup" true
    [.mk "Setup_RD_Steady_Explicit" "SteadyExplicit" true [],
     .mk "Setup_RD_My_Sim" "MySim" true []]

/-- One member call after another on the same component; the second runs only when the first
succeeded. -/
def and_then (f h : Component → Except Error Component) (p : Component) :
    Except Error Component :=
  match f p with
  | .ok p1 => h p1
  | .error e => .error e

/-- The tree `c` in which the child `n`, originally `d`, has received `x` as its last child. -/
def with_last_grandchild (c d : Component) (n : String) (x : Component) : Component :=
  c.set_children (replace_child n (d.set_children (d.children ++ [x])) c.children)

/-! ## Properties -/

theorem initiate_eq_body (mode : AssertMode) (l : Library) :
    initiate mode l = initiate_body mode l := by
  unfold initiate
  cases l.which <;> rfl

theorem terminate_eq_body (l : Library) : terminate l = terminate_body l := by
  unfold terminate
  cases l.which <;> rfl

theorem run_state_append (mode : AssertMode) (l : Library) (cs ds : List Call) :
    run_state mode l (cs ++ ds) = run_state mode (run_state mode l cs) ds := by
  induction cs generalizing l with
  | nil => rfl
  | cons c cs ih =>
    simp only [run_state, run, List.cons_append] at ih ⊢
    exact ih _

/-- C1: for each of the eight libraries and either assertion behaviour, `initiate()` on a
library that is not initiated passes its assertion and leaves it initiated; on a library that
is already initiated the assertion `!m_is_initiated` is violated and the library is still
initiated afterwards; the assertion fails exactly when the library was already initiated. -/
theorem C1_initiate_assertion_iff (mode : AssertMode) (l : Library) :
    (initiate mode l).assertion_failed = l.m_is_initiated ∧
    (initiate mode l).lib.m_is_initiated = true ∧
    (initiate mode l).lib.which = l.which ∧
    (initiate mode { l with m_is_initiated := false }).completed = true := by
  obtain ⟨w, b⟩ := l
  cases b <;> cases mode <;> simp [initiate_eq_body, initiate_body]

/-- C2 (as stated, refuted): `terminate()` on a library that was never initiated trips no
assertion, although it leaves the state unchanged. -/
theorem C2_terminate_no_assertion_counterexample :
    ¬ ((terminate { which := .LibCGNS, m_is_initiated := false }).assertion_failed = true ∧
       (terminate { which := .LibCGNS, m_is_initiated := false }).lib
         = { which := .LibCGNS, m_is_initiated := false }) := by
  decide

/-- C2 (amended): `terminate()` on a library that is not initiated runs to its end without
any assertion and leaves the library state unchanged. -/
theorem C2_terminate_not_initiated_unchanged (l : Library) (h : l.m_is_initiated = false) :
    (terminate l).lib = l ∧ (terminate l).assertion_failed = false ∧
    (terminate l).completed = true := by
  rw [terminate_eq_body]
  obtain ⟨w, b⟩ := l
  simp only at h
  subst h
  simp [terminate_body]

theorem C2_terminate_not_initiated_unchanged_witness :
    (terminate { which := .LibNetwork, m_is_initiated := false }).lib
        = { which := .LibNetwork, m_is_initiated := false } ∧
    (terminate { which := .LibNetwork, m_is_initiated := false }).assertion_failed = false ∧
    (terminate { which := .LibNetwork, m_is_initiated := false }).completed = true :=
  C2_terminate_not_initiated_unchanged { which := .LibNetwork, m_is_initiated := false } rfl

/-- C3 (as stated, refuted): after `initiate(); terminate()`, a further `initiate()` brings
the library back to the initiated state and no assertion is violated on the way. -/
theorem C3_reinitiate_counterexample :
    ¬ ((run .raises { which := .LibActions, m_is_initiated := false }
          [.initiate, .terminate, .initiate]).1.m_is_initiated = false ∨
       true ∈ (run .raises { which := .LibActions, m_is_initiated := false }
          [.initiate, .terminate, .initiate]).2) := by
  decide

/-- C3 (amended): the lifecycle flag has two values and the cycle can be repeated: after any
sequence of calls that ends with `terminate()` the library is not initiated, and the next
`initiate()` passes its assertion, runs to its end and brings the library back to the
initiated state; at any point of a sequence, `initiate()` violates its assertion exactly when
the library is initiated at that point. -/
theorem C3_initiate_after_terminate (mode : AssertMode) (l : Library) (cs : List Call) :
    (run_state mode l (cs ++ [.terminate])).m_is_initiated = false ∧
    (initiate mode (run_state mode l (cs ++ [.terminate]))).assertion_failed = false ∧
    (initiate mode (run_state mode l (cs ++ [.terminate]))).completed = true ∧
    (run_state mode l (cs ++ [.terminate, .initiate])).m_is_initiated = true ∧
    (initiate mode (run_state mode l cs)).assertion_failed
      = (run_state mode l cs).m_is_initiated := by
  have h1 : (run_state mode l (cs ++ [.terminate])).m_is_initiated = false := by
    rw [run_state_append]
    simp [run_state, run, call, terminate_eq_body, terminate_body]
  have h2 : run_state mode l (cs ++ [.terminate, .initiate])
      = (initiate mode (run_state mode l (cs ++ [.terminate]))).lib := by
    have : cs ++ [Call.terminate, Call.initiate] = (cs ++ [.terminate]) ++ [.initiate] := by simp
    rw [this, run_state_append mode l (cs ++ [Call.terminate]) [Call.initiate]]
    simp [run_state, run, call]
  refine ⟨h1, ?_, ?_, ?_, ?_⟩
  · rw [initiate_eq_body]; simp [initiate_body, h1]
  · rw [initiate_eq_body]; simp [initiate_body, h1]
  · rw [h2, initiate_eq_body]; simp [initiate_body, h1]
  · rw [initiate_eq_body]
    cases h : (run_state mode l cs).m_is_initiated <;> cases mode <;> simp [initiate_body, h]


/-! ### Lists of children -/

theorem find_child_name {n : String} {l : List Component} {c : Component}
    (h : find_child n l = some c) : c.name = n := by
  induction l with
  | nil => simp [find_child] at h
  | cons a l ih =>
    unfold find_child at h
    split at h
    · cases h; assumption
    · exact ih h

theorem find_child_append_none {n : String} {l : List Component} (x : Component)
    (h : find_child n l = none) :
    find_child n (l ++ [x]) = if x.name = n then some x else none := by
  induction l with
  | nil => simp [find_child]
  | cons a l ih =>
    unfold find_child at h
    split at h
    · cases h
    · simp [find_child, *]

theorem replace_child_append_none {n : String} {l : List Component} (x d : Component)
    (h : find_child n l = none) (hx : x.name = n) :
    replace_child n d (l ++ [x]) = l ++ [d] := by
  induction l with
  | nil => simp [replace_child, hx]
  | cons a l ih =>
    unfold find_child at h
    split at h
    · cases h
    · simp [replace_child, *]

theorem erase_child_append_none {n : String} {l : List Component} (x : Component)
    (h : find_child n l = none) (hx : x.name = n) :
    erase_child n (l ++ [x]) = l := by
  induction l with
  | nil => simp [erase_child, hx]
  | cons a l ih =>
    unfold find_child at h
    split at h
    · cases h
    · simp [erase_child, *]

theorem find_child_replace {n : String} {l : List Component} {c : Component} (d : Component)
    (h : find_child n l = some c) (hd : d.name = n) :
    find_child n (replace_child n d l) = some d := by
  induction l with
  | nil => simp [find_child] at h
  | cons a l ih =>
    unfold find_child at h
    split at h
    · simp [replace_child, find_child, *]
    · simp [replace_child, find_child, *]

theorem replace_child_replace {n : String} {l : List Component} (d e : Component)
    (hd : d.name = n) :
    replace_child n e (replace_child n d l) = replace_child n e l := by
  induction l with
  | nil => rfl
  | cons a l ih =>
    by_cases ha : a.name = n
    · simp [replace_child, ha, hd]
    · simp [replace_child, ha, ih]

theorem replace_child_self {n : String} {l : List Component} {c : Component}
    (h : find_child n l = some c) : replace_child n c l = l := by
  induction l with
  | nil => rfl
  | cons a l ih =>
    unfold find_child at h
    split at h
    · cases h; simp [replace_child, *]
    · simp [replace_child, *]

@[simp] theorem Component.set_children_children (c : Component) (l : List Component) :
    (c.set_children l).children = l := by
  cases c; rfl

@[simp] theorem Component.set_children_name (c : Component) (l : List Component) :
    (c.set_children l).name = c.name := by
  cases c; rfl

@[simp] theorem Component.set_children_set_children (c : Component) (l m : List Component) :
    (c.set_children l).set_children m = c.set_children m := by
  cases c; rfl

@[simp] theorem Component.set_children_self (c : Component) :
    c.set_children c.children = c := by
  cases c; rfl

/-! ### Member calls through pointer chains -/

/-- A call below the child `n`, after that child has been replaced by `d1`, acts on `d1`. -/
theorem update_at_under (f : Component → Except Error Component) (c d d1 : Component)
    (n : String) (ns : List String)
    (h : get_child_ptr c n = some d) (hd1 : d1.name = n) :
    update_at f (c.set_children (replace_child n d1 c.children)) (n :: ns)
      = match update_at f d1 ns with
        | .error e => .error e
        | .ok d2 => .ok (c.set_children (replace_child n d2 c.children)) := by
  unfold get_child_ptr at h
  simp only [update_at, get_child_ptr, Component.set_children_children,
    find_child_replace d1 h hd1, Component.set_children_set_children,
    replace_child_replace _ _ hd1]

/-- A call below the child `n` acts on that child. -/
theorem update_at_child (f : Component → Except Error Component) (c d : Component)
    (n : String) (ns : List String) (h : get_child_ptr c n = some d) :
    update_at f c (n :: ns)
      = match update_at f d ns with
        | .error e => .error e
        | .ok d2 => .ok (c.set_children (replace_child n d2 c.children)) := by
  simp only [update_at, h]

/-- A call below a child that was appended last, under a name not used before. -/
theorem update_at_last (f : Component → Except Error Component) (c x : Component)
    (l : List Component) (n : String) (ns : List String)
    (hl : find_child n l = none) (hx : x.name = n) :
    update_at f (c.set_children (l ++ [x])) (n :: ns)
      = match update_at f x ns with
        | .error e => .error e
        | .ok x2 => .ok (c.set_children (l ++ [x2])) := by
  simp only [update_at, get_child_ptr, Component.set_children_children,
    find_child_append_none x hl, hx, if_true, Component.set_children_set_children,
    replace_child_append_none x _ hl hx]

/-- A call below a grandchild: the child `n` of `c` has been replaced by a copy of `d` whose
last child `x` was appended under the fresh name `m`; the call acts on `x`. -/
theorem update_at_under_last (f : Component → Except Error Component) (c d x : Component)
    (n m : String) (ns : List String)
    (h : get_child_ptr c n = some d) (hm : get_child_ptr d m = none) (hx : x.name = m) :
    update_at f
        (c.set_children (replace_child n (d.set_children (d.children ++ [x])) c.children))
        (n :: m :: ns)
      = match update_at f x ns with
        | .error e => .error e
        | .ok x2 => .ok (c.set_children
            (replace_child n (d.set_children (d.children ++ [x2])) c.children)) := by
  have hn : d.name = n := find_child_name h
  rw [update_at_under f c d _ n (m :: ns) h (by simp [hn]),
    update_at_last f d x d.children m ns hm hx]
  cases update_at f x ns <;> rfl

/-- Successful form of `update_at_under_last`. -/
theorem update_at_under_last_ok (f : Component → Except Error Component)
    (c d x x2 : Component) (n m : String) (ns : List String)
    (h : get_child_ptr c n = some d) (hm : get_child_ptr d m = none) (hx : x.name = m)
    (hf : update_at f x ns = .ok x2) :
    update_at f (with_last_grandchild c d n x) (n :: m :: ns)
      = .ok (with_last_grandchild c d n x2) := by
  unfold with_last_grandchild
  rw [update_at_under_last f c d x n m ns h hm hx, hf]

/-- Closed form of `LibCore::initiate_impl` on a tree that has `Tools` without `RDM`. -/
theorem initiate_impl_eq (root tools : Component)
    (hT : get_child_ptr root "Tools" = some tools)
    (hR : get_child_ptr tools "RDM" = none) :
    LibCore.initiate_impl root = .ok (with_last_grandchild root tools "Tools" rdm_group) := by
  have s1 : update_at (fun tools => create_component_ptr tools "CGroup" "RDM") root ["Tools"]
      = .ok (with_last_grandchild root tools "Tools" (.mk "RDM" "CGroup" false [])) := by
    rw [update_at_child _ _ _ _ _ hT]
    simp [update_at, create_component_ptr, add_component, construct, Component.name, hR,
      with_last_grandchild]
  have s2 := update_at_under_last_ok (fun g => .ok g.mark_basic) root tools
    (.mk "RDM" "CGroup" false []) (.mk "RDM" "CGroup" true []) "Tools" "RDM" [] hT hR rfl rfl
  have s3 := update_at_under_last_ok
    (fun g => create_component_ptr g "SteadyExplicit" "Setup_RD_Steady_Explicit") root tools
    (.mk "RDM" "CGroup" true [])
    (.mk "RDM" "CGroup" true [.mk "Setup_RD_Steady_Explicit" "SteadyExplicit" false []])
    "Tools" "RDM" [] hT hR rfl rfl
  have s4 := update_at_under_last_ok (fun s => .ok s.mark_basic) root tools
    (.mk "RDM" "CGroup" true [.mk "Setup_RD_Steady_Explicit" "SteadyExplicit" false []])
    (.mk "RDM" "CGroup" true [.mk "Setup_RD_Steady_Explicit" "SteadyExplicit" true []])
    "Tools" "RDM" ["Setup_RD_Steady_Explicit"] hT hR rfl rfl
  have s5 := update_at_under_last_ok
    (fun g => create_component_ptr g "MySim" "Setup_RD_My_Sim") root tools
    (.mk "RDM" "CGroup" true [.mk "Setup_RD_Steady_Explicit" "SteadyExplicit" true []])
    (.mk "RDM" "CGroup" true [.mk "Setup_RD_Steady_Explicit" "SteadyExplicit" true [],
      .mk "Setup_RD_My_Sim" "MySim" false []])
    "Tools" "RDM" [] hT hR rfl rfl
  have s6 := update_at_under_last_ok (fun s => .ok s.mark_basic) root tools
    (.mk "RDM" "CGroup" true [.mk "Setup_RD_Steady_Explicit" "SteadyExplicit" true [],
      .mk "Setup_RD_My_Sim" "MySim" false []])
    rdm_group "Tools" "RDM" ["Setup_RD_My_Sim"] hT hR rfl rfl
  unfold LibCore.initiate_impl
  simp only [bind, Except.bind, s1, s2, s3, s4, s5, s6]

/-- Closed form of `LibCore::terminate_impl` on the tree that `initiate_impl` produced. -/
theorem terminate_impl_after_initiate (missing_raises : Bool) (root tools : Component)
    (hT : get_child_ptr root "Tools" = some tools)
    (hR : get_child_ptr tools "RDM" = none) :
    LibCore.terminate_impl missing_raises (with_last_grandchild root tools "Tools" rdm_group)
      = .ok root := by
  have hn : tools.name = "Tools" := find_child_name hT
  have hR2 : find_child "RDM" tools.children = none := hR
  have s1 := update_at_under_last_ok
    (fun g => (remove_component missing_raises g "Setup_RD_Steady_Explicit").map Prod.fst)
    root tools rdm_group (.mk "RDM" "CGroup" true [.mk "Setup_RD_My_Sim" "MySim" true []])
    "Tools" "RDM" [] hT hR rfl rfl
  have s2 := update_at_under_last_ok
    (fun g => (remove_component missing_raises g "Setup_RD_My_Sim").map Prod.fst)
    root tools (.mk "RDM" "CGroup" true [.mk "Setup_RD_My_Sim" "MySim" true []])
    (.mk "RDM" "CGroup" true []) "Tools" "RDM" [] hT hR rfl rfl
  have s3 : update_at (fun t => (remove_component missing_raises t "RDM").map Prod.fst)
      (with_last_grandchild root tools "Tools" (.mk "RDM" "CGroup" true [])) ["Tools"]
      = .ok root := by
    unfold with_last_grandchild
    rw [update_at_under _ _ _ _ _ _ hT (by simp [hn])]
    simp [update_at, remove_component, get_child_ptr, find_child_append_none _ hR2,
      Component.name, Except.map, erase_child_append_none _ hR2, replace_child_self hT]
  unfold LibCore.terminate_impl
  simp only [bind, Except.bind, s1, s2, s3]


/-- C4: on every tree whose root has a child `Tools` without a child `RDM`,
`LibCore::initiate_impl()` succeeds and creates the group `Tools/RDM` (marked basic) with the
two children `Setup_RD_Steady_Explicit` and `Setup_RD_My_Sim` (marked basic), and
`LibCore::terminate_impl()` run on the result succeeds and gives back a tree equal to the
original one. -/
theorem C4_initiate_then_terminate_restores (missing_raises : Bool) (root tools : Component)
    (hT : get_child_ptr root "Tools" = some tools)
    (hR : get_child_ptr tools "RDM" = none) :
    ∃ mid : Component,
      LibCore.initiate_impl root = .ok mid ∧
      get_at mid ["Tools", "RDM"] = some rdm_group ∧
      LibCore.terminate_impl missing_raises mid = .ok root ∧
      (LibCore.initiate_impl root >>= LibCore.terminate_impl missing_raises) = .ok root := by
  refine ⟨_, initiate_impl_eq root tools hT hR, ?_,
    terminate_impl_after_initiate missing_raises root tools hT hR, ?_⟩
  · have hn : tools.name = "Tools" := find_child_name hT
    have hT2 : find_child "Tools" root.children = some tools := hT
    have hR2 : find_child "RDM" tools.children = none := hR
    simp only [get_at, with_last_grandchild, get_child_ptr, Component.set_children_children]
    rw [find_child_replace _ hT2 (by simp [hn])]
    simp [find_child_append_none _ hR2, rdm_group, Component.name]
  · rw [initiate_impl_eq root tools hT hR]
    exact terminate_impl_after_initiate missing_raises root tools hT hR

theorem C4_initiate_then_terminate_restores_witness :
    ∃ mid : Component,
      LibCore.initiate_impl (.mk "Root" "CRoot" false
        [.mk "Libraries" "CGroup" false [],
         .mk "Tools" "CGroup" false [.mk "Plotter" "CPlotter" true []]]) = .ok mid ∧
      get_at mid ["Tools", "RDM"] = some rdm_group ∧
      LibCore.terminate_impl true mid = .ok (.mk "Root" "CRoot" false
        [.mk "Libraries" "CGroup" false [],
         .mk "Tools" "CGroup" false [.mk "Plotter" "CPlotter" true []]]) ∧
      (LibCore.initiate_impl (.mk "Root" "CRoot" false
        [.mk "Libraries" "CGroup" false [],
         .mk "Tools" "CGroup" false [.mk "Plotter" "CPlotter" true []]])
          >>= LibCore.terminate_impl true) = .ok (.mk "Root" "CRoot" false
        [.mk "Libraries" "CGroup" false [],
         .mk "Tools" "CGroup" false [.mk "Plotter" "CPlotter" true []]]) :=
  C4_initiate_then_terminate_restores true
    (.mk "Root" "CRoot" false
      [.mk "Libraries" "CGroup" false [],
       .mk "Tools" "CGroup" false [.mk "Plotter" "CPlotter" true []]])
    (.mk "Tools" "CGroup" false [.mk "Plotter" "CPlotter" true []]) rfl rfl

/-- Whenever `Tools` exists and has no child `RDM`, `LibCore::terminate_impl()` applies `->`
to the null pointer returned by `get_child_ptr("RDM")`. -/
theorem terminate_impl_without_rdm (missing_raises : Bool) (root tools : Component)
    (hT : get_child_ptr root "Tools" = some tools)
    (hR : get_child_ptr tools "RDM" = none) :
    LibCore.terminate_impl missing_raises root = .error .NullDereference := by
  simp [LibCore.terminate_impl, update_at, hT, hR, bind, Except.bind]

/-- C5 (the code at the failing input): on the tree `Root/Tools` in which `Tools` has no child
`RDM`, `LibCore::terminate_impl()` does not complete: its first statement dereferences the
null pointer that `get_child_ptr("RDM")` returns, whatever `remove_component` does for a
missing child. -/
theorem C5_terminate_impl_null_dereference :
    LibCore.terminate_impl true (.mk "Root" "CRoot" false [.mk "Tools" "CGroup" false []])
      = .error .NullDereference ∧
    LibCore.terminate_impl false (.mk "Root" "CRoot" false [.mk "Tools" "CGroup" false []])
      = .error .NullDereference :=
  ⟨terminate_impl_without_rdm true _ (.mk "Tools" "CGroup" false []) rfl rfl,
   terminate_impl_without_rdm false _ (.mk "Tools" "CGroup" false []) rfl rfl⟩

/-! ### Calls through a handle obtained by resolution -/

theorem update_at_name (f : Component → Except Error Component)
    (hf : ∀ p p1, f p = .ok p1 → p1.name = p.name) (c c1 : Component) (addr : List String)
    (h : update_at f c addr = .ok c1) : c1.name = c.name := by
  cases addr with
  | nil => exact hf c c1 h
  | cons n ns =>
    simp only [update_at] at h
    split at h
    · cases h
    · split at h
      · cases h
      · cases h; simp

theorem update_at_append (g : Component → Except Error Component) (c : Component)
    (addr : List String) (n : String) :
    update_at g c (addr ++ [n]) = update_at (fun p => update_at g p [n]) c addr := by
  induction addr generalizing c with
  | nil => rfl
  | cons m ms ih =>
    cases hd : get_child_ptr c m with
    | none => simp [update_at, hd]
    | some d =>
      rw [List.cons_append, update_at_child _ _ _ _ _ hd, update_at_child _ _ _ _ _ hd, ih d]

theorem update_at_then (f h : Component → Except Error Component)
    (hf : ∀ p p1, f p = .ok p1 → p1.name = p.name) (c c1 : Component) (addr : List String)
    (hc : update_at f c addr = .ok c1) :
    update_at h c1 addr = update_at (and_then f h) c addr := by
  induction addr generalizing c c1 with
  | nil =>
    simp only [update_at, and_then] at hc ⊢
    rw [hc]
  | cons n ns ih =>
    cases hd : get_child_ptr c n with
    | none => simp [update_at, hd] at hc
    | some d =>
      rw [update_at_child _ _ _ _ _ hd] at hc ⊢
      cases hd1 : update_at f d ns with
      | error e => simp [hd1] at hc
      | ok d1 =>
        simp only [hd1, Except.ok.injEq] at hc
        subst hc
        have hn : d1.name = n := by
          rw [update_at_name f hf d d1 ns hd1]; exact find_child_name hd
        rw [update_at_under h c d d1 n ns hd hn, ih d d1 hd1]

theorem update_at_ok_get (f : Component → Except Error Component) (c c1 : Component)
    (addr : List String) (hc : update_at f c addr = .ok c1) :
    ∃ p p1, get_at c addr = some p ∧ f p = .ok p1 := by
  induction addr generalizing c c1 with
  | nil => exact ⟨c, c1, rfl, hc⟩
  | cons n ns ih =>
    cases hd : get_child_ptr c n with
    | none => simp [update_at, hd] at hc
    | some d =>
      rw [update_at_child _ _ _ _ _ hd] at hc
      cases hd1 : update_at f d ns with
      | error e => simp [hd1] at hc
      | ok d1 =>
        obtain ⟨p, p1, hp, hp1⟩ := ih d d1 hd1
        exact ⟨p, p1, by simp [get_at, hd, hp], hp1⟩

theorem get_at_update (f : Component → Except Error Component) (c p p1 : Component)
    (addr : List String) (hp : get_at c addr = some p) (hf : f p = .ok p1)
    (hn : p1.name = p.name) :
    ∃ c1, update_at f c addr = .ok c1 ∧ c1.name = c.name ∧ get_at c1 addr = some p1 := by
  induction addr generalizing c with
  | nil =>
    simp only [get_at, Option.some.injEq] at hp
    subst hp
    exact ⟨p1, hf, hn, rfl⟩
  | cons n ns ih =>
    cases hd : get_child_ptr c n with
    | none => simp [get_at, hd] at hp
    | some d =>
      simp only [get_at, hd] at hp
      obtain ⟨d1, hd1, hdn, hg⟩ := ih d hp
      have hdn2 : d1.name = n := by rw [hdn]; exact find_child_name hd
      refine ⟨c.set_children (replace_child n d1 c.children), ?_, by simp, ?_⟩
      · rw [update_at_child _ _ _ _ _ hd, hd1]
      · have hd2 : find_child n c.children = some d := hd
        simp [get_at, get_child_ptr, find_child_replace d1 hd2 hdn2, hg]

theorem add_component_name (plot p p1 : Component) (h : add_component p plot = .ok p1) :
    p1.name = p.name := by
  unfold add_component at h
  split at h
  · cases h
  · cases h; simp

/-- Attaching the plot and marking it basic, seen from the parent. -/
theorem add_then_mark (P : Component) (name : String)
    (hc : get_child_ptr P name = none) :
    and_then (fun p => add_component p (construct "CPlotXY" name))
        (fun p1 => update_at (fun c => .ok c.mark_basic) p1 [name]) P
      = .ok (P.set_children (P.children ++ [.mk name "CPlotXY" true []])) := by
  have hc2 : find_child name P.children = none := hc
  simp only [and_then, add_component, construct, Component.name, hc]
  rw [update_at_last _ P (.mk name "CPlotXY" false []) P.children name [] hc2 rfl]
  rfl

/-- Once the plot has been attached, marking it basic through its handle cannot fail. -/
theorem mark_after_add (root root1 : Component) (addr : List String) (name : String)
    (h : update_at (fun p => add_component p (construct "CPlotXY" name)) root addr = .ok root1) :
    ∃ root2, update_at (fun c => .ok c.mark_basic) root1 (addr ++ [name]) = .ok root2 := by
  obtain ⟨p, p1, hp, hp1⟩ := update_at_ok_get _ _ _ _ h
  have hc : get_child_ptr p name = none := by
    unfold add_component at hp1
    simp only [construct, Component.name] at hp1
    split at hp1
    · cases hp1
    · assumption
  rw [update_at_append, update_at_then _ _ (add_component_name _) root root1 addr h]
  obtain ⟨c1, h1, _, _⟩ := get_at_update _ root p _ addr hp (add_then_mark p name hc)
    (Component.set_children_name _ _)
  exact ⟨c1, h1⟩

theorem update_at_error (f : Component → Except Error Component) (c : Component)
    (addr : List String) (e : Error) (h : update_at f c addr = .error e) :
    e = .NullDereference ∨ ∃ p, f p = .error e := by
  induction addr generalizing c with
  | nil => exact Or.inr ⟨c, h⟩
  | cons n ns ih =>
    cases hd : get_child_ptr c n with
    | none =>
      simp only [update_at, hd, Except.error.injEq] at h
      exact Or.inl h.symm
    | some d =>
      rw [update_at_child _ _ _ _ _ hd] at h
      cases hd1 : update_at f d ns with
      | error e1 =>
        simp only [hd1, Except.error.injEq] at h
        subst h
        exact ih d hd1
      | ok d1 => simp [hd1] at h

theorem look_component_error (root : Component) (u : URI) (e : Error)
    (h : look_component root u = .error e) : e = .NotFound u.path := by
  unfold look_component at h
  split at h
  · cases h; rfl
  · cases h

theorem add_component_error (p plot : Component) (e : Error)
    (h : add_component p plot = .error e) : e = .DuplicateName plot.name := by
  unfold add_component at h
  split at h
  · cases h; rfl
  · cases h

/-- What `signal_create_xyplot` does once its three checks have passed: either it fails
during resolution or attachment and leaves the tree as it was, or it attaches the plot and
marks it basic. -/
theorem create_xyplot_after_checks (options : SignalFrame) (core : Core)
    (name : String) (parent : URI)
    (hname : get_option_string options "Plot name" = .ok name)
    (hparent : get_option_uri options "Parent" = .ok parent)
    (h1 : name ≠ "") (h2 : parent.empty = false) (h3 : parent.scheme = Scheme.CPATH) :
    (∃ e, CPlotter.signal_create_xyplot options core
        = (.error e, { core with look_component_calls := core.look_component_calls + 1 }) ∧
      (e = .NotFound parent.path ∨ e = .NullDereference ∨ e = .DuplicateName name)) ∨
    (∃ addr root1 root2, look_component core.root parent = .ok addr ∧
      update_at (fun p => add_component p (construct "CPlotXY" name)) core.root addr
        = .ok root1 ∧
      update_at (fun c => .ok c.mark_basic) root1 (addr ++ [name]) = .ok root2 ∧
      CPlotter.signal_create_xyplot options core
        = (.ok (), { root := root2, look_component_calls := core.look_component_calls + 1 })) := by
  simp only [CPlotter.signal_create_xyplot, hname, hparent, h1, h2, h3, if_false,
    ne_eq, not_true_eq_false, Bool.false_eq_true]
  cases hl : look_component core.root parent with
  | error e =>
    left
    exact ⟨e, rfl, Or.inl (look_component_error _ _ _ hl)⟩
  | ok addr =>
    cases ha : update_at (fun p => add_component p (construct "CPlotXY" name)) core.root addr with
    | error e =>
      left
      refine ⟨e, by simp only [ha], ?_⟩
      rcases update_at_error _ _ _ _ ha with h | ⟨p, hp⟩
      · exact Or.inr (Or.inl h)
      · exact Or.inr (Or.inr (add_component_error _ _ _ hp))
    | ok root1 =>
      right
      obtain ⟨root2, hm⟩ := mark_after_add core.root root1 addr name ha
      exact ⟨addr, root1, root2, rfl, ha, hm, by simp only [ha, hm]⟩

/-- The three checks of `signal_create_xyplot`, in their order; each failure leaves the core
as it was. -/
theorem create_xyplot_checks (options : SignalFrame) (core : Core)
    (name : String) (parent : URI)
    (hname : get_option_string options "Plot name" = .ok name)
    (hparent : get_option_uri options "Parent" = .ok parent) :
    (name = "" → CPlotter.signal_create_xyplot options core
        = (.error (.BadValue "The plot name is empty."), core)) ∧
    (name ≠ "" → parent.empty = true → CPlotter.signal_create_xyplot options core
        = (.error (.BadValue "The parent is empty."), core)) ∧
    (name ≠ "" → parent.empty = false → parent.scheme ≠ Scheme.CPATH →
      CPlotter.signal_create_xyplot options core
        = (.error (.InvalidURI "The parent scheme is not CPATH"), core)) := by
  refine ⟨?_, ?_, ?_⟩
  · intro h
    simp [CPlotter.signal_create_xyplot, hname, hparent, h]
  · intro h1 h2
    simp [CPlotter.signal_create_xyplot, hname, hparent, h1, h2]
  · intro h1 h2 h3
    simp [CPlotter.signal_create_xyplot, hname, hparent, h1, h2, h3]

/-- C6: for every bundle that carries `Plot name` (a string) and `Parent` (a URI),
`signal_create_xyplot` raises `BadValue` when the name is empty, otherwise `BadValue` when the
parent is empty, otherwise `InvalidURI` when the scheme of the parent is not `CPATH`; in these
three cases `look_component` is not called and the core is left as it was; when none of the
three holds, `look_component` is called and none of the three failures is raised. -/
theorem C6_create_xyplot_checks_before_resolution (options : SignalFrame) (core : Core)
    (name : String) (parent : URI)
    (hname : get_option_string options "Plot name" = .ok name)
    (hparent : get_option_uri options "Parent" = .ok parent) :
    (name = "" → CPlotter.signal_create_xyplot options core
        = (.error (.BadValue "The plot name is empty."), core)) ∧
    (name ≠ "" → parent.empty = true → CPlotter.signal_create_xyplot options core
        = (.error (.BadValue "The parent is empty."), core)) ∧
    (name ≠ "" → parent.empty = false → parent.scheme ≠ Scheme.CPATH →
      CPlotter.signal_create_xyplot options core
        = (.error (.InvalidURI "The parent scheme is not CPATH"), core)) ∧
    (name ≠ "" → parent.empty = false → parent.scheme = Scheme.CPATH →
      (CPlotter.signal_create_xyplot options core).2.look_component_calls
          = core.look_component_calls + 1 ∧
      (∀ what, (CPlotter.signal_create_xyplot options core).1 ≠ .error (.BadValue what)) ∧
      (∀ what, (CPlotter.signal_create_xyplot options core).1 ≠ .error (.InvalidURI what))) := by
  have h6 := create_xyplot_checks options core name parent hname hparent
  refine ⟨h6.1, h6.2.1, h6.2.2, ?_⟩
  · intro h1 h2 h3
    rcases create_xyplot_after_checks options core name parent hname hparent h1 h2 h3 with
      ⟨e, he, hk⟩ | ⟨addr, root1, root2, _, _, _, hr⟩
    · rw [he]
      refine ⟨rfl, ?_, ?_⟩ <;> intro what <;> rcases hk with hk | hk | hk <;> simp [hk]
    · rw [hr]
      refine ⟨rfl, ?_, ?_⟩ <;> intro what <;> simp

theorem C6_create_xyplot_checks_before_resolution_witness :
    CPlotter.signal_create_xyplot
        [("Plot name", .string ""), ("Parent", .uri ⟨.FILE, ""⟩)]
        ⟨.mk "Root" "CRoot" false [], 0⟩
      = (.error (.BadValue "The plot name is empty."), ⟨.mk "Root" "CRoot" false [], 0⟩) ∧
    CPlotter.signal_create_xyplot
        [("Plot name", .string "xy"), ("Parent", .uri ⟨.FILE, ""⟩)]
        ⟨.mk "Root" "CRoot" false [], 0⟩
      = (.error (.BadValue "The parent is empty."), ⟨.mk "Root" "CRoot" false [], 0⟩) ∧
    CPlotter.signal_create_xyplot
        [("Plot name", .string "xy"), ("Parent", .uri ⟨.FILE, "/"⟩)]
        ⟨.mk "Root" "CRoot" false [], 0⟩
      = (.error (.InvalidURI "The parent scheme is not CPATH"),
          ⟨.mk "Root" "CRoot" false [], 0⟩) ∧
    (CPlotter.signal_create_xyplot
        [("Plot name", .string "xy"), ("Parent", .uri ⟨.CPATH, "/"⟩)]
        ⟨.mk "Root" "CRoot" false [], 0⟩).2.look_component_calls = 0 + 1 :=
  ⟨(C6_create_xyplot_checks_before_resolution
      [("Plot name", .string ""), ("Parent", .uri ⟨.FILE, ""⟩)]
      ⟨.mk "Root" "CRoot" false [], 0⟩ "" ⟨.FILE, ""⟩ rfl rfl).1 rfl,
   (C6_create_xyplot_checks_before_resolution
      [("Plot name", .string "xy"), ("Parent", .uri ⟨.FILE, ""⟩)]
      ⟨.mk "Root" "CRoot" false [], 0⟩ "xy" ⟨.FILE, ""⟩ rfl rfl).2.1 (by decide) rfl,
   (C6_create_xyplot_checks_before_resolution
      [("Plot name", .string "xy"), ("Parent", .uri ⟨.FILE, "/"⟩)]
      ⟨.mk "Root" "CRoot" false [], 0⟩ "xy" ⟨.FILE, "/"⟩ rfl rfl).2.2.1
        (by decide) rfl (by decide),
   ((C6_create_xyplot_checks_before_resolution
      [("Plot name", .string "xy"), ("Parent", .uri ⟨.CPATH, "/"⟩)]
      ⟨.mk "Root" "CRoot" false [], 0⟩ "xy" ⟨.CPATH, "/"⟩ rfl rfl).2.2.2
        (by decide) rfl rfl).1⟩

theorem find_child_append_ne {n : String} (l : List Component) (x : Component)
    (hx : x.name ≠ n) : find_child n (l ++ [x]) = find_child n l := by
  induction l with
  | nil => simp [find_child, hx]
  | cons a l ih =>
    by_cases ha : a.name = n
    · simp [find_child, ha]
    · simp [find_child, ha, ih]

/-- C7: for every non-empty plot name `n` and every non-empty `CPATH` address that resolves
from the root to a component `P` without a child named `n`, `signal_create_xyplot` succeeds;
afterwards the component at that address is `P` with one more child, `get_child_ptr` of it
for `n` gives a component named `n` of type `CPlotXY` that is marked basic, every child that
`P` had is still there, and looking up any other name gives what it gave before. -/
theorem C7_create_xyplot_postcondition (options : SignalFrame) (core : Core)
    (name : String) (parent : URI) (addr : List String) (P : Component)
    (hname : get_option_string options "Plot name" = .ok name)
    (hparent : get_option_uri options "Parent" = .ok parent)
    (h1 : name ≠ "") (h2 : parent.empty = false) (h3 : parent.scheme = Scheme.CPATH)
    (hl : look_component core.root parent = .ok addr)
    (hP : get_at core.root addr = some P)
    (hc : get_child_ptr P name = none) :
    ∃ root2 P2,
      CPlotter.signal_create_xyplot options core
        = (.ok (), { root := root2, look_component_calls := core.look_component_calls + 1 }) ∧
      get_at root2 addr = some P2 ∧
      get_child_ptr P2 name = some (.mk name "CPlotXY" true []) ∧
      P2.children = P.children ++ [.mk name "CPlotXY" true []] ∧
      (∀ c, c ∈ P.children → c ∈ P2.children) ∧
      (∀ m, m ≠ name → get_child_ptr P2 m = get_child_ptr P m) := by
  have hc2 : find_child name P.children = none := hc
  have hadd : add_component P (construct "CPlotXY" name)
      = .ok (P.set_children (P.children ++ [construct "CPlotXY" name])) := by
    simp [add_component, construct, Component.name, hc]
  obtain ⟨root1, ha, _, _⟩ := get_at_update
    (fun p => add_component p (construct "CPlotXY" name)) core.root P _ addr hP hadd
    (Component.set_children_name _ _)
  obtain ⟨root2, hm, _, hg⟩ := get_at_update
    (and_then (fun p => add_component p (construct "CPlotXY" name))
      (fun p1 => update_at (fun c => .ok c.mark_basic) p1 [name]))
    core.root P _ addr hP (add_then_mark P name hc) (Component.set_children_name _ _)
  have hm2 : update_at (fun c => .ok c.mark_basic) root1 (addr ++ [name]) = .ok root2 := by
    rw [update_at_append, update_at_then _ _ (add_component_name _) core.root root1 addr ha]
    exact hm
  refine ⟨root2, P.set_children (P.children ++ [.mk name "CPlotXY" true []]), ?_, hg, ?_,
    by simp, ?_, ?_⟩
  · simp only [CPlotter.signal_create_xyplot, hname, hparent, h1, h2, h3, if_false,
      ne_eq, not_true_eq_false, Bool.false_eq_true, hl, ha, hm2]
  · simp [get_child_ptr, find_child_append_none _ hc2, Component.name]
  · intro c hcmem
    simp [hcmem]
  · intro m hmn
    simp only [get_child_ptr, Component.set_children_children]
    exact find_child_append_ne _ _ (by simpa [Component.name] using fun h => hmn h.symm)

theorem C7_create_xyplot_postcondition_witness :
    ∃ root2 P2,
      CPlotter.signal_create_xyplot
          [("Plot name", .string "xy"), ("Parent", .uri ⟨.CPATH, "/Tools/Plotter"⟩)]
          ⟨.mk "Root" "CRoot" false
            [.mk "Tools" "CGroup" false
              [.mk "Plotter" "CPlotter" true [.mk "old" "CPlotXY" true []]]], 0⟩
        = (.ok (), { root := root2, look_component_calls := 0 + 1 }) ∧
      get_at root2 ["Tools", "Plotter"] = some P2 ∧
      get_child_ptr P2 "xy" = some (.mk "xy" "CPlotXY" true []) ∧
      P2.children = (Component.mk "Plotter" "CPlotter" true
          [.mk "old" "CPlotXY" true []]).children ++ [.mk "xy" "CPlotXY" true []] ∧
      (∀ c, c ∈ (Component.mk "Plotter" "CPlotter" true
          [.mk "old" "CPlotXY" true []]).children → c ∈ P2.children) ∧
      (∀ m, m ≠ "xy" → get_child_ptr P2 m
        = get_child_ptr (.mk "Plotter" "CPlotter" true [.mk "old" "CPlotXY" true []]) m) :=
  C7_create_xyplot_postcondition
    [("Plot name", .string "xy"), ("Parent", .uri ⟨.CPATH, "/Tools/Plotter"⟩)]
    ⟨.mk "Root" "CRoot" false
      [.mk "Tools" "CGroup" false
        [.mk "Plotter" "CPlotter" true [.mk "old" "CPlotXY" true []]]], 0⟩
    "xy" ⟨.CPATH, "/Tools/Plotter"⟩ ["Tools", "Plotter"]
    (.mk "Plotter" "CPlotter" true [.mk "old" "CPlotXY" true []])
    rfl rfl (by decide) rfl rfl rfl rfl rfl

/-- C8: whenever `signal_create_xyplot` raises, whatever the bundle and the tree (empty name,
empty parent, scheme other than `CPATH`, parent path not found, a child of that name already
under the parent, an argument missing from the bundle), the component tree after the call is
equal to the tree before the call. -/
theorem C8_create_xyplot_fails_before_mutating (options : SignalFrame) (core core2 : Core)
    (e : Error) (h : CPlotter.signal_create_xyplot options core = (.error e, core2)) :
    core2.root = core.root := by
  cases hname : get_option_string options "Plot name" with
  | error e1 =>
    simp only [CPlotter.signal_create_xyplot, hname, Prod.mk.injEq] at h
    rw [← h.2]
  | ok name =>
    cases hparent : get_option_uri options "Parent" with
    | error e1 =>
      simp only [CPlotter.signal_create_xyplot, hname, hparent, Prod.mk.injEq] at h
      rw [← h.2]
    | ok parent =>
      have h6 := create_xyplot_checks options core name parent hname hparent
      by_cases h1 : name = ""
      · rw [h6.1 h1] at h
        rw [← (Prod.mk.inj h).2]
      · cases h2 : parent.empty with
        | true =>
          rw [h6.2.1 h1 h2] at h
          rw [← (Prod.mk.inj h).2]
        | false =>
          by_cases h3 : parent.scheme = Scheme.CPATH
          · rcases create_xyplot_after_checks options core name parent hname hparent
              h1 h2 h3 with ⟨e2, he, _⟩ | ⟨addr, root1, root2, _, _, _, hr⟩
            · rw [he] at h
              rw [← (Prod.mk.inj h).2]
            · rw [hr] at h
              cases (Prod.mk.inj h).1
          · rw [h6.2.2 h1 h2 h3] at h
            rw [← (Prod.mk.inj h).2]

theorem C8_create_xyplot_fails_before_mutating_witness :
    (Core.mk (.mk "Root" "CRoot" false [.mk "xy" "CPlotXY" true []]) 1).root
      = (Core.mk (.mk "Root" "CRoot" false [.mk "xy" "CPlotXY" true []]) 0).root :=
  C8_create_xyplot_fails_before_mutating
    [("Plot name", .string "xy"), ("Parent", .uri ⟨.CPATH, "/"⟩)]
    ⟨.mk "Root" "CRoot" false [.mk "xy" "CPlotXY" true []], 0⟩
    ⟨.mk "Root" "CRoot" false [.mk "xy" "CPlotXY" true []], 1⟩
    (.DuplicateName "xy") rfl

/-- The handler `signal_create_xyplot` reads only `Plot name` and `Parent`: two bundles that
agree on these two arguments are treated alike, whatever they carry as `Data set`. -/
theorem create_xyplot_reads_two_arguments (b1 b2 : SignalFrame) (core : Core)
    (hn : b1.lookup "Plot name" = b2.lookup "Plot name")
    (hp : b1.lookup "Parent" = b2.lookup "Parent") :
    CPlotter.signal_create_xyplot b1 core = CPlotter.signal_create_xyplot b2 core := by
  simp only [CPlotter.signal_create_xyplot, get_option_string, get_option_uri, hn, hp]

/-- C9: the signature declared by `signature_create_xyplot` consists of `Plot name`,
`Data set` (restricted to the registered data sets `m_data_sets`) and `Parent`; invoking
`create_xyplot` with a bundle whose `Data set` value is not one of the registered data sets,
or from which `Plot name` or `Parent` is missing, is rejected with `SignatureMismatch` before
the handler runs, and the core (the component tree included) is left as it was. -/
theorem C9_create_xyplot_signature_enforced (self : CPlotter) (root_full_path : URI)
    (bundle : SignalFrame) (core : Core)
    (h : (∃ v, bundle.lookup "Data set" = some v ∧ ∀ s ∈ self.m_data_sets, v ≠ .string s) ∨
         bundle.lookup "Plot name" = none ∨ bundle.lookup "Parent" = none) :
    (self.signature_create_xyplot root_full_path).map ArgDecl.key
        = ["Plot name", "Data set", "Parent"] ∧
    (self.signature_create_xyplot root_full_path).map ArgDecl.restricted_values
        = [none, some self.m_data_sets, none] ∧
    self.invoke_create_xyplot root_full_path bundle core
        = (.error (.SignatureMismatch "create_xyplot"), core) := by
  refine ⟨rfl, rfl, ?_⟩
  have hs : satisfies_signature bundle (self.signature_create_xyplot root_full_path) = false := by
    rcases h with ⟨v, hv, hnot⟩ | h | h
    · have : (self.m_data_sets.any fun s => decide (v = Value.string s)) = false := by
        rw [List.any_eq_false]
        intro s hs
        simpa using hnot s hs
      simp [satisfies_signature, CPlotter.signature_create_xyplot, satisfies_decl, hv, this]
    · simp [satisfies_signature, CPlotter.signature_create_xyplot, satisfies_decl, h]
    · simp [satisfies_signature, CPlotter.signature_create_xyplot, satisfies_decl, h]
  simp [CPlotter.invoke_create_xyplot, hs]

theorem C9_create_xyplot_signature_enforced_witness :
    ((CPlotter.mk ["/Tools/data1"]).signature_create_xyplot ⟨.CPATH, "/"⟩).map ArgDecl.key
        = ["Plot name", "Data set", "Parent"] ∧
    ((CPlotter.mk ["/Tools/data1"]).signature_create_xyplot ⟨.CPATH, "/"⟩).map
        ArgDecl.restricted_values = [none, some ["/Tools/data1"], none] ∧
    (CPlotter.mk ["/Tools/data1"]).invoke_create_xyplot ⟨.CPATH, "/"⟩
        [("Plot name", .string "xy"), ("Data set", .string "/Tools/other"),
         ("Parent", .uri ⟨.CPATH, "/"⟩)]
        ⟨.mk "Root" "CRoot" false [], 0⟩
      = (.error (.SignatureMismatch "create_xyplot"), ⟨.mk "Root" "CRoot" false [], 0⟩) :=
  C9_create_xyplot_signature_enforced (CPlotter.mk ["/Tools/data1"]) ⟨.CPATH, "/"⟩
    [("Plot name", .string "xy"), ("Data set", .string "/Tools/other"),
     ("Parent", .uri ⟨.CPATH, "/"⟩)]
    ⟨.mk "Root" "CRoot" false [], 0⟩
    (Or.inl ⟨.string "/Tools/other", rfl, by decide⟩)

theorem FaceLoopT_type_name_injective (action p q : String)
    (h : "FaceLoopT<" ++ action ++ "," ++ p ++ ">" = FaceLoopT_type_name action q) : p = q := by
  unfold FaceLoopT_type_name at h
  rw [String.ext_iff] at h
  simp only [String.data_append, List.append_assoc] at h
  have h2 := List.append_cancel_left (List.append_cancel_left (List.append_cancel_left h))
  exact String.ext (List.append_cancel_right h2)

/-- C10: for every `WeakDirichlet` without a child named `LOOP` whose physical model type is
not one of the five registered ones, `execute()` fails with the unknown-type error for the
composed key and leaves the boundary term as it was: no child has been added and the loop
has been executed on no region. -/
theorem C10_execute_unregistered_is_failure (is_ElementLoop : Component → Bool)
    (wd : WeakDirichlet)
    (hloop : get_child_ptr wd.self "LOOP" = none)
    (hphys : wd.physics ∉ registered_physics) :
    WeakDirichlet.execute is_ElementLoop WeakDirichlet_builders wd
      = (.error (.UnknownType ("FaceLoopT<" ++ WeakDirichlet.type_name ++ "," ++ wd.physics
            ++ ">")), wd) ∧
    (WeakDirichlet.execute is_ElementLoop WeakDirichlet_builders wd).2.self.children
      = wd.self.children ∧
    (WeakDirichlet.execute is_ElementLoop WeakDirichlet_builders wd).2.loop_calls
      = wd.loop_calls := by
  have key : ∀ q, q ∈ registered_physics →
      "FaceLoopT<" ++ WeakDirichlet.type_name ++ "," ++ wd.physics ++ ">"
        ≠ FaceLoopT_type_name WeakDirichlet.type_name q := by
    intro q hq heq
    exact hphys (FaceLoopT_type_name_injective _ _ _ heq ▸ hq)
  have hb : build_component_abstract_type_reduced WeakDirichlet_builders "FaceLoop"
      ("FaceLoopT<" ++ WeakDirichlet.type_name ++ "," ++ wd.physics ++ ">") "LOOP"
      = .error (.UnknownType ("FaceLoopT<" ++ WeakDirichlet.type_name ++ "," ++ wd.physics
            ++ ">")) := by
    have k1 := key "LinearAdv2D" (by decide)
    have k2 := key "LinearAdvSys2D" (by decide)
    have k3 := key "RotationAdv2D" (by decide)
    have k4 := key "Burgers2D" (by decide)
    have k5 := key "Cons2D" (by decide)
    simp [build_component_abstract_type_reduced, WeakDirichlet_builders, Ne.symm k1,
      Ne.symm k2, Ne.symm k3, Ne.symm k4, Ne.symm k5]
  have he : WeakDirichlet.execute is_ElementLoop WeakDirichlet_builders wd
      = (.error (.UnknownType ("FaceLoopT<" ++ WeakDirichlet.type_name ++ "," ++ wd.physics
            ++ ">")), wd) := by
    simp only [WeakDirichlet.execute, hloop, hb]
  rw [he]
  exact ⟨rfl, rfl, rfl⟩

theorem C10_execute_unregistered_is_failure_witness :
    WeakDirichlet.execute (fun _ => true) WeakDirichlet_builders
        ⟨.mk "bc" "WeakDirichlet" false [], "LinearAdv3D", ["/mesh/inlet"], []⟩
      = (.error (.UnknownType ("FaceLoopT<" ++ WeakDirichlet.type_name ++ ","
          ++ (WeakDirichlet.mk (.mk "bc" "WeakDirichlet" false []) "LinearAdv3D"
                ["/mesh/inlet"] []).physics ++ ">")),
         ⟨.mk "bc" "WeakDirichlet" false [], "LinearAdv3D", ["/mesh/inlet"], []⟩) ∧
    (WeakDirichlet.execute (fun _ => true) WeakDirichlet_builders
        ⟨.mk "bc" "WeakDirichlet" false [], "LinearAdv3D", ["/mesh/inlet"], []⟩).2.self.children
      = (WeakDirichlet.mk (.mk "bc" "WeakDirichlet" false []) "LinearAdv3D"
                ["/mesh/inlet"] []).self.children ∧
    (WeakDirichlet.execute (fun _ => true) WeakDirichlet_builders
        ⟨.mk "bc" "WeakDirichlet" false [], "LinearAdv3D", ["/mesh/inlet"], []⟩).2.loop_calls
      = (WeakDirichlet.mk (.mk "bc" "WeakDirichlet" false []) "LinearAdv3D"
                ["/mesh/inlet"] []).loop_calls :=
  C10_execute_unregistered_is_failure (fun _ => true)
    ⟨.mk "bc" "WeakDirichlet" false [], "LinearAdv3D", ["/mesh/inlet"], []⟩ rfl (by decide)

/-! ### Regions of a loop -/

/-- What `trigger_Regions` does when every path of the option leads to a `CRegion`: it appends
the resolved regions to what `m_loop_regions` held before. -/
theorem trigger_Regions_loop_appends (is_CRegion : Component → Bool) (root : Component)
    (L : List URI) (regions : List Component)
    (hL : ∀ u ∈ L, resolves_to_region is_CRegion root u = true) :
    trigger_Regions_loop is_CRegion root L regions
      = (.ok (), regions ++ resolved_regions is_CRegion root L) := by
  induction L generalizing regions with
  | nil => simp [trigger_Regions_loop, resolved_regions]
  | cons u us ih =>
    have hu := hL u (List.mem_cons_self _ _)
    have hus : ∀ v ∈ us, resolves_to_region is_CRegion root v = true :=
      fun v hv => hL v (List.mem_cons_of_mem _ hv)
    unfold resolves_to_region at hu
    cases ha : access_component_ptr root u with
    | error e => simp [ha] at hu
    | ok c =>
      simp only [ha] at hu
      simp [trigger_Regions_loop, resolved_regions, ha, hu, ih _ hus]

/-- C13 (the code at the failing input): a loop whose `m_loop_regions` holds the region
`inlet` from an earlier value of the option `Regions`, and whose option is now set to the
path of `outlet`: `trigger_Regions` succeeds and leaves `m_loop_regions` = `inlet, outlet`,
where the list resolved from the option is `outlet` alone; the list is never cleared. -/
theorem C13_trigger_Regions_accumulates :
    (CLoop.trigger_Regions (fun c => decide (c.type_name = "CRegion"))
        (.mk "Root" "CRoot" false
          [.mk "mesh" "CMesh" false
            [.mk "inlet" "CRegion" false [], .mk "outlet" "CRegion" false []]])
        { self := .mk "loop" "CLoop" true [],
          regions_option := [⟨.CPATH, "/mesh/outlet"⟩],
          m_loop_regions := [.mk "inlet" "CRegion" false []] }).1 = .ok () ∧
    (CLoop.trigger_Regions (fun c => decide (c.type_name = "CRegion"))
        (.mk "Root" "CRoot" false
          [.mk "mesh" "CMesh" false
            [.mk "inlet" "CRegion" false [], .mk "outlet" "CRegion" false []]])
        { self := .mk "loop" "CLoop" true [],
          regions_option := [⟨.CPATH, "/mesh/outlet"⟩],
          m_loop_regions := [.mk "inlet" "CRegion" false []] }).2.m_loop_regions
      = [.mk "inlet" "CRegion" false [], .mk "outlet" "CRegion" false []] ∧
    resolved_regions (fun c => decide (c.type_name = "CRegion"))
        (.mk "Root" "CRoot" false
          [.mk "mesh" "CMesh" false
            [.mk "inlet" "CRegion" false [], .mk "outlet" "CRegion" false []]])
        [⟨.CPATH, "/mesh/outlet"⟩]
      = [.mk "outlet" "CRegion" false []] :=
  ⟨rfl, rfl, rfl⟩

/-- C14 (as stated, refuted): a loop with an empty `m_loop_regions` whose option `Regions`
holds the path of the region `inlet` followed by the path of `mesh`, which is not a `CRegion`:
`trigger_Regions` raises `ValueNotFound` naming `/mesh`, but `m_loop_regions` after the failed
call is not what it was before: it holds `inlet`, the region of the earlier, valid entry. -/
theorem C14_trigger_Regions_not_atomic_counterexample :
    (CLoop.trigger_Regions (fun c => decide (c.type_name = "CRegion"))
        (.mk "Root" "CRoot" false
          [.mk "mesh" "CMesh" false
            [.mk "inlet" "CRegion" false [], .mk "outlet" "CRegion" false []]])
        { self := .mk "loop" "CLoop" true [],
          regions_option := [⟨.CPATH, "/mesh/inlet"⟩, ⟨.CPATH, "/mesh"⟩],
          m_loop_regions := [] }).1
      = .error (.ValueNotFound "Could not find region with path [/mesh]") ∧
    ¬ ((CLoop.trigger_Regions (fun c => decide (c.type_name = "CRegion"))
        (.mk "Root" "CRoot" false
          [.mk "mesh" "CMesh" false
            [.mk "inlet" "CRegion" false [], .mk "outlet" "CRegion" false []]])
        { self := .mk "loop" "CLoop" true [],
          regions_option := [⟨.CPATH, "/mesh/inlet"⟩, ⟨.CPATH, "/mesh"⟩],
          m_loop_regions := [] }).2.m_loop_regions
      = (CLoop.mk (.mk "loop" "CLoop" true [])
          [⟨.CPATH, "/mesh/inlet"⟩, ⟨.CPATH, "/mesh"⟩] []).m_loop_regions) := by
  refine ⟨rfl, ?_⟩
  intro h
  have h2 : (CLoop.trigger_Regions (fun c => decide (c.type_name = "CRegion"))
        (.mk "Root" "CRoot" false
          [.mk "mesh" "CMesh" false
            [.mk "inlet" "CRegion" false [], .mk "outlet" "CRegion" false []]])
        { self := .mk "loop" "CLoop" true [],
          regions_option := [⟨.CPATH, "/mesh/inlet"⟩, ⟨.CPATH, "/mesh"⟩],
          m_loop_regions := [] }).2.m_loop_regions
      = [.mk "inlet" "CRegion" false []] := rfl
  rw [h2] at h
  cases h

/-- What `trigger_Regions` does when the paths of `good` lead to regions and the next path
leads to a component that is not a `CRegion`: it raises `ValueNotFound` for that path after
having appended the regions of `good`. -/
theorem trigger_Regions_loop_fails_after (is_CRegion : Component → Bool) (root : Component)
    (good rest : List URI) (bad : URI) (c : Component) (regions : List Component)
    (hgood : ∀ u ∈ good, resolves_to_region is_CRegion root u = true)
    (hbad : access_component_ptr root bad = .ok c) (hc : is_CRegion c = false) :
    trigger_Regions_loop is_CRegion root (good ++ bad :: rest) regions
      = (.error (.ValueNotFound ("Could not find region with path [" ++ bad.path ++ "]")),
         regions ++ resolved_regions is_CRegion root good) := by
  induction good generalizing regions with
  | nil => simp [trigger_Regions_loop, resolved_regions, hbad, hc]
  | cons u us ih =>
    have hu := hgood u (List.mem_cons_self _ _)
    have hus : ∀ v ∈ us, resolves_to_region is_CRegion root v = true :=
      fun v hv => hgood v (List.mem_cons_of_mem _ hv)
    unfold resolves_to_region at hu
    cases ha : access_component_ptr root u with
    | error e => simp [ha] at hu
    | ok d =>
      simp only [ha] at hu
      simp [trigger_Regions_loop, resolved_regions, ha, hu, ih _ hus]

/-- C14 (amended): for every loop whose `m_loop_regions` is empty and every `Regions` list
in which the paths of `good` lead to regions and the next path leads to a component that is
not a `CRegion`, `trigger_Regions` raises `ValueNotFound` naming that path, and
`m_loop_regions` after the failed call holds the regions of the entries of `good`, in their
order: they are not taken back, and nothing of the offending or later entries is added. -/
theorem C14_trigger_Regions_failure_keeps_earlier (is_CRegion : Component → Bool)
    (root : Component) (loop : CLoop) (good rest : List URI) (bad : URI) (c : Component)
    (hempty : loop.m_loop_regions = [])
    (hopt : loop.regions_option = good ++ bad :: rest)
    (hgood : ∀ u ∈ good, resolves_to_region is_CRegion root u = true)
    (hbad : access_component_ptr root bad = .ok c) (hc : is_CRegion c = false) :
    CLoop.trigger_Regions is_CRegion root loop
      = (.error (.ValueNotFound ("Could not find region with path [" ++ bad.path ++ "]")),
         { loop with m_loop_regions := resolved_regions is_CRegion root good }) ∧
    (resolved_regions is_CRegion root good).length = good.length := by
  refine ⟨?_, ?_⟩
  · simp only [CLoop.trigger_Regions, hopt, hempty,
      trigger_Regions_loop_fails_after is_CRegion root good rest bad c [] hgood hbad hc,
      List.nil_append]
  · clear hopt
    induction good with
    | nil => rfl
    | cons u us ih =>
      have hu := hgood u (List.mem_cons_self _ _)
      have hus : ∀ v ∈ us, resolves_to_region is_CRegion root v = true :=
        fun v hv => hgood v (List.mem_cons_of_mem _ hv)
      unfold resolves_to_region at hu
      cases ha : access_component_ptr root u with
      | error e => simp [ha] at hu
      | ok d =>
        simp only [ha] at hu
        simp [resolved_regions, ha, hu, ih hus]

theorem C14_trigger_Regions_failure_keeps_earlier_witness :
    CLoop.trigger_Regions (fun c => decide (c.type_name = "CRegion"))
        (.mk "Root" "CRoot" false
          [.mk "mesh" "CMesh" false
            [.mk "inlet" "CRegion" false [], .mk "outlet" "CRegion" false []]])
        { self := .mk "loop" "CLoop" true [],
          regions_option := [⟨.CPATH, "/mesh/inlet"⟩, ⟨.CPATH, "/mesh"⟩,
            ⟨.CPATH, "/mesh/outlet"⟩],
          m_loop_regions := [] }
      = (.error (.ValueNotFound ("Could not find region with path ["
            ++ (URI.mk .CPATH "/mesh").path ++ "]")),
         { self := .mk "loop" "CLoop" true [],
           regions_option := [⟨.CPATH, "/mesh/inlet"⟩, ⟨.CPATH, "/mesh"⟩,
             ⟨.CPATH, "/mesh/outlet"⟩],
           m_loop_regions := resolved_regions (fun c => decide (c.type_name = "CRegion"))
             (.mk "Root" "CRoot" false
               [.mk "mesh" "CMesh" false
                 [.mk "inlet" "CRegion" false [], .mk "outlet" "CRegion" false []]])
             [⟨.CPATH, "/mesh/inlet"⟩] }) ∧
    (resolved_regions (fun c => decide (c.type_name = "CRegion"))
        (.mk "Root" "CRoot" false
          [.mk "mesh" "CMesh" false
            [.mk "inlet" "CRegion" false [], .mk "outlet" "CRegion" false []]])
        [⟨.CPATH, "/mesh/inlet"⟩]).length = [URI.mk .CPATH "/mesh/inlet"].length :=
  C14_trigger_Regions_failure_keeps_earlier (fun c => decide (c.type_name = "CRegion"))
    (.mk "Root" "CRoot" false
      [.mk "mesh" "CMesh" false
        [.mk "inlet" "CRegion" false [], .mk "outlet" "CRegion" false []]])
    { self := .mk "loop" "CLoop" true [],
      regions_option := [⟨.CPATH, "/mesh/inlet"⟩, ⟨.CPATH, "/mesh"⟩, ⟨.CPATH, "/mesh/outlet"⟩],
      m_loop_regions := [] }
    [⟨.CPATH, "/mesh/inlet"⟩] [⟨.CPATH, "/mesh/outlet"⟩] ⟨.CPATH, "/mesh"⟩
    (.mk "mesh" "CMesh" false [.mk "inlet" "CRegion" false [], .mk "outlet" "CRegion" false []])
    rfl rfl (by intro u hu; rw [List.mem_singleton] at hu; subst hu; rfl) rfl rfl

/-! ### Names of children -/

theorem count_named_of_find_none {n : String} {l : List Component}
    (h : find_child n l = none) : count_named n l = 0 := by
  induction l with
  | nil => rfl
  | cons a l ih =>
    unfold find_child at h
    split at h
    · cases h
    · rename_i ha
      have := ih h
      simp only [count_named] at this ⊢
      simp [List.filter_cons, ha, this]

theorem count_named_of_find_some {n : String} {l : List Component} {c : Component}
    (h : find_child n l = some c) (hu : (l.map Component.name).Nodup) :
    count_named n l = 1 := by
  induction l with
  | nil => simp [find_child] at h
  | cons a l ih =>
    simp only [List.map_cons, List.nodup_cons, List.mem_map, not_exists, not_and] at hu
    by_cases ha : a.name = n
    · have hnone : find_child n l = none := by
        cases hf : find_child n l with
        | none => rfl
        | some d =>
          exfalso
          have hd := find_child_name hf
          have hmem : d ∈ l := by
            clear ih hu h
            induction l with
            | nil => simp [find_child] at hf
            | cons b l ih2 =>
              unfold find_child at hf
              split at hf
              · cases hf; exact List.mem_cons_self _ _
              · exact List.mem_cons_of_mem _ (ih2 hf)
          exact hu.1 d hmem (hd.trans ha.symm)
      have h0 := count_named_of_find_none hnone
      simp only [count_named] at h0 ⊢
      simp [List.filter_cons, ha, h0]
    · have hf : find_child n l = some c := by
        simpa [find_child, ha] using h
      have h1 := ih hf hu.2
      simp only [count_named] at h1 ⊢
      simp [List.filter_cons, ha, h1]

theorem count_named_append_one (n : String) (l : List Component) (x : Component)
    (hx : x.name = n) : count_named n (l ++ [x]) = count_named n l + 1 := by
  simp [count_named, List.filter_append, hx]

/-! ### Operations of a loop -/

theorem create_component_abstract_type_registered (registry : List BuilderEntry)
    (interface_id provider name : String)
    (h : ∃ b ∈ registry, b.concrete = provider ∧ b.interface_id = interface_id) :
    create_component_abstract_type registry interface_id provider name
      = .ok (construct provider name) := by
  have : registry.any
      (fun b => decide (b.concrete = provider) && decide (b.interface_id = interface_id))
      = true := by
    rw [List.any_eq_true]
    obtain ⟨b, hb, h1, h2⟩ := h
    exact ⟨b, hb, by simp [h1, h2]⟩
  simp [create_component_abstract_type, this]

theorem create_component_abstract_type_ok (registry : List BuilderEntry)
    (interface_id provider name : String) (op : Component)
    (h : create_component_abstract_type registry interface_id provider name = .ok op) :
    op = construct provider name := by
  unfold create_component_abstract_type at h
  split at h
  · cases h; rfl
  · cases h

theorem add_component_ok (parent child self1 : Component)
    (h : add_component parent child = .ok self1) :
    get_child_ptr parent child.name = none ∧
    self1 = parent.set_children (parent.children ++ [child]) := by
  unfold add_component at h
  split at h
  · cases h
  · cases h; exact ⟨by assumption, rfl⟩

theorem get_child_ptr_added (parent child : Component)
    (h : get_child_ptr parent child.name = none) :
    get_child_ptr (parent.set_children (parent.children ++ [child])) child.name
      = some child := by
  have h2 : find_child child.name parent.children = none := h
  simp [get_child_ptr, find_child_append_none _ h2]

/-- The function `CLoop::action` hands back the child that the loop holds under the name,
whatever that child is: it reads the loop and builds nothing. -/
theorem action_returns_child (is_CLoopOperation : Component → Bool) (loop : CLoop)
    (name : String) (c : Component) (h : get_child_ptr loop.self name = some c) :
    CLoop.action is_CLoopOperation loop name
      = if is_CLoopOperation c then .ok c else .error .NullDereference := by
  simp only [CLoop.action, h]

/-- A successful `create_loop_operation(p)` leaves the operation as the child named `p`, and
the provider `p` is registered for the interface `CLoopOperation`. -/
theorem create_loop_operation_ok (registry : List BuilderEntry) (loop loop1 : CLoop)
    (p : String) (op : Component)
    (h : CLoop.create_loop_operation registry loop p = (.ok op, loop1)) :
    op = construct p p ∧ get_child_ptr loop.self p = none ∧
    loop1 = { loop with self := loop.self.set_children (loop.self.children ++ [op]) } ∧
    get_child_ptr loop1.self p = some op ∧
    (∃ b ∈ registry, b.concrete = p ∧ b.interface_id = "CLoopOperation") := by
  unfold CLoop.create_loop_operation at h
  simp only at h
  have hreg : ∃ b ∈ registry, b.concrete = p ∧ b.interface_id = "CLoopOperation" := by
    by_contra hno
    have hany : registry.any
        (fun b => decide (b.concrete = p) && decide (b.interface_id = "CLoopOperation"))
        = false := by
      rw [Bool.eq_false_iff]
      intro ht
      rw [List.any_eq_true] at ht
      obtain ⟨b, hb, hbb⟩ := ht
      simp only [Bool.and_eq_true, decide_eq_true_eq] at hbb
      exact hno ⟨b, hb, hbb.1, hbb.2⟩
    simp [create_component_abstract_type, hany] at h
  cases hb : create_component_abstract_type registry "CLoopOperation" p p with
  | error e => simp [hb] at h
  | ok sub =>
    have hsub := create_component_abstract_type_ok _ _ _ _ _ hb
    cases ha : add_component loop.self sub with
    | error e => simp [hb, ha] at h
    | ok self1 =>
      simp only [hb, ha, Prod.mk.injEq, Except.ok.injEq] at h
      obtain ⟨h1, h2⟩ := h
      subst h1
      obtain ⟨hnone, hself⟩ := add_component_ok _ _ _ ha
      have hname : sub.name = p := by rw [hsub]; rfl
      rw [hname] at hnone
      refine ⟨hsub, hnone, ?_, ?_, hreg⟩
      · rw [← h2, hself]
      · rw [← h2]
        simp only [hself]
        have := get_child_ptr_added loop.self sub (by rw [hname]; exact hnone)
        rwa [hname] at this

/-- C15: for every loop without a child named `p` and every provider key `p` registered for
the interface `CLoopOperation`, `create_loop_operation(p)` builds an operation of type `p`,
attaches it as the last child under the name `p` (the only child of that name; nothing else
of the loop changes) and returns it, and `action(p)` on the loop afterwards returns that same
operation: the child that the loop holds under `p`. The operation returned is the one in the
tree and no copy: when the operation is changed in place to any `op2` (still named `p`),
`action(p)` returns `op2`; and for every loop whatsoever, `action(p)` returns the child that
this loop holds under `p`, whatever it is. -/
theorem C15_create_then_action_round_trip (is_CLoopOperation : Component → Bool)
    (registry : List BuilderEntry) (loop : CLoop) (p : String)
    (hchild : get_child_ptr loop.self p = none)
    (hreg : ∃ b ∈ registry, b.concrete = p ∧ b.interface_id = "CLoopOperation")
    (hop : is_CLoopOperation (construct p p) = true) :
    (∃ op loop1,
      CLoop.create_loop_operation registry loop p = (.ok op, loop1) ∧
      op.name = p ∧ op.type_name = p ∧
      loop1.self.children = loop.self.children ++ [op] ∧
      get_child_ptr loop1.self p = some op ∧
      CLoop.action is_CLoopOperation loop1 p = .ok op ∧
      loop1 = { loop with self := loop.self.set_children (loop.self.children ++ [op]) } ∧
      count_named p loop1.self.children = 1 ∧
      (∀ op2 : Component, op2.name = p → is_CLoopOperation op2 = true →
        CLoop.action is_CLoopOperation
            { loop1 with
              self := loop1.self.set_children (replace_child p op2 loop1.self.children) } p
          = .ok op2)) ∧
    (∀ (loop2 : CLoop) (c : Component), get_child_ptr loop2.self p = some c →
      CLoop.action is_CLoopOperation loop2 p
        = if is_CLoopOperation c then .ok c else .error .NullDereference) ∧
    (∀ loop2 : CLoop, get_child_ptr loop2.self p = none →
      CLoop.action is_CLoopOperation loop2 p = .error .NullDereference) := by
  have hb := create_component_abstract_type_registered registry "CLoopOperation" p p hreg
  have hadd : add_component loop.self (construct p p)
      = .ok (loop.self.set_children (loop.self.children ++ [construct p p])) := by
    simp [add_component, construct, Component.name, hchild]
  have hget := get_child_ptr_added loop.self (construct p p) hchild
  have hget2 : get_child_ptr (loop.self.set_children
      (loop.self.children ++ [construct p p])) p = some (construct p p) := hget
  refine ⟨⟨construct p p, CLoop.mk (loop.self.set_children
      (loop.self.children ++ [construct p p])) loop.regions_option loop.m_loop_regions,
    ?_, rfl, rfl, by simp, hget, ?_, rfl, ?_, ?_⟩, ?_, ?_⟩
  · simp only [CLoop.create_loop_operation, hb, hadd]
  · simp only [CLoop.action, hget2, hop, if_true]
  · have h0 : count_named p loop.self.children = 0 := count_named_of_find_none hchild
    have h1 := count_named_append_one p loop.self.children (construct p p) rfl
    simp only [Component.set_children_children]
    omega
  · intro op2 hname hop2
    have hfind : find_child p (loop.self.set_children
        (loop.self.children ++ [construct p p])).children = some (construct p p) := hget2
    have hrep := find_child_replace op2 hfind hname
    have hget3 : get_child_ptr
        ((loop.self.set_children (loop.self.children ++ [construct p p])).set_children
          (replace_child p op2
            (loop.self.set_children (loop.self.children ++ [construct p p])).children)) p
        = some op2 := by
      simp only [get_child_ptr, Component.set_children_children] at hrep ⊢
      exact hrep
    simp only [CLoop.action, hget3, hop2, if_true]
  · intro loop2 c hc
    exact action_returns_child is_CLoopOperation loop2 p c hc
  · intro loop2 hc
    simp only [CLoop.action, hc]

theorem C15_create_then_action_round_trip_witness :
    (∃ op loop1,
      CLoop.create_loop_operation
          [{ concrete := "CSetFieldValues", interface_id := "CLoopOperation",
             library := "LibActions" }]
          { self := .mk "loop" "CLoop" true [.mk "first" "COther" false []],
            regions_option := [], m_loop_regions := [] }
          "CSetFieldValues" = (.ok op, loop1) ∧
      op.name = "CSetFieldValues" ∧ op.type_name = "CSetFieldValues" ∧
      loop1.self.children
        = (CLoop.mk (.mk "loop" "CLoop" true [.mk "first" "COther" false []])
            [] []).self.children ++ [op] ∧
      get_child_ptr loop1.self "CSetFieldValues" = some op ∧
      CLoop.action (fun c => decide (c.type_name = "CSetFieldValues")) loop1
        "CSetFieldValues" = .ok op) ∧
    CLoop.action (fun c => decide (c.type_name = "CSetFieldValues"))
        { self := .mk "loop" "CLoop" true
            [.mk "first" "COther" false [],
             .mk "CSetFieldValues" "CSetFieldValues" true [.mk "Field" "CLink" false []]],
          regions_option := [], m_loop_regions := [] }
        "CSetFieldValues"
      = .ok (.mk "CSetFieldValues" "CSetFieldValues" true [.mk "Field" "CLink" false []]) :=
  have h := C15_create_then_action_round_trip
    (fun c => decide (c.type_name = "CSetFieldValues"))
    [{ concrete := "CSetFieldValues", interface_id := "CLoopOperation",
       library := "LibActions" }]
    { self := .mk "loop" "CLoop" true [.mk "first" "COther" false []],
      regions_option := [], m_loop_regions := [] }
    "CSetFieldValues" rfl ⟨_, List.mem_singleton.mpr rfl, rfl, rfl⟩ rfl
  ⟨by
    obtain ⟨op, loop1, h1, h2, h3, h4, h5, h6, _⟩ := h.1
    exact ⟨op, loop1, h1, h2, h3, h4, h5, h6⟩,
   h.2.1
    { self := .mk "loop" "CLoop" true
        [.mk "first" "COther" false [],
         .mk "CSetFieldValues" "CSetFieldValues" true [.mk "Field" "CLink" false []]],
      regions_option := [], m_loop_regions := [] }
    (.mk "CSetFieldValues" "CSetFieldValues" true [.mk "Field" "CLink" false []]) rfl⟩

/-- C16: for every loop that holds a child named `p` (as every loop does on which
`create_loop_operation(p)` has succeeded once, also when the loop or the operation has been
changed since) and every registered provider key `p`, a further `create_loop_operation(p)`
fails with the duplicate-name error, the loop (its children included) is left exactly as it
was before the call, and `action(p)` returns, before and after the failed call, the child
that the loop held under `p`: the existing operation, not a new one. When the loop is the one
that the first call left, that child is the operation which the first call returned. -/
theorem C16_create_twice_rejected (is_CLoopOperation : Component → Bool)
    (registry : List BuilderEntry) (loop : CLoop) (p : String) (c : Component)
    (hreg : ∃ b ∈ registry, b.concrete = p ∧ b.interface_id = "CLoopOperation")
    (hchild : get_child_ptr loop.self p = some c)
    (hop : is_CLoopOperation c = true) :
    CLoop.create_loop_operation registry loop p = (.error (.DuplicateName p), loop) ∧
    (CLoop.create_loop_operation registry loop p).2.self.children = loop.self.children ∧
    CLoop.action is_CLoopOperation loop p = .ok c ∧
    CLoop.action is_CLoopOperation (CLoop.create_loop_operation registry loop p).2 p
      = .ok c ∧
    (∀ (loop0 : CLoop) (op : Component),
      CLoop.create_loop_operation registry loop0 p = (.ok op, loop) →
      c = op ∧ loop.self.children = loop0.self.children ++ [op]) ∧
    (∀ (loop0 loop1 : CLoop) (op : Component),
      CLoop.create_loop_operation registry loop0 p = (.ok op, loop1) →
      get_child_ptr loop1.self p = some op ∧
      CLoop.create_loop_operation registry loop1 p = (.error (.DuplicateName p), loop1)) := by
  have hb := create_component_abstract_type_registered registry "CLoopOperation" p p hreg
  have hdup : ∀ (l : CLoop) (d : Component), get_child_ptr l.self p = some d →
      CLoop.create_loop_operation registry l p = (.error (.DuplicateName p), l) := by
    intro l d hd
    have hname : (construct p p).name = p := rfl
    simp only [CLoop.create_loop_operation, hb, add_component, hname, hd]
  have hsecond := hdup loop c hchild
  have hact : CLoop.action is_CLoopOperation loop p = .ok c := by
    simp only [CLoop.action, hchild, hop, if_true]
  refine ⟨hsecond, by rw [hsecond], hact, by rw [hsecond]; exact hact, ?_, ?_⟩
  · intro loop0 op hfirst
    obtain ⟨_, _, hloop, hget, _⟩ := create_loop_operation_ok registry loop0 loop p op hfirst
    constructor
    · rw [hchild] at hget
      exact Option.some.inj hget
    · rw [hloop]
      simp
  · intro loop0 loop1 op hfirst
    obtain ⟨_, _, _, hget, _⟩ := create_loop_operation_ok registry loop0 loop1 p op hfirst
    exact ⟨hget, hdup loop1 op hget⟩

theorem C16_create_twice_rejected_witness :
    CLoop.create_loop_operation
        [{ concrete := "CSetFieldValues", interface_id := "CLoopOperation",
           library := "LibActions" }]
        { self := .mk "loop" "CLoop" true
            [.mk "CSetFieldValues" "CSetFieldValues" true [.mk "Field" "CLink" false []]],
          regions_option := [], m_loop_regions := [] }
        "CSetFieldValues"
      = (.error (.DuplicateName "CSetFieldValues"),
         { self := .mk "loop" "CLoop" true
             [.mk "CSetFieldValues" "CSetFieldValues" true [.mk "Field" "CLink" false []]],
           regions_option := [], m_loop_regions := [] }) ∧
    CLoop.action (fun _ => true)
        (CLoop.create_loop_operation
          [{ concrete := "CSetFieldValues", interface_id := "CLoopOperation",
             library := "LibActions" }]
          { self := .mk "loop" "CLoop" true
              [.mk "CSetFieldValues" "CSetFieldValues" true [.mk "Field" "CLink" false []]],
            regions_option := [], m_loop_regions := [] }
          "CSetFieldValues").2
        "CSetFieldValues"
      = .ok (.mk "CSetFieldValues" "CSetFieldValues" true [.mk "Field" "CLink" false []]) :=
  have h := C16_create_twice_rejected (fun _ => true)
    [{ concrete := "CSetFieldValues", interface_id := "CLoopOperation",
       library := "LibActions" }]
    { self := .mk "loop" "CLoop" true
        [.mk "CSetFieldValues" "CSetFieldValues" true [.mk "Field" "CLink" false []]],
      regions_option := [], m_loop_regions := [] }
    "CSetFieldValues"
    (.mk "CSetFieldValues" "CSetFieldValues" true [.mk "Field" "CLink" false []])
    ⟨_, List.mem_singleton.mpr rfl, rfl, rfl⟩ rfl rfl
  ⟨h.1, h.2.2.2.1⟩

/-! ### Data sets of the plotter -/

/-- Whatever the address and the behaviour of assertions, one call of `add_data_set` keeps
the data-set list free of repetitions. -/
theorem add_data_set_nodup (mode : AssertMode) (self : CPlotter) (u : URI)
    (h : self.m_data_sets.Nodup) : (CPlotter.add_data_set mode self u).2.m_data_sets.Nodup := by
  unfold CPlotter.add_data_set
  split
  · exact h
  · split
    · exact h
    · split
      · exact h
      · rename_i hnot
        simp only
        rw [List.nodup_append]
        refine ⟨h, List.nodup_singleton _, ?_⟩
        intro a ha hb
        rw [List.mem_singleton] at hb
        exact hnot (hb ▸ ha)

theorem add_data_sets_nodup (mode : AssertMode) (self : CPlotter) (us : List URI)
    (h : self.m_data_sets.Nodup) : (CPlotter.add_data_sets mode self us).m_data_sets.Nodup := by
  induction us generalizing self with
  | nil => exact h
  | cons u us ih => exact ih _ (add_data_set_nodup mode self u h)

/-- C18: for every plotter and every non-empty `CPATH` address `u`, under either behaviour of
assertions: when `u.path()` already occurs in the data-set list, `add_data_set(u)` raises
`BadValue` and leaves the list unchanged; otherwise it succeeds and the new list is the old
one with `u.path()` appended at the end. After any sequence of `add_data_set` calls on a new
plotter (any addresses) the list holds no path twice. -/
theorem C18_add_data_set_rejects_duplicates (mode : AssertMode) (self : CPlotter) (u : URI)
    (hne : u.empty = false) (hs : u.scheme = Scheme.CPATH) :
    (u.path ∈ self.m_data_sets →
      CPlotter.add_data_set mode self u
        = (.error (.BadValue (u.string ++ ": is already known as a data set.")), self)) ∧
    (u.path ∉ self.m_data_sets →
      CPlotter.add_data_set mode self u
        = (.ok (), { m_data_sets := self.m_data_sets ++ [u.path] })) ∧
    (∀ (m : AssertMode) (us : List URI),
      (CPlotter.add_data_sets m CPlotter.new us).m_data_sets.Nodup) := by
  refine ⟨?_, ?_, ?_⟩
  · intro h
    simp [CPlotter.add_data_set, cf_assert, hne, hs, h]
  · intro h
    simp [CPlotter.add_data_set, cf_assert, hne, hs, h]
  · intro m us
    exact add_data_sets_nodup m CPlotter.new us List.nodup_nil

theorem C18_add_data_set_rejects_duplicates_witness :
    CPlotter.add_data_set .raises ⟨["/mesh/a", "/mesh/b"]⟩ ⟨.CPATH, "/mesh/a"⟩
      = (.error (.BadValue ((URI.mk .CPATH "/mesh/a").string
            ++ ": is already known as a data set.")), ⟨["/mesh/a", "/mesh/b"]⟩) ∧
    CPlotter.add_data_set .raises ⟨["/mesh/a", "/mesh/b"]⟩ ⟨.CPATH, "/mesh/c"⟩
      = (.ok (), ⟨["/mesh/a", "/mesh/b"] ++ ["/mesh/c"]⟩) ∧
    (CPlotter.add_data_sets .continues CPlotter.new
        [⟨.CPATH, "/mesh/a"⟩, ⟨.FILE, ""⟩, ⟨.CPATH, "/mesh/a"⟩]).m_data_sets.Nodup :=
  ⟨(C18_add_data_set_rejects_duplicates .raises ⟨["/mesh/a", "/mesh/b"]⟩ ⟨.CPATH, "/mesh/a"⟩
      rfl rfl).1 (by decide),
   (C18_add_data_set_rejects_duplicates .raises ⟨["/mesh/a", "/mesh/b"]⟩ ⟨.CPATH, "/mesh/c"⟩
      rfl rfl).2.1 (by decide),
   (C18_add_data_set_rejects_duplicates .raises ⟨["/mesh/a", "/mesh/b"]⟩ ⟨.CPATH, "/mesh/c"⟩
      rfl rfl).2.2 .continues _⟩

/-! ### Construction of the plot -/

theorem get_option_string_error (options : SignalFrame) (key : String) (e : Error)
    (h : get_option_string options key = .error e) :
    e = .TypeMismatch key ∨ e = .ValueNotFound key := by
  unfold get_option_string at h
  split at h
  · cases h
  · cases h; exact Or.inl rfl
  · cases h; exact Or.inr rfl

theorem get_option_uri_error (options : SignalFrame) (key : String) (e : Error)
    (h : get_option_uri options key = .error e) :
    e = .TypeMismatch key ∨ e = .ValueNotFound key := by
  unfold get_option_uri at h
  split at h
  · cases h
  · cases h; exact Or.inl rfl
  · cases h; exact Or.inr rfl

/-- C17 (as stated, refuted): with a type registry in which no plot type is registered (the
empty registry, where a build by type identifier fails with the unknown-type error), the
handler `signal_create_xyplot` does not fail with that error: it succeeds and attaches the
plot. -/
theorem C17_plot_not_built_by_registry_counterexample :
    ¬ (create_component_abstract_type [] "Component" "CPlotXY" "xy"
          = .error (.UnknownType "CPlotXY") →
       (CPlotter.signal_create_xyplot
          [("Plot name", .string "xy"), ("Parent", .uri ⟨.CPATH, "/"⟩)]
          ⟨.mk "Root" "CRoot" false [], 0⟩).1 = .error (.UnknownType "CPlotXY") ∧
       (CPlotter.signal_create_xyplot
          [("Plot name", .string "xy"), ("Parent", .uri ⟨.CPATH, "/"⟩)]
          ⟨.mk "Root" "CRoot" false [], 0⟩).2.root = .mk "Root" "CRoot" false []) := by
  intro h
  have h1 := (h rfl).1
  have h2 : (CPlotter.signal_create_xyplot
      [("Plot name", .string "xy"), ("Parent", .uri ⟨.CPATH, "/"⟩)]
      ⟨.mk "Root" "CRoot" false [], 0⟩).1 = .ok () := rfl
  rw [h2] at h1
  cases h1

/-- C17 (amended): the plot component that `signal_create_xyplot` attaches is constructed
directly (`new CPlotXY(name)`), without any lookup in the type registry: the handler never
fails with an unknown-type error, and whenever it succeeds the tree has changed by exactly
the attachment of a component of type `CPlotXY`, marked basic, under the resolved parent. -/
theorem C17_plot_constructed_directly (options : SignalFrame) (core : Core) :
    (∀ key, (CPlotter.signal_create_xyplot options core).1 ≠ .error (.UnknownType key)) ∧
    ((CPlotter.signal_create_xyplot options core).1 = .ok () →
      ∃ name parent addr,
        get_option_string options "Plot name" = .ok name ∧
        get_option_uri options "Parent" = .ok parent ∧
        look_component core.root parent = .ok addr ∧
        update_at (and_then (fun p => add_component p (construct "CPlotXY" name))
            (fun p1 => update_at (fun c => .ok c.mark_basic) p1 [name])) core.root addr
          = .ok (CPlotter.signal_create_xyplot options core).2.root) := by
  cases hname : get_option_string options "Plot name" with
  | error e1 =>
    have hr : CPlotter.signal_create_xyplot options core = (.error e1, core) := by
      simp only [CPlotter.signal_create_xyplot, hname]
    rw [hr]
    refine ⟨?_, by intro h; cases h⟩
    intro key
    rcases get_option_string_error _ _ _ hname with h | h <;> simp [h]
  | ok name =>
    cases hparent : get_option_uri options "Parent" with
    | error e1 =>
      have hr : CPlotter.signal_create_xyplot options core = (.error e1, core) := by
        simp only [CPlotter.signal_create_xyplot, hname, hparent]
      rw [hr]
      refine ⟨?_, by intro h; cases h⟩
      intro key
      rcases get_option_uri_error _ _ _ hparent with h | h <;> simp [h]
    | ok parent =>
      have h6 := create_xyplot_checks options core name parent hname hparent
      by_cases h1 : name = ""
      · rw [h6.1 h1]
        exact ⟨by intro key; simp, by intro h; cases h⟩
      · cases h2 : parent.empty with
        | true =>
          rw [h6.2.1 h1 h2]
          exact ⟨by intro key; simp, by intro h; cases h⟩
        | false =>
          by_cases h3 : parent.scheme = Scheme.CPATH
          · rcases create_xyplot_after_checks options core name parent hname hparent
              h1 h2 h3 with ⟨e2, he, hk⟩ | ⟨addr, root1, root2, hl, ha, hm, hr⟩
            · rw [he]
              refine ⟨?_, by intro h; cases h⟩
              intro key
              rcases hk with hk | hk | hk <;> simp [hk]
            · rw [hr]
              refine ⟨by intro key; simp, ?_⟩
              intro _
              refine ⟨name, parent, addr, rfl, rfl, hl, ?_⟩
              rw [← update_at_then _ _ (add_component_name _) core.root root1 addr ha,
                ← update_at_append]
              exact hm
          · rw [h6.2.2 h1 h2 h3]
            exact ⟨by intro key; simp, by intro h; cases h⟩

/-! ### Element loop of the weak Dirichlet term -/

theorem build_registered_physics (p : String) (hp : p ∈ registered_physics) :
    build_component_abstract_type_reduced WeakDirichlet_builders "FaceLoop"
        ("FaceLoopT<" ++ WeakDirichlet.type_name ++ "," ++ p ++ ">") "LOOP"
      = .ok (construct ("FaceLoopT<" ++ WeakDirichlet.type_name ++ "," ++ p ++ ">") "LOOP") := by
  simp only [registered_physics, List.mem_cons, List.mem_singleton, List.not_mem_nil,
    or_false] at hp
  rcases hp with rfl | rfl | rfl | rfl | rfl <;> rfl

theorem registered_physics_entry (p : String) (hp : p ∈ registered_physics) :
    { concrete := "FaceLoopT<" ++ WeakDirichlet.type_name ++ "," ++ p ++ ">",
      interface_id := "FaceLoop", library := "LibCore" : BuilderEntry }
      ∈ WeakDirichlet_builders := by
  simp only [registered_physics, List.mem_cons, List.mem_singleton, List.not_mem_nil,
    or_false] at hp
  rcases hp with rfl | rfl | rfl | rfl | rfl <;>
    simp [WeakDirichlet_builders, FaceLoopT_type_name]

/-- The two ways in which `WeakDirichlet::execute` can end when there is no child `LOOP`. -/
theorem execute_without_loop (is_ElementLoop : Component → Bool) (registry : List BuilderEntry)
    (wd : WeakDirichlet) (hloop : get_child_ptr wd.self "LOOP" = none) :
    WeakDirichlet.execute is_ElementLoop registry wd
        = (.error (.UnknownType
            ("FaceLoopT<" ++ WeakDirichlet.type_name ++ "," ++ wd.physics ++ ">")), wd) ∨
    WeakDirichlet.execute is_ElementLoop registry wd
        = (.ok (), { wd with
            self := wd.self.set_children (wd.self.children ++
              [construct ("FaceLoopT<" ++ WeakDirichlet.type_name ++ "," ++ wd.physics ++ ">")
                "LOOP"]),
            loop_calls := wd.loop_calls ++ loop_on_regions wd.m_loop_regions }) := by
  by_cases hr : (registry.any (fun b =>
      decide (b.concrete = "FaceLoopT<" ++ WeakDirichlet.type_name ++ "," ++ wd.physics ++ ">")
        && decide (b.interface_id = "FaceLoop"))) = true
  · right
    simp [WeakDirichlet.execute, hloop, build_component_abstract_type_reduced, hr,
      add_component, construct, Component.name]
  · left
    simp [WeakDirichlet.execute, hloop, build_component_abstract_type_reduced, hr]

/-- When `WeakDirichlet::execute` has to create its loop, the key it looks up is exactly
`"FaceLoopT<" ++ WeakDirichlet::type_name() ++ "," ++ p ++ ">"` with `p` the type of the
physical model (the call ends either with the unknown-type error for that key or with a child
`LOOP` of that type), and two different physics names never give the same key. -/
theorem execute_lookup_key (is_ElementLoop : Component → Bool)
    (registry : List BuilderEntry) (wd : WeakDirichlet) (q : String) :
    (get_child_ptr wd.self "LOOP" = none →
      WeakDirichlet.execute is_ElementLoop registry wd
          = (.error (.UnknownType
              ("FaceLoopT<" ++ WeakDirichlet.type_name ++ "," ++ wd.physics ++ ">")), wd) ∨
      ((WeakDirichlet.execute is_ElementLoop registry wd).1 = .ok () ∧
        get_child_ptr (WeakDirichlet.execute is_ElementLoop registry wd).2.self "LOOP"
          = some (construct
              ("FaceLoopT<" ++ WeakDirichlet.type_name ++ "," ++ wd.physics ++ ">") "LOOP"))) ∧
    ("FaceLoopT<" ++ WeakDirichlet.type_name ++ "," ++ wd.physics ++ ">"
        = "FaceLoopT<" ++ WeakDirichlet.type_name ++ "," ++ q ++ ">" → wd.physics = q) := by
  refine ⟨?_, ?_⟩
  · intro hloop
    rcases execute_without_loop is_ElementLoop registry wd hloop with h | h
    · exact Or.inl h
    · right
      rw [h]
      refine ⟨rfl, ?_⟩
      have := get_child_ptr_added wd.self
        (construct ("FaceLoopT<" ++ WeakDirichlet.type_name ++ "," ++ wd.physics ++ ">") "LOOP")
        hloop
      exact this
  · intro h
    exact FaceLoopT_type_name_injective _ _ _ h

/-- The registry used in the statements about `execute` is the one of `WeakDirichlet.cpp` with
the assumed type identifier of the face loops. -/
theorem WeakDirichlet_builders_eq :
    WeakDirichlet_builders = WeakDirichlet_builders_with FaceLoopT_type_name := rfl

/-- Whether the key that `execute` looks up is the key of a registered builder is decided by
the type identifier of `FaceLoopT<ACTION, PHYSICS>` alone: the build under a key succeeds
exactly when that identifier, for one of the five registered physics types, is this key,
character for character. -/
theorem build_with_type_name (face_loop_type_name : String → String → String)
    (key : String) :
    build_component_abstract_type_reduced (WeakDirichlet_builders_with face_loop_type_name)
        "FaceLoop" key "LOOP" = .ok (construct key "LOOP") ↔
    ∃ q ∈ registered_physics, face_loop_type_name WeakDirichlet.type_name q = key := by
  unfold build_component_abstract_type_reduced
  by_cases h : ∃ q ∈ registered_physics, face_loop_type_name WeakDirichlet.type_name q = key
  · have hany : (WeakDirichlet_builders_with face_loop_type_name).any
        (fun b => decide (b.concrete = key) && decide (b.interface_id = "FaceLoop")) = true := by
      rw [List.any_eq_true]
      obtain ⟨q, hq, hk⟩ := h
      refine ⟨{ concrete := face_loop_type_name WeakDirichlet.type_name q,
                interface_id := "FaceLoop", library := "LibCore" }, ?_, by simp [hk]⟩
      exact List.mem_cons_of_mem _ (List.mem_map.mpr ⟨q, hq, rfl⟩)
    simp only [hany, if_true, true_iff]
    exact h
  · have hany : (WeakDirichlet_builders_with face_loop_type_name).any
        (fun b => decide (b.concrete = key) && decide (b.interface_id = "FaceLoop"))
        = false := by
      rw [Bool.eq_false_iff]
      intro ht
      rw [List.any_eq_true] at ht
      obtain ⟨b, hb, hbb⟩ := ht
      simp only [Bool.and_eq_true, decide_eq_true_eq] at hbb
      rcases List.mem_cons.mp hb with hb0 | hb1
      · rw [hb0] at hbb
        exact absurd hbb.2 (by decide)
      · obtain ⟨q, hq, hqb⟩ := List.mem_map.mp hb1
        rw [← hqb] at hbb
        exact h ⟨q, hq, hbb.1⟩
    simp only [hany, Bool.false_eq_true, if_false]
    constructor
    · intro hc; cases hc
    · intro he; exact absurd he h

/-- With face loops registered under the plain concatenation of the identifiers, the lookup
of `execute` for the physics `LinearAdv2D` finds no builder. -/
theorem build_with_concatenated_type_name :
    build_component_abstract_type_reduced
        (WeakDirichlet_builders_with (fun action physics => "FaceLoopT" ++ action ++ physics))
        "FaceLoop" "FaceLoopT<WeakDirichlet,LinearAdv2D>" "LOOP"
      = .error (.UnknownType "FaceLoopT<WeakDirichlet,LinearAdv2D>") := by
  rfl

/-- When a child `LOOP` that is an `ElementLoop` exists, `WeakDirichlet::execute` reuses it:
nothing is built or added. -/
theorem execute_with_loop (is_ElementLoop : Component → Bool) (registry : List BuilderEntry)
    (wd : WeakDirichlet) (cloop : Component)
    (hloop : get_child_ptr wd.self "LOOP" = some cloop) (hEL : is_ElementLoop cloop = true) :
    WeakDirichlet.execute is_ElementLoop registry wd
      = (.ok (), { wd with loop_calls := wd.loop_calls ++ loop_on_regions wd.m_loop_regions }) := by
  simp [WeakDirichlet.execute, hloop, hEL]

/-- With a registered physics type and no child `LOOP`, `WeakDirichlet::execute` builds the
loop, attaches it as the last child and runs it. -/
theorem execute_registered_without_loop (is_ElementLoop : Component → Bool)
    (wd : WeakDirichlet) (hreg : wd.physics ∈ registered_physics)
    (hloop : get_child_ptr wd.self "LOOP" = none) :
    WeakDirichlet.execute is_ElementLoop WeakDirichlet_builders wd
      = (.ok (), { wd with
          self := wd.self.set_children (wd.self.children ++
            [construct ("FaceLoopT<" ++ WeakDirichlet.type_name ++ "," ++ wd.physics ++ ">")
              "LOOP"]),
          loop_calls := wd.loop_calls ++ loop_on_regions wd.m_loop_regions }) := by
  simp [WeakDirichlet.execute, hloop, build_registered_physics wd.physics hreg,
    add_component, construct, Component.name]

/-- C19: for every `WeakDirichlet` with a registered physics type, whose children have
distinct names, and for which the built face loop is an `ElementLoop`: without a child `LOOP`
the call `execute()` succeeds and attaches one; with a child `LOOP` that is an `ElementLoop`
the call succeeds, reuses it and leaves the children as they were; after every successful
`execute()` there is exactly one child named `LOOP`, and a second `execute()` succeeds too
(no duplicate-name failure) and leaves the same children as the first. -/
theorem C19_execute_get_or_create (is_ElementLoop : Component → Bool) (wd : WeakDirichlet)
    (hreg : wd.physics ∈ registered_physics)
    (huniq : unique_child_names wd.self)
    (hEL : is_ElementLoop
      (construct ("FaceLoopT<" ++ WeakDirichlet.type_name ++ "," ++ wd.physics ++ ">") "LOOP")
        = true) :
    (get_child_ptr wd.self "LOOP" = none →
      (WeakDirichlet.execute is_ElementLoop WeakDirichlet_builders wd).1 = .ok () ∧
      (WeakDirichlet.execute is_ElementLoop WeakDirichlet_builders wd).2.self.children
        = wd.self.children ++
            [construct ("FaceLoopT<" ++ WeakDirichlet.type_name ++ "," ++ wd.physics ++ ">")
              "LOOP"]) ∧
    (∀ cloop, get_child_ptr wd.self "LOOP" = some cloop → is_ElementLoop cloop = true →
      (WeakDirichlet.execute is_ElementLoop WeakDirichlet_builders wd).1 = .ok () ∧
      (WeakDirichlet.execute is_ElementLoop WeakDirichlet_builders wd).2.self = wd.self) ∧
    (∀ wd1, WeakDirichlet.execute is_ElementLoop WeakDirichlet_builders wd = (.ok (), wd1) →
      count_named "LOOP" wd1.self.children = 1 ∧
      ∃ wd2, WeakDirichlet.execute is_ElementLoop WeakDirichlet_builders wd1 = (.ok (), wd2) ∧
        wd2.self = wd1.self) := by
  refine ⟨?_, ?_, ?_⟩
  · intro hloop
    rw [execute_registered_without_loop is_ElementLoop wd hreg hloop]
    exact ⟨rfl, by simp⟩
  · intro cloop hloop hc
    rw [execute_with_loop is_ElementLoop _ wd cloop hloop hc]
    exact ⟨rfl, rfl⟩
  · intro wd1 h1
    cases hloop : get_child_ptr wd.self "LOOP" with
    | none =>
      rw [execute_registered_without_loop is_ElementLoop wd hreg hloop] at h1
      have hwd1 := (Prod.mk.inj h1).2
      subst hwd1
      have hget := get_child_ptr_added wd.self
        (construct ("FaceLoopT<" ++ WeakDirichlet.type_name ++ "," ++ wd.physics ++ ">") "LOOP")
        hloop
      refine ⟨?_, ?_⟩
      · have h0 : count_named "LOOP" wd.self.children = 0 := count_named_of_find_none hloop
        simp only [Component.set_children_children]
        rw [count_named_append_one "LOOP" wd.self.children
          (construct ("FaceLoopT<" ++ WeakDirichlet.type_name ++ "," ++ wd.physics ++ ">")
            "LOOP") rfl, h0]
      · exact ⟨_, execute_with_loop is_ElementLoop _ _ _ hget hEL, rfl⟩
    | some cloop =>
      cases hc : is_ElementLoop cloop with
      | false =>
        simp [WeakDirichlet.execute, hloop, hc] at h1
      | true =>
        rw [execute_with_loop is_ElementLoop _ wd cloop hloop hc] at h1
        have hwd1 := (Prod.mk.inj h1).2
        subst hwd1
        refine ⟨count_named_of_find_some hloop huniq, ?_⟩
        exact ⟨_, execute_with_loop is_ElementLoop _ _ cloop hloop hc, rfl⟩

theorem C19_execute_get_or_create_witness :
    (get_child_ptr (WeakDirichlet.mk (.mk "bc" "WeakDirichlet" false []) "Burgers2D"
        ["/mesh/inlet"] []).self "LOOP" = none →
      (WeakDirichlet.execute (fun _ => true) WeakDirichlet_builders
        ⟨.mk "bc" "WeakDirichlet" false [], "Burgers2D", ["/mesh/inlet"], []⟩).1 = .ok () ∧
      (WeakDirichlet.execute (fun _ => true) WeakDirichlet_builders
        ⟨.mk "bc" "WeakDirichlet" false [], "Burgers2D", ["/mesh/inlet"], []⟩).2.self.children
        = (WeakDirichlet.mk (.mk "bc" "WeakDirichlet" false []) "Burgers2D"
            ["/mesh/inlet"] []).self.children ++
            [construct ("FaceLoopT<" ++ WeakDirichlet.type_name ++ "," ++
              (WeakDirichlet.mk (.mk "bc" "WeakDirichlet" false []) "Burgers2D"
                ["/mesh/inlet"] []).physics ++ ">") "LOOP"]) ∧
    (∀ cloop, get_child_ptr (WeakDirichlet.mk (.mk "bc" "WeakDirichlet" false []) "Burgers2D"
        ["/mesh/inlet"] []).self "LOOP" = some cloop → (fun _ => true) cloop = true →
      (WeakDirichlet.execute (fun _ => true) WeakDirichlet_builders
        ⟨.mk "bc" "WeakDirichlet" false [], "Burgers2D", ["/mesh/inlet"], []⟩).1 = .ok () ∧
      (WeakDirichlet.execute (fun _ => true) WeakDirichlet_builders
        ⟨.mk "bc" "WeakDirichlet" false [], "Burgers2D", ["/mesh/inlet"], []⟩).2.self
        = (WeakDirichlet.mk (.mk "bc" "WeakDirichlet" false []) "Burgers2D"
            ["/mesh/inlet"] []).self) ∧
    (∀ wd1, WeakDirichlet.execute (fun _ => true) WeakDirichlet_builders
        ⟨.mk "bc" "WeakDirichlet" false [], "Burgers2D", ["/mesh/inlet"], []⟩ = (.ok (), wd1) →
      count_named "LOOP" wd1.self.children = 1 ∧
      ∃ wd2, WeakDirichlet.execute (fun _ => true) WeakDirichlet_builders wd1 = (.ok (), wd2) ∧
        wd2.self = wd1.self) :=
  C19_execute_get_or_create (fun _ => true)
    ⟨.mk "bc" "WeakDirichlet" false [], "Burgers2D", ["/mesh/inlet"], []⟩
    (by decide) (by decide) rfl

/-! ### Calls on the element loop -/

theorem loop_on_regions_flatMap (l : List String) :
    loop_on_regions l = l.flatMap (fun r => [LoopEvent.select_region r, LoopEvent.execute]) := by
  induction l with
  | nil => rfl
  | cons r rest ih => simp [loop_on_regions, ih]

theorem loop_on_regions_count (l : List String) :
    (loop_on_regions l).count LoopEvent.execute = l.length := by
  induction l with
  | nil => rfl
  | cons r rest ih => simp [loop_on_regions, List.count_cons, ih]

theorem loop_on_regions_length (l : List String) :
    (loop_on_regions l).length = 2 * l.length := by
  induction l with
  | nil => rfl
  | cons r rest ih => simp [loop_on_regions, ih]; omega

/-- Every successful `WeakDirichlet::execute` leaves a child `LOOP` and adds to the calls made
on it exactly the loop over the configured regions. -/
theorem execute_ok (is_ElementLoop : Component → Bool) (registry : List BuilderEntry)
    (wd wd1 : WeakDirichlet)
    (h : WeakDirichlet.execute is_ElementLoop registry wd = (.ok (), wd1)) :
    wd1.loop_calls = wd.loop_calls ++ loop_on_regions wd.m_loop_regions ∧
    wd1.m_loop_regions = wd.m_loop_regions ∧
    (∃ loop, get_child_ptr wd1.self "LOOP" = some loop) ∧
    (get_child_ptr wd.self "LOOP" = none →
      wd1.self.children = wd.self.children ++
        [construct ("FaceLoopT<" ++ WeakDirichlet.type_name ++ "," ++ wd.physics ++ ">")
          "LOOP"]) := by
  cases hloop : get_child_ptr wd.self "LOOP" with
  | none =>
    rcases execute_without_loop is_ElementLoop registry wd hloop with he | he
    · rw [he] at h
      cases (Prod.mk.inj h).1
    · rw [he] at h
      have hwd1 := (Prod.mk.inj h).2
      subst hwd1
      exact ⟨rfl, rfl, ⟨_, get_child_ptr_added wd.self
        (construct ("FaceLoopT<" ++ WeakDirichlet.type_name ++ "," ++ wd.physics ++ ">") "LOOP")
        hloop⟩, fun _ => by simp⟩
  | some cloop =>
    cases hc : is_ElementLoop cloop with
    | false => simp [WeakDirichlet.execute, hloop, hc] at h
    | true =>
      rw [execute_with_loop is_ElementLoop registry wd cloop hloop hc] at h
      have hwd1 := (Prod.mk.inj h).2
      subst hwd1
      exact ⟨rfl, rfl, ⟨cloop, hloop⟩, fun h0 => by cases h0⟩

/-- C20: a successful `execute()` of a `WeakDirichlet` whose region list is `r1 .. rn` adds to
the calls made on the loop exactly `select_region(r1), execute(), ..., select_region(rn),
execute()`, in this order: twice `n` calls, of which `n` are executions of the loop; the
region list itself is unchanged and a child `LOOP` exists afterwards. With an empty region
list no call is made on the loop, although a missing `LOOP` has been created. -/
theorem C20_execute_once_per_region (is_ElementLoop : Component → Bool)
    (registry : List BuilderEntry) (wd wd1 : WeakDirichlet)
    (h : WeakDirichlet.execute is_ElementLoop registry wd = (.ok (), wd1)) :
    wd1.loop_calls = wd.loop_calls ++
      wd.m_loop_regions.flatMap (fun r => [LoopEvent.select_region r, LoopEvent.execute]) ∧
    (wd.m_loop_regions.flatMap
      (fun r => [LoopEvent.select_region r, LoopEvent.execute])).count LoopEvent.execute
        = wd.m_loop_regions.length ∧
    wd1.loop_calls.length = wd.loop_calls.length + 2 * wd.m_loop_regions.length ∧
    wd1.m_loop_regions = wd.m_loop_regions ∧
    (∃ loop, get_child_ptr wd1.self "LOOP" = some loop) ∧
    (wd.m_loop_regions = [] → wd1.loop_calls = wd.loop_calls) ∧
    (wd.m_loop_regions = [] → get_child_ptr wd.self "LOOP" = none →
      wd1.self.children = wd.self.children ++
        [construct ("FaceLoopT<" ++ WeakDirichlet.type_name ++ "," ++ wd.physics ++ ">")
          "LOOP"]) := by
  obtain ⟨h1, h2, h3, h4⟩ := execute_ok is_ElementLoop registry wd wd1 h
  refine ⟨?_, ?_, ?_, h2, h3, ?_, fun _ => h4⟩
  · rw [h1, loop_on_regions_flatMap]
  · rw [← loop_on_regions_flatMap, loop_on_regions_count]
  · rw [h1, List.length_append, loop_on_regions_length]
  · intro he
    rw [h1, he]
    simp [loop_on_regions]

theorem C20_execute_once_per_region_witness :
    (WeakDirichlet.mk
        (.mk "bc" "WeakDirichlet" false
          [.mk "LOOP" "FaceLoopT<WeakDirichlet,Cons2D>" false []])
        "Cons2D" ["/mesh/inlet", "/mesh/outlet"]
        [.select_region "/mesh/inlet", .execute, .select_region "/mesh/outlet",
         .execute]).loop_calls
      = (WeakDirichlet.mk (.mk "bc" "WeakDirichlet" false []) "Cons2D"
          ["/mesh/inlet", "/mesh/outlet"] []).loop_calls ++
        (WeakDirichlet.mk (.mk "bc" "WeakDirichlet" false []) "Cons2D"
          ["/mesh/inlet", "/mesh/outlet"] []).m_loop_regions.flatMap
            (fun r => [LoopEvent.select_region r, LoopEvent.execute]) :=
  (C20_execute_once_per_region (fun _ => true) WeakDirichlet_builders
    ⟨.mk "bc" "WeakDirichlet" false [], "Cons2D", ["/mesh/inlet", "/mesh/outlet"], []⟩
    ⟨.mk "bc" "WeakDirichlet" false [.mk "LOOP" "FaceLoopT<WeakDirichlet,Cons2D>" false []],
      "Cons2D", ["/mesh/inlet", "/mesh/outlet"],
      [.select_region "/mesh/inlet", .execute, .select_region "/mesh/outlet", .execute]⟩
    rfl).1

/-! ### Cached solution field -/

/-- Whenever `config_mesh` returns normally, the cached reference `solution` is not null. -/
theorem config_mesh_ok_nonnull (mode : AssertMode) (is_CField : Component → Bool)
    (find_component_ptr_with_tag : Component → String → Option Component)
    (component_uri : Component → URI)
    (root : Component) (w w1 : WeakDirichletConfig)
    (h : WeakDirichletConfig.config_mesh mode is_CField find_component_ptr_with_tag
        component_uri root w
      = (.ok (), w1)) : w1.solution ≠ none := by
  unfold WeakDirichletConfig.config_mesh at h
  simp only at h
  split at h
  · cases (Prod.mk.inj h).1
  · split at h
    · cases (Prod.mk.inj h).1
    · split at h
      · rename_i hs
        rw [← (Prod.mk.inj h).2]
        simp only at hs ⊢
        rw [hs]
        simp
      · split at h
        · cases (Prod.mk.inj h).1
        · split at h
          · rename_i hs
            rw [← (Prod.mk.inj h).2]
            simp only at hs ⊢
            rw [hs]
            simp
          · cases (Prod.mk.inj h).1

/-- C12: for every `WeakDirichlet` with a live mesh, setting the option `solution` to a URI `u`
stores `u` and runs the trigger `config_mesh` once, which reads `u` as the value of the
option. When `u` resolves to a `CField`, the call succeeds and the cached reference
`solution` is that field; when the call succeeds and `u` does not resolve to a `CField`, the
cached reference is the field tagged `solution` found under the mesh (and when `u` resolves to
a component that is not a `CField` and such a tagged field exists, the call does succeed).
When `u` resolves to a component that is not a `CField` and no tagged field is found, the call
fails with `CastingFailed`, whose message ends with the URI of the mesh.
Whenever `config_mesh` returns normally the cached reference is not null. -/
theorem C12_solution_cache_consistent (mode : AssertMode) (is_CField : Component → Bool)
    (find_component_ptr_with_tag : Component → String → Option Component)
    (component_uri : Component → URI)
    (root : Component) (wd : WeakDirichletConfig) (u : URI) (mesh : Component)
    (hmesh : wd.m_mesh = some mesh) :
    (WeakDirichletConfig.set_solution mode is_CField find_component_ptr_with_tag
        component_uri root wd
        (.uri u)).2.solution_option = u ∧
    (WeakDirichletConfig.set_solution mode is_CField find_component_ptr_with_tag
        component_uri root wd
        (.uri u)).2.config_mesh_seen = wd.config_mesh_seen ++ [u] ∧
    (∀ f, access_component_ptr root u = .ok f → is_CField f = true →
      WeakDirichletConfig.set_solution mode is_CField find_component_ptr_with_tag
          component_uri root wd
          (.uri u)
        = (.ok (), { wd with solution_option := u, solution := some f,
                             config_mesh_seen := wd.config_mesh_seen ++ [u] })) ∧
    ((WeakDirichletConfig.set_solution mode is_CField find_component_ptr_with_tag
        component_uri root wd
        (.uri u)).1 = .ok () →
      (¬ ∃ f, access_component_ptr root u = .ok f ∧ is_CField f = true) →
      (WeakDirichletConfig.set_solution mode is_CField find_component_ptr_with_tag
          component_uri root wd
        (.uri u)).2.solution = find_component_ptr_with_tag mesh "solution") ∧
    (∀ c g, access_component_ptr root u = .ok c → is_CField c = false →
      find_component_ptr_with_tag mesh "solution" = some g →
      WeakDirichletConfig.set_solution mode is_CField find_component_ptr_with_tag
          component_uri root wd
          (.uri u)
        = (.ok (), { wd with solution_option := u, solution := some g,
                             config_mesh_seen := wd.config_mesh_seen ++ [u] })) ∧
    (∀ c, access_component_ptr root u = .ok c → is_CField c = false →
      find_component_ptr_with_tag mesh "solution" = none →
      (WeakDirichletConfig.set_solution mode is_CField find_component_ptr_with_tag
          component_uri root wd (.uri u)).1
        = .error (.CastingFailed
            ("Could not find a solution field on mesh " ++ (component_uri mesh).string))) ∧
    (∀ w w1,
      WeakDirichletConfig.config_mesh mode is_CField find_component_ptr_with_tag component_uri
          root w
        = (.ok (), w1) → w1.solution ≠ none) := by
  have hassert : cf_assert mode (some mesh).isSome = .ok () := by simp [cf_assert]
  have hassert2 : cf_assert mode true = .ok () := by simp [cf_assert]
  refine ⟨?_, ?_, ?_, ?_, ?_, ?_, fun w w1 h => config_mesh_ok_nonnull _ _ _ _ _ w w1 h⟩
  · simp only [WeakDirichletConfig.set_solution, WeakDirichletConfig.config_mesh, hmesh,
      hassert]
    cases access_component_ptr root u with
    | error e => rfl
    | ok c =>
      cases hc : is_CField c with
      | true => simp [hc]
      | false =>
        cases hg : find_component_ptr_with_tag mesh "solution" <;> simp [hc, hg]
  · simp only [WeakDirichletConfig.set_solution, WeakDirichletConfig.config_mesh, hmesh,
      hassert]
    cases access_component_ptr root u with
    | error e => rfl
    | ok c =>
      cases hc : is_CField c with
      | true => simp [hc]
      | false =>
        cases hg : find_component_ptr_with_tag mesh "solution" <;> simp [hc, hg]
  · intro f hf hcf
    simp [WeakDirichletConfig.set_solution, WeakDirichletConfig.config_mesh, hmesh,
      hassert2, hf, hcf]
  · simp only [WeakDirichletConfig.set_solution, WeakDirichletConfig.config_mesh, hmesh,
      hassert]
    cases ha : access_component_ptr root u with
    | error e => intro h; cases h
    | ok c =>
      cases hc : is_CField c with
      | true =>
        intro _ hno
        exact absurd ⟨c, rfl, hc⟩ hno
      | false =>
        cases hg : find_component_ptr_with_tag mesh "solution" <;> simp [hc, hg]
  · intro c g hc hcf hg
    simp [WeakDirichletConfig.set_solution, WeakDirichletConfig.config_mesh, hmesh,
      hassert2, hc, hcf, hg]
  · intro c hc hcf hg
    simp [WeakDirichletConfig.set_solution, WeakDirichletConfig.config_mesh, hmesh,
      hassert2, hc, hcf, hg]

theorem C12_solution_cache_consistent_witness :
    WeakDirichletConfig.set_solution .raises (fun c => decide (c.type_name = "CField"))
        (fun m _ => get_child_ptr m "solution") (fun c => ⟨.CPATH, "/" ++ c.name⟩)
        (.mk "Root" "CRoot" false
          [.mk "mesh" "CMesh" false [.mk "solution" "CField" false []]])
        { m_mesh := some (.mk "mesh" "CMesh" false [.mk "solution" "CField" false []]),
          solution_option := ⟨.CPATH, ""⟩, solution := none, config_mesh_seen := [] }
        (.uri ⟨.CPATH, "/mesh"⟩)
      = (.ok (),
         { m_mesh := some (.mk "mesh" "CMesh" false [.mk "solution" "CField" false []]),
           solution_option := ⟨.CPATH, "/mesh"⟩,
           solution := some (.mk "solution" "CField" false []),
           config_mesh_seen := [] ++ [⟨.CPATH, "/mesh"⟩] }) :=
  (C12_solution_cache_consistent .raises (fun c => decide (c.type_name = "CField"))
    (fun m _ => get_child_ptr m "solution") (fun c => ⟨.CPATH, "/" ++ c.name⟩)
    (.mk "Root" "CRoot" false [.mk "mesh" "CMesh" false [.mk "solution" "CField" false []]])
    { m_mesh := some (.mk "mesh" "CMesh" false [.mk "solution" "CField" false []]),
      solution_option := ⟨.CPATH, ""⟩, solution := none, config_mesh_seen := [] }
    ⟨.CPATH, "/mesh"⟩ (.mk "mesh" "CMesh" false [.mk "solution" "CField" false []])
    rfl).2.2.2.2.1
    (.mk "mesh" "CMesh" false [.mk "solution" "CField" false []])
    (.mk "solution" "CField" false []) rfl rfl rfl

/-! ### Names of loop operations -/

/-- Every operation created by `create_loop_operation` carries the provider key as its name. -/
theorem create_loop_operation_name (registry : List BuilderEntry) (loop loop1 : CLoop)
    (p : String) (op : Component)
    (h : CLoop.create_loop_operation registry loop p = (.ok op, loop1)) : op.name = p := by
  unfold CLoop.create_loop_operation at h
  simp only at h
  cases hb : create_component_abstract_type registry "CLoopOperation" p p with
  | error e => simp [hb] at h
  | ok sub =>
    have hsub := create_component_abstract_type_ok _ _ _ _ _ hb
    cases ha : add_component loop.self sub with
    | error e => simp [hb, ha] at h
    | ok self1 =>
      simp only [hb, ha, Prod.mk.injEq, Except.ok.injEq] at h
      rw [← h.1, hsub]
      rfl

/-- C21 (the code at the failing input): on a new loop, with both providers registered,
`create_loop_operation("CSetFieldValues")` followed by
`create_loop_operation("CComputeVolume")` both succeed, and the names of the two operations,
in the order of creation, are `CSetFieldValues`, `CComputeVolume`: the provider keys
themselves, which are not in increasing alphabetical order. -/
theorem C21_operation_names_not_increasing :
    (CLoop.create_loop_operations
        [{ concrete := "CSetFieldValues", interface_id := "CLoopOperation",
           library := "LibActions" },
         { concrete := "CComputeVolume", interface_id := "CLoopOperation",
           library := "LibActions" }]
        { self := .mk "loop" "CLoop" true [], regions_option := [], m_loop_regions := [] }
        ["CSetFieldValues", "CComputeVolume"]).1 = ["CSetFieldValues", "CComputeVolume"] ∧
    names_increasing
      (CLoop.create_loop_operations
        [{ concrete := "CSetFieldValues", interface_id := "CLoopOperation",
           library := "LibActions" },
         { concrete := "CComputeVolume", interface_id := "CLoopOperation",
           library := "LibActions" }]
        { self := .mk "loop" "CLoop" true [], regions_option := [], m_loop_regions := [] }
        ["CSetFieldValues", "CComputeVolume"]).1 = false ∧
    name_less "CSetFieldValues" "CComputeVolume" = false := by
  refine ⟨rfl, ?_, by decide⟩
  have h : (CLoop.create_loop_operations
        [{ concrete := "CSetFieldValues", interface_id := "CLoopOperation",
           library := "LibActions" },
         { concrete := "CComputeVolume", interface_id := "CLoopOperation",
           library := "LibActions" }]
        { self := .mk "loop" "CLoop" true [], regions_option := [], m_loop_regions := [] }
        ["CSetFieldValues", "CComputeVolume"]).1 = ["CSetFieldValues", "CComputeVolume"] := rfl
  rw [h]
  decide

/-! ### Names read from a CGNS file -/

theorem sanitise_name_data (name : String) :
    (sanitise_name name).data
      = name.data.map (fun c => if c = ' ' ∨ c = '.' then '_' else c) := by
  simp only [sanitise_name, replace_all, List.map_map]
  apply List.map_congr_left
  intro c _
  by_cases h1 : c = ' '
  · subst h1; decide
  · by_cases h2 : c = '.'
    · subst h2; decide
    · simp [h1, h2]

/-- C28: the name derived from a CGNS name is the input with every space and every `.`
replaced by `_`: for every input the result has the same length, holds no space and no `.`,
agrees with the input at every position that held another character, has `_` at every
position that held a space or a `.`, and sanitising it again changes nothing. -/
theorem C28_sanitise_name (name : String) :
    (sanitise_name name).data
      = name.data.map (fun c => if c = ' ' ∨ c = '.' then '_' else c) ∧
    (sanitise_name name).length = name.length ∧
    ' ' ∉ (sanitise_name name).data ∧
    '.' ∉ (sanitise_name name).data ∧
    (∀ (i : Nat) (c : Char), name.data[i]? = some c → c ≠ ' ' → c ≠ '.' →
      (sanitise_name name).data[i]? = some c) ∧
    (∀ (i : Nat) (c : Char), name.data[i]? = some c → (c = ' ' ∨ c = '.') →
      (sanitise_name name).data[i]? = some '_') ∧
    sanitise_name (sanitise_name name) = sanitise_name name := by
  have hd := sanitise_name_data name
  refine ⟨hd, ?_, ?_, ?_, ?_, ?_, ?_⟩
  · show (sanitise_name name).data.length = name.data.length
    rw [hd, List.length_map]
  · rw [hd, List.mem_map]
    rintro ⟨c, _, hc⟩
    by_cases h : c = ' ' ∨ c = '.'
    · rw [if_pos h] at hc; exact absurd hc (by decide)
    · rw [if_neg h] at hc; exact h (Or.inl hc)
  · rw [hd, List.mem_map]
    rintro ⟨c, _, hc⟩
    by_cases h : c = ' ' ∨ c = '.'
    · rw [if_pos h] at hc; exact absurd hc (by decide)
    · rw [if_neg h] at hc; exact h (Or.inr hc)
  · intro i c hi h1 h2
    rw [hd, List.getElem?_map, hi]
    simp [h1, h2]
  · intro i c hi h
    rw [hd, List.getElem?_map, hi]
    simp [h]
  · apply String.ext
    rw [sanitise_name_data (sanitise_name name), hd, List.map_map]
    apply List.map_congr_left
    intro c _
    by_cases h : c = ' ' ∨ c = '.'
    · simp only [Function.comp, if_pos h]; decide
    · simp only [Function.comp, if_neg h]

/-! ### Element-type keys of structured zones -/

/-- C29: for `cell_dim` 3, 2, 1 the interior element key composed by
`create_structured_elements` and by `read_boco_structured` is `Hexa`, `Quad`, `Line` followed
by the decimal `phys_dim` and `DLagrangeP1`; the boundary element key of
`read_boco_structured` is `Quad`, `Line` followed by `phys_dim` and `DLagrangeP1` for
`cell_dim` 3, 2 and `Point`, `phys_dim`, `D` for `cell_dim` 1; for `cell_dim` 1 and `phys_dim`
2 the boundary key is `Point2D::type_name()`; and for `cell_dim` 1, 2, 3 no key is empty. -/
theorem C29_structured_element_keys (phys_dim : Int) :
    create_structured_elements_etype_CF 3 phys_dim
      = "Hexa" ++ to_str phys_dim ++ "DLagrangeP1" ∧
    create_structured_elements_etype_CF 2 phys_dim
      = "Quad" ++ to_str phys_dim ++ "DLagrangeP1" ∧
    create_structured_elements_etype_CF 1 phys_dim
      = "Line" ++ to_str phys_dim ++ "DLagrangeP1" ∧
    read_boco_structured_etypes 3 phys_dim
      = ("Hexa" ++ to_str phys_dim ++ "DLagrangeP1",
         "Quad" ++ to_str phys_dim ++ "DLagrangeP1") ∧
    read_boco_structured_etypes 2 phys_dim
      = ("Quad" ++ to_str phys_dim ++ "DLagrangeP1",
         "Line" ++ to_str phys_dim ++ "DLagrangeP1") ∧
    read_boco_structured_etypes 1 phys_dim
      = ("Line" ++ to_str phys_dim ++ "DLagrangeP1", "Point" ++ to_str phys_dim ++ "D") ∧
    (read_boco_structured_etypes 1 2).2 = Point2D.type_name ∧
    (∀ cell_dim : Int, cell_dim = 1 ∨ cell_dim = 2 ∨ cell_dim = 3 →
      create_structured_elements_etype_CF cell_dim phys_dim ≠ "" ∧
      (read_boco_structured_etypes cell_dim phys_dim).1 ≠ "" ∧
      (read_boco_structured_etypes cell_dim phys_dim).2 ≠ "" ∧
      (read_boco_structured_etypes cell_dim phys_dim).1
        = create_structured_elements_etype_CF cell_dim phys_dim) := by
  have hne : ∀ (a b c : String), a ≠ "" → a ++ b ++ c ≠ "" := by
    intro a b c ha h
    apply ha
    rw [String.ext_iff] at h ⊢
    simp only [String.data_append, List.append_assoc] at h
    have := List.append_eq_nil.mp h
    exact this.1
  refine ⟨rfl, rfl, rfl, rfl, rfl, rfl, by decide, ?_⟩
  intro cell_dim hc
  rcases hc with rfl | rfl | rfl
  · exact ⟨hne _ _ _ (by decide), hne _ _ _ (by decide), hne _ _ _ (by decide), rfl⟩
  · exact ⟨hne _ _ _ (by decide), hne _ _ _ (by decide), hne _ _ _ (by decide), rfl⟩
  · exact ⟨hne _ _ _ (by decide), hne _ _ _ (by decide), hne _ _ _ (by decide), rfl⟩

/-! ### Reads of a point range -/

/-- In a zone of cell dimension 3 the six reads of a point range lie inside the buffer of
`2 * 3` entries. -/
theorem read_point_range_dim3 (boco_elems : List Int) (h : boco_elems.length = 2 * 3) :
    ∃ b, read_point_range boco_elems 3 = some b := by
  match boco_elems, h with
  | [a, b, c, d, e, f], _ => exact ⟨_, rfl⟩

/-- In a zone of cell dimension 2 the read of `boco_elems[ZZ + 1 * cell_dim]` lies outside the
buffer of `2 * 2` entries, whatever the buffer holds. -/
theorem read_point_range_dim2 (boco_elems : List Int) (h : boco_elems.length = 2 * 2) :
    read_point_range boco_elems 2 = none := by
  match boco_elems, h with
  | [a, b, c, d], _ => rfl

/-- In a zone of cell dimension 1 reads lie outside the buffer of `2 * 1` entries. -/
theorem read_point_range_dim1 (boco_elems : List Int) (h : boco_elems.length = 2 * 1) :
    read_point_range boco_elems 1 = none := by
  match boco_elems, h with
  | [a, b], _ => rfl

/-- C27 (the code at the failing input): for a structured zone of cell dimension 2 and a
point range given by `nBC_elem = 2` points, the buffer `boco_elems` has `2 * 2 = 4` entries,
and the six positions read are 0, 2, 1, 3, 2, 4: the last one, `ZZ + 1 * cell_dim`, is not
below 4, so the reads of lines 804 to 806 do not all lie inside the buffer. -/
theorem C27_point_range_read_out_of_bounds :
    point_range_indices 2 = [0, 2, 1, 3, 2, 4] ∧
    ([1, 1, 5, 1] : List Int).length = 2 * 2 ∧
    ¬ (ZZ + 1 * 2 < ([1, 1, 5, 1] : List Int).length) ∧
    ([1, 1, 5, 1] : List Int)[ZZ + 1 * 2]? = none ∧
    read_point_range [1, 1, 5, 1] 2 = none ∧
    ¬ (∀ i ∈ point_range_indices 2, i < 2 * 2) := by
  refine ⟨rfl, rfl, by decide, rfl, rfl, by decide⟩

/-! ### Element counts of a zone -/

theorem two_pow_ne_zero_int (w : Nat) : (2 ^ w : Int) ≠ 0 := by positivity

theorem to_Uint_cast (w : Nat) (z : Int) : ((to_Uint w z : Nat) : Int) = z % 2 ^ w := by
  unfold to_Uint
  exact Int.toNat_of_nonneg (Int.emod_nonneg _ (two_pow_ne_zero_int w))

theorem to_Uint_add (w : Nat) (a b : Int) :
    (to_Uint w a + to_Uint w b) % 2 ^ w = to_Uint w (a + b) := by
  apply Int.ofNat_inj.mp
  push_cast
  rw [to_Uint_cast, to_Uint_cast, to_Uint_cast]
  exact (Int.add_emod a b _).symm

theorem to_Uint_mul (w : Nat) (a b : Int) :
    (to_Uint w a * to_Uint w b) % 2 ^ w = to_Uint w (a * b) := by
  apply Int.ofNat_inj.mp
  push_cast
  rw [to_Uint_cast, to_Uint_cast, to_Uint_cast]
  exact (Int.mul_emod a b _).symm

theorem to_Uint_of_range (w : Nat) (z : Int) (h0 : 0 ≤ z) (h1 : z < 2 ^ w) :
    ((to_Uint w z : Nat) : Int) = z := by
  rw [to_Uint_cast]
  exact Int.emod_eq_of_lt h0 h1

theorem sum_sections_fold (w : Nat) (l : List SectionRange) (a : Int) :
    l.foldl (fun nbElements sec =>
        (nbElements + to_Uint w (sec.eEnd - sec.eBegin + 1)) % 2 ^ w) (to_Uint w a)
      = to_Uint w (a + (l.map (fun sec => sec.eEnd - sec.eBegin + 1)).sum) := by
  induction l generalizing a with
  | nil => simp
  | cons sec rest ih =>
    simp only [List.foldl_cons, List.map_cons, List.sum_cons]
    rw [to_Uint_add, ih]
    congr 1
    ring

theorem prod_vertices_fold (w : Nat) (nbVertices : Nat → Int) (l : List Nat) (a : Int) :
    l.foldl (fun nbElements d =>
        (nbElements * to_Uint w (nbVertices d - 1)) % 2 ^ w) (to_Uint w a)
      = to_Uint w (a * (l.map (fun d => nbVertices d - 1)).prod) := by
  induction l generalizing a with
  | nil => simp
  | cons d rest ih =>
    simp only [List.foldl_cons, List.map_cons, List.prod_cons]
    rw [to_Uint_mul, ih]
    congr 1
    ring

/-- The value of `get_total_nbElements` for an unstructured zone. -/
theorem get_total_nbElements_unstructured (w : Nat) (zone : Zone)
    (h : zone.type = .Unstructured) :
    get_total_nbElements w zone
      = some (to_Uint w (zone.sections.map (fun sec => sec.eEnd - sec.eBegin + 1)).sum) := by
  simp only [get_total_nbElements, h, sum_sections_fold, zero_add]

/-- The value of `get_total_nbElements` for a structured zone. -/
theorem get_total_nbElements_structured (w : Nat) (zone : Zone)
    (h : zone.type = .Structured) :
    get_total_nbElements w zone
      = some (to_Uint w ((List.range zone.coord_dim.toNat).map
          (fun d => zone.nbVertices d - 1)).prod) := by
  simp only [get_total_nbElements, h, prod_vertices_fold, one_mul]

theorem prod_nonneg_of_vertices (nbVertices : Nat → Int) (n : Nat)
    (h : ∀ d, d < n → 1 ≤ nbVertices d) :
    0 ≤ ((List.range n).map (fun d => nbVertices d - 1)).prod := by
  apply List.prod_nonneg
  intro x hx
  rw [List.mem_map] at hx
  obtain ⟨d, hd, rfl⟩ := hx
  have := h d (List.mem_range.mp hd)
  omega

/-- C22 (as stated, refuted): structured zones with more than one vertex in every direction
whose number of cells does not fit the `Uint` in which `get_total_nbElements` accumulates. With
`nbVertices = 2049, 2049, 1025` the product of `nbVertices[d] - 1` is `2^32`, and with a `Uint`
of 32 bits the function returns 0; with `nbVertices = 4194305` in the three directions the
product is `2^66`, and with a `Uint` of 32 or of 64 bits the function returns 0. -/
theorem C22_total_wraps_counterexample :
    (∀ d, d < 3 → 1 ≤ (Zone.mk .Structured 3 (fun d => [2049, 2049, 1025].getD d 0) []).nbVertices d) ∧
    ((List.range 3).map (fun d => ([2049, 2049, 1025] : List Int).getD d 0 - 1)).prod = 2 ^ 32 ∧
    get_total_nbElements 32
      { type := .Structured, coord_dim := 3, nbVertices := fun d => [2049, 2049, 1025].getD d 0,
        sections := [] } = some 0 ∧
    ((List.range 3).map (fun _ => (4194305 : Int) - 1)).prod = 2 ^ 66 ∧
    get_total_nbElements 32
      { type := .Structured, coord_dim := 3, nbVertices := fun _ => 4194305,
        sections := [] } = some 0 ∧
    get_total_nbElements 64
      { type := .Structured, coord_dim := 3, nbVertices := fun _ => 4194305,
        sections := [] } = some 0 := by
  refine ⟨by decide, by decide, by decide, by decide, by decide, by decide⟩

/-- C22 (amended): `get_total_nbElements`, whose result is a `Uint` of `uint_bits` bits, returns for an
unstructured zone the sum over all sections of `eEnd - eBegin + 1` and for a structured zone
the product over `d < coord_dim` of `nbVertices[d] - 1`, each reduced modulo
`2 ^ uint_bits`, hence the sum or product itself whenever that is representable (for a
structured zone with `nbVertices[d] >= 1`: whenever it is below `2 ^ uint_bits`); the product
is 1 when `coord_dim` is 0 and 0 as soon as one direction has a single vertex. -/
theorem C22_get_total_nbElements (uint_bits : Nat) (zone : Zone) (hbits : 0 < uint_bits) :
    (zone.type = .Unstructured →
      get_total_nbElements uint_bits zone
        = some (to_Uint uint_bits
            (zone.sections.map (fun sec => sec.eEnd - sec.eBegin + 1)).sum) ∧
      (0 ≤ (zone.sections.map (fun sec => sec.eEnd - sec.eBegin + 1)).sum →
        (zone.sections.map (fun sec => sec.eEnd - sec.eBegin + 1)).sum < 2 ^ uint_bits →
        ∃ n : Nat, get_total_nbElements uint_bits zone = some n ∧
          (n : Int) = (zone.sections.map (fun sec => sec.eEnd - sec.eBegin + 1)).sum)) ∧
    (zone.type = .Structured →
      get_total_nbElements uint_bits zone
        = some (to_Uint uint_bits ((List.range zone.coord_dim.toNat).map
            (fun d => zone.nbVertices d - 1)).prod) ∧
      ((∀ d, d < zone.coord_dim.toNat → 1 ≤ zone.nbVertices d) →
        ((List.range zone.coord_dim.toNat).map (fun d => zone.nbVertices d - 1)).prod
          < 2 ^ uint_bits →
        ∃ n : Nat, get_total_nbElements uint_bits zone = some n ∧
          (n : Int) = ((List.range zone.coord_dim.toNat).map
            (fun d => zone.nbVertices d - 1)).prod) ∧
      (zone.coord_dim = 0 → get_total_nbElements uint_bits zone = some 1) ∧
      ((∃ d, d < zone.coord_dim.toNat ∧ zone.nbVertices d = 1) →
        get_total_nbElements uint_bits zone = some 0)) := by
  have hone : to_Uint uint_bits 1 = 1 := by
    apply Int.ofNat_inj.mp
    rw [to_Uint_of_range uint_bits 1 (by norm_num)
      (by exact_mod_cast Nat.one_lt_two_pow (Nat.pos_iff_ne_zero.mp hbits))]
    rfl
  have hzero : to_Uint uint_bits 0 = 0 := by simp [to_Uint]
  refine ⟨?_, ?_⟩
  · intro h
    refine ⟨get_total_nbElements_unstructured uint_bits zone h, ?_⟩
    intro h0 h1
    exact ⟨_, get_total_nbElements_unstructured uint_bits zone h,
      to_Uint_of_range uint_bits _ h0 h1⟩
  · intro h
    refine ⟨get_total_nbElements_structured uint_bits zone h, ?_, ?_, ?_⟩
    · intro hv h1
      exact ⟨_, get_total_nbElements_structured uint_bits zone h,
        to_Uint_of_range uint_bits _ (prod_nonneg_of_vertices _ _ hv) h1⟩
    · intro hc
      rw [get_total_nbElements_structured uint_bits zone h, hc]
      simp [hone]
    · rintro ⟨d, hd, hv⟩
      rw [get_total_nbElements_structured uint_bits zone h]
      have hp : ((List.range zone.coord_dim.toNat).map
          (fun d => zone.nbVertices d - 1)).prod = 0 := by
        apply List.prod_eq_zero
        rw [List.mem_map]
        exact ⟨d, List.mem_range.mpr hd, by simp [hv]⟩
      rw [hp, hzero]

theorem C22_get_total_nbElements_witness :
    get_total_nbElements 32
        { type := .Unstructured, coord_dim := 3, nbVertices := fun _ => 0,
          sections := [⟨1, 10⟩, ⟨11, 14⟩] }
      = some (to_Uint 32
          ((Zone.mk .Unstructured 3 (fun _ => 0) [⟨1, 10⟩, ⟨11, 14⟩]).sections.map
            (fun sec => sec.eEnd - sec.eBegin + 1)).sum) ∧
    get_total_nbElements 32
        { type := .Structured, coord_dim := 2, nbVertices := fun d => [4, 3, 1].getD d 0,
          sections := [] }
      = some (to_Uint 32
          ((List.range (Zone.mk .Structured 2 (fun d => [4, 3, 1].getD d 0) []).coord_dim.toNat).map
            (fun d => (Zone.mk .Structured 2 (fun d => [4, 3, 1].getD d 0) []).nbVertices d - 1)).prod) :=
  ⟨((C22_get_total_nbElements 32
      { type := .Unstructured, coord_dim := 3, nbVertices := fun _ => 0,
        sections := [⟨1, 10⟩, ⟨11, 14⟩] } (by decide)).1 rfl).1,
   ((C22_get_total_nbElements 32
      { type := .Structured, coord_dim := 2, nbVertices := fun d => [4, 3, 1].getD d 0,
        sections := [] } (by decide)).2 rfl).1⟩

/-- Number of rows that `create_structured_elements` adds, for each cell dimension. -/
theorem create_structured_elements_rows_length (idx : Nat → Nat → Nat → Nat) (zone : Zone) :
    (create_structured_elements_rows idx zone 3).length
      = (zone.nbVertices ZZ - 1).toNat * ((zone.nbVertices YY - 1).toNat
          * (zone.nbVertices XX - 1).toNat) ∧
    (create_structured_elements_rows idx zone 2).length
      = (zone.nbVertices YY - 1).toNat * (zone.nbVertices XX - 1).toNat ∧
    (create_structured_elements_rows idx zone 1).length = (zone.nbVertices XX - 1).toNat := by
  have hconst : ∀ (n c : Nat), ((List.range n).map (fun _ => c)).sum = n * c := by
    intro n c
    induction n with
    | zero => simp
    | succ n ih => simp [List.range_succ, ih, Nat.succ_mul]
  have h32 : ¬ ((2 : Int) = 3) := by decide
  have h13 : ¬ ((1 : Int) = 3) := by decide
  have h12 : ¬ ((1 : Int) = 2) := by decide
  refine ⟨?_, ?_, ?_⟩
  · simp only [create_structured_elements_rows, if_true, List.length_flatMap,
      Function.comp_def, List.length_map, List.length_range, hconst]
  · simp only [create_structured_elements_rows, if_neg h32, if_true, List.length_flatMap,
      Function.comp_def, List.length_map, List.length_range, hconst]
  · simp only [create_structured_elements_rows, if_neg h13, if_neg h12, if_true,
      List.length_map, List.length_range]

/-- When the cell dimension and the number of coordinates agree (both 1, 2 or 3), every
direction has at least one vertex and the count is representable, the rows added are as many
as `get_total_nbElements` announced. -/
theorem create_structured_elements_rows_agree (w : Nat) (idx : Nat → Nat → Nat → Nat)
    (zone : Zone) (cell_dim : Int) (hs : zone.type = .Structured)
    (hdim : zone.coord_dim = cell_dim) (hc : cell_dim = 1 ∨ cell_dim = 2 ∨ cell_dim = 3)
    (hv : ∀ d, d < 3 → 1 ≤ zone.nbVertices d)
    (hr : ((List.range zone.coord_dim.toNat).map (fun d => zone.nbVertices d - 1)).prod
        < 2 ^ w) :
    get_total_nbElements w zone
      = some (create_structured_elements_rows idx zone cell_dim).length := by
  have hx := hv 0 (by norm_num)
  have hy := hv 1 (by norm_num)
  have hz := hv 2 (by norm_num)
  have ha : (((zone.nbVertices 0 - 1).toNat : Nat) : Int) = zone.nbVertices 0 - 1 :=
    Int.toNat_of_nonneg (by omega)
  have hb : (((zone.nbVertices 1 - 1).toNat : Nat) : Int) = zone.nbVertices 1 - 1 :=
    Int.toNat_of_nonneg (by omega)
  have hcc : (((zone.nbVertices 2 - 1).toNat : Nat) : Int) = zone.nbVertices 2 - 1 :=
    Int.toNat_of_nonneg (by omega)
  have r1 : List.range (1 : Int).toNat = [0] := by decide
  have r2 : List.range (2 : Int).toNat = [0, 1] := by decide
  have r3 : List.range (3 : Int).toNat = [0, 1, 2] := by decide
  have hl := create_structured_elements_rows_length idx zone
  have hnn : 0 ≤ ((List.range zone.coord_dim.toNat).map
      (fun d => zone.nbVertices d - 1)).prod := by
    apply List.prod_nonneg
    intro x hx2
    rw [List.mem_map] at hx2
    obtain ⟨d, hd, rfl⟩ := hx2
    have hd3 : d < 3 := by
      have := List.mem_range.mp hd
      rcases hc with h | h | h <;> rw [hdim, h] at this
      · have e : (1 : Int).toNat = 1 := by decide
        omega
      · have e : (2 : Int).toNat = 2 := by decide
        omega
      · have e : (3 : Int).toNat = 3 := by decide
        omega
    have := hv d hd3
    omega
  rw [get_total_nbElements_structured w zone hs]
  congr 1
  apply Int.ofNat_inj.mp
  rw [to_Uint_of_range w _ hnn hr, hdim]
  rcases hc with h | h | h
  · subst h
    rw [hl.2.2, r1]
    simp only [List.map_cons, List.map_nil, List.prod_cons, List.prod_nil, mul_one, XX]
    exact ha.symm
  · subst h
    rw [hl.2.1, r2]
    simp only [List.map_cons, List.map_nil, List.prod_cons, List.prod_nil, mul_one, XX, YY,
      Nat.cast_mul]
    rw [ha, hb]
    ring
  · subst h
    rw [hl.1, r3]
    simp only [List.map_cons, List.map_nil, List.prod_cons, List.prod_nil, mul_one, XX, YY,
      ZZ, Nat.cast_mul]
    rw [ha, hb, hcc]
    ring

/-- C23 (the code at the failing input): a structured zone of cell dimension 2, with three
coordinates (`coord_dim = 3`) and `nbVertices = 3, 3, 1`: `create_structured_elements` adds
`(3 - 1) * (3 - 1) = 4` rows with `add_row_directly`, where `m_zone.total_nbElements`, the
value of `get_total_nbElements` by which the table was enlarged, is
`(3 - 1) * (3 - 1) * (1 - 1) = 0`; with `nbVertices = 4, 4, 3` it adds 9 rows where the table
was enlarged by 18. -/
theorem C23_rows_differ_from_total :
    (create_structured_elements_rows (fun i j k => i + 3 * j + 9 * k)
      { type := .Structured, coord_dim := 3, nbVertices := fun d => [3, 3, 1].getD d 0,
        sections := [] } 2).length = 4 ∧
    get_total_nbElements 32
      { type := .Structured, coord_dim := 3, nbVertices := fun d => [3, 3, 1].getD d 0,
        sections := [] } = some 0 ∧
    (∀ d, d < 3 → 1 ≤ (Zone.mk .Structured 3 (fun d => [3, 3, 1].getD d 0) []).nbVertices d) ∧
    (create_structured_elements_rows (fun i j k => i + 4 * j + 16 * k)
      { type := .Structured, coord_dim := 3, nbVertices := fun d => [4, 4, 3].getD d 0,
        sections := [] } 2).length = 9 ∧
    get_total_nbElements 32
      { type := .Structured, coord_dim := 3, nbVertices := fun d => [4, 4, 3].getD d 0,
        sections := [] } = some 18 := by
  refine ⟨by decide, by decide, by decide, by decide, by decide⟩

/-! ### Sections with shared coordinates -/

theorem read_section_node_shared (w : Nat) (elemNodes : List Int) (cnt elem : Nat)
    (ns : List Nat) (row : List Nat) (fill : SectionFill) :
    ns.foldl (read_section_node w true elemNodes cnt elem) (row, fill)
      = (row ++ ns.map (fun n => to_Uint w (elemNodes.getD (n + elem * cnt) 0 - 1)), fill) := by
  induction ns generalizing row with
  | nil => simp
  | cons n rest ih =>
    simp only [List.foldl_cons, List.map_cons]
    have : read_section_node w true elemNodes cnt elem (row, fill) n
        = (row ++ [to_Uint w (elemNodes.getD (n + elem * cnt) 0 - 1)], fill) := by
      simp [read_section_node]
    rw [this, ih]
    simp

theorem read_section_elem_shared (w : Nat) (elemNodes : List Int) (cnt : Nat)
    (region : String) (es : List Nat) (fill : SectionFill) :
    es.foldl (read_section_elem w true elemNodes cnt region) fill
      = { fill with
          rows := fill.rows ++ es.map (fun e => (List.range cnt).map
            (fun n => to_Uint w (elemNodes.getD (n + e * cnt) 0 - 1))),
          global_to_region := fill.global_to_region ++ es.map (fun e => (region, e)) } := by
  induction es generalizing fill with
  | nil => simp
  | cons e rest ih =>
    simp only [List.foldl_cons, List.map_cons]
    have : read_section_elem w true elemNodes cnt region fill e
        = { fill with
            rows := fill.rows ++ [(List.range cnt).map
              (fun n => to_Uint w (elemNodes.getD (n + e * cnt) 0 - 1))],
            global_to_region := fill.global_to_region ++ [(region, e)] } := by
      simp [read_section_elem, read_section_node_shared]
    rw [this, ih]
    simp

/-- C24: for a section with one element type read with `SharedCoordinates = true` and
`elemNodeCount > 0`, with `nbElems = elemDataSize / elemNodeCount`: exactly `nbElems` rows of
`elemNodeCount` entries are added to the connectivity table; each read
`elemNodes[n + e*elemNodeCount]` lies inside the node data; entry `n` of row `e` is that value
minus 1 converted to `Uint`, which is the value minus 1 itself for a 1-based node number that
fits; the coordinate data are not touched; and exactly `nbElems` entries are appended to the
global-element table, with the local element numbers `0, 1, ..., nbElems-1` in this order;
`nbElems` is the number of whole elements that the node data hold. -/
theorem C24_read_section_shared (uint_bits : Nat) (elemNodeCount : Nat)
    (elemNodes : List Int) (element_region : String) (fill : SectionFill)
    (hcount : 0 < elemNodeCount) :
    (read_section_single uint_bits true elemNodeCount elemNodes element_region fill).rows
      = fill.rows ++ (List.range (elemNodes.length / elemNodeCount)).map
          (fun e => (List.range elemNodeCount).map
            (fun n => to_Uint uint_bits (elemNodes.getD (n + e * elemNodeCount) 0 - 1))) ∧
    (read_section_single uint_bits true elemNodeCount elemNodes element_region fill).rows.length
      = fill.rows.length + elemNodes.length / elemNodeCount ∧
    (∀ (e n : Nat), e < elemNodes.length / elemNodeCount → n < elemNodeCount →
      n + e * elemNodeCount < elemNodes.length ∧
      ∃ row, (read_section_single uint_bits true elemNodeCount elemNodes element_region
          fill).rows[fill.rows.length + e]? = some row ∧
        row.length = elemNodeCount ∧
        row[n]? = some (to_Uint uint_bits (elemNodes.getD (n + e * elemNodeCount) 0 - 1)) ∧
        (1 ≤ elemNodes.getD (n + e * elemNodeCount) 0 →
          elemNodes.getD (n + e * elemNodeCount) 0 - 1 < 2 ^ uint_bits →
          ((to_Uint uint_bits (elemNodes.getD (n + e * elemNodeCount) 0 - 1) : Nat) : Int)
            = elemNodes.getD (n + e * elemNodeCount) 0 - 1)) ∧
    (read_section_single uint_bits true elemNodeCount elemNodes element_region
        fill).global_to_region
      = fill.global_to_region
        ++ (List.range (elemNodes.length / elemNodeCount)).map (fun e => (element_region, e)) ∧
    (read_section_single uint_bits true elemNodeCount elemNodes element_region
        fill).coords_added = fill.coords_added ∧
    (read_section_single uint_bits true elemNodeCount elemNodes element_region
        fill).coord_rows = fill.coord_rows ∧
    elemNodes.length / elemNodeCount * elemNodeCount ≤ elemNodes.length ∧
    elemNodes.length < (elemNodes.length / elemNodeCount + 1) * elemNodeCount := by
  have hfloor : elemNodes.length < (elemNodes.length / elemNodeCount + 1) * elemNodeCount := by
    have h1 := Nat.div_add_mod elemNodes.length elemNodeCount
    have h2 := Nat.mod_lt elemNodes.length hcount
    have h3 : (elemNodes.length / elemNodeCount + 1) * elemNodeCount
        = elemNodeCount * (elemNodes.length / elemNodeCount) + elemNodeCount := by ring
    omega
  have hr : read_section_single uint_bits true elemNodeCount elemNodes element_region fill
      = { fill with
          rows := fill.rows ++ (List.range (elemNodes.length / elemNodeCount)).map
            (fun e => (List.range elemNodeCount).map
              (fun n => to_Uint uint_bits (elemNodes.getD (n + e * elemNodeCount) 0 - 1))),
          global_to_region := fill.global_to_region
            ++ (List.range (elemNodes.length / elemNodeCount)).map
              (fun e => (element_region, e)) } := by
    simp only [read_section_single, read_section_elem_shared]
  rw [hr]
  refine ⟨rfl, by simp, ?_, rfl, rfl, rfl, Nat.div_mul_le_self _ _, hfloor⟩
  intro e n he hn
  have hbound : n + e * elemNodeCount < elemNodes.length := by
    have h1 : (e + 1) * elemNodeCount ≤ elemNodes.length / elemNodeCount * elemNodeCount :=
      Nat.mul_le_mul_right _ he
    have h2 : elemNodes.length / elemNodeCount * elemNodeCount ≤ elemNodes.length :=
      Nat.div_mul_le_self _ _
    have h3 : (e + 1) * elemNodeCount = e * elemNodeCount + elemNodeCount := by ring
    omega
  refine ⟨hbound, (List.range elemNodeCount).map
    (fun n => to_Uint uint_bits (elemNodes.getD (n + e * elemNodeCount) 0 - 1)), ?_, by simp,
    ?_, ?_⟩
  · simp only
    rw [List.getElem?_append_right (Nat.le_add_right _ _)]
    simp [List.getElem?_map, List.getElem?_range he]
  · simp [List.getElem?_map, List.getElem?_range hn]
  · intro h1 h2
    exact to_Uint_of_range uint_bits _ (by omega) h2

/-! ### Order of first occurrence -/

theorem first_occurrences_after_append (seen a b : List Nat) :
    first_occurrences_after seen (a ++ b)
      = first_occurrences_after seen a
        ++ first_occurrences_after (seen ++ first_occurrences_after seen a) b := by
  induction a generalizing seen with
  | nil => simp [first_occurrences_after]
  | cons g rest ih =>
    by_cases hg : g ∈ seen
    · simp [first_occurrences_after, hg, ih]
    · simp [first_occurrences_after, hg, ih, List.append_assoc]

theorem first_occurrences_after_mem (seen l : List Nat) (g : Nat) :
    g ∈ seen ++ first_occurrences_after seen l ↔ g ∈ seen ∨ g ∈ l := by
  induction l generalizing seen with
  | nil => simp [first_occurrences_after]
  | cons a rest ih =>
    by_cases ha : a ∈ seen
    · simp only [first_occurrences_after, ha, if_true, ih, List.mem_cons]
      constructor
      · rintro (h | h)
        · exact Or.inl h
        · exact Or.inr (Or.inr h)
      · rintro (h | h | h)
        · exact Or.inl h
        · exact Or.inl (h ▸ ha)
        · exact Or.inr h
    · have := ih (seen ++ [a])
      simp only [first_occurrences_after, ha, if_false]
      rw [show seen ++ a :: first_occurrences_after (seen ++ [a]) rest
          = (seen ++ [a]) ++ first_occurrences_after (seen ++ [a]) rest by simp]
      rw [this]
      simp only [List.mem_append, List.mem_singleton, List.mem_cons]
      tauto

theorem first_occurrences_after_nodup (seen l : List Nat) (h : seen.Nodup) :
    (seen ++ first_occurrences_after seen l).Nodup := by
  induction l generalizing seen with
  | nil => simpa [first_occurrences_after] using h
  | cons a rest ih =>
    by_cases ha : a ∈ seen
    · simpa [first_occurrences_after, ha] using ih seen h
    · have h2 : (seen ++ [a]).Nodup := by
        rw [List.nodup_append]
        refine ⟨h, List.nodup_singleton _, ?_⟩
        intro x hx hx2
        rw [List.mem_singleton] at hx2
        exact ha (hx2 ▸ hx)
      have := ih (seen ++ [a]) h2
      simp only [first_occurrences_after, ha, if_false]
      rw [show seen ++ a :: first_occurrences_after (seen ++ [a]) rest
          = (seen ++ [a]) ++ first_occurrences_after (seen ++ [a]) rest by simp]
      exact this

/-- The list `first_occurrences` grows at its end, and only by an entry that has not
occurred before. -/
theorem first_occurrences_snoc (l : List Nat) (g : Nat) :
    first_occurrences (l ++ [g]) = first_occurrences l ++ (if g ∈ l then [] else [g]) := by
  unfold first_occurrences
  rw [first_occurrences_after_append]
  congr 1
  have hm := first_occurrences_after_mem [] l g
  simp only [List.nil_append, List.not_mem_nil, false_or] at hm ⊢
  by_cases hg : g ∈ l
  · simp [first_occurrences_after, hg, hm.mpr hg]
  · have : g ∉ first_occurrences_after [] l := fun h => hg (hm.mp h)
    simp [first_occurrences_after, hg, this]

theorem first_occurrences_nodup (l : List Nat) : (first_occurrences l).Nodup := by
  have := first_occurrences_after_nodup [] l List.nodup_nil
  simpa [first_occurrences] using this

theorem first_occurrences_mem (l : List Nat) (g : Nat) : g ∈ first_occurrences l ↔ g ∈ l := by
  have := first_occurrences_after_mem [] l g
  simpa [first_occurrences] using this

/-! ### Position of a value in a vector -/

theorem find_index_lt_of_mem (g : Nat) (l : List Nat) (h : g ∈ l) :
    find_index g l < l.length := by
  induction l with
  | nil => simp at h
  | cons a rest ih =>
    by_cases ha : a = g
    · simp [find_index, ha]
    · have : g ∈ rest := by
        rcases List.mem_cons.mp h with h1 | h1
        · exact absurd h1.symm ha
        · exact h1
      simp [find_index, ha, ih this]

theorem find_index_of_not_mem (g : Nat) (l : List Nat) (h : g ∉ l) :
    find_index g l = l.length := by
  induction l with
  | nil => rfl
  | cons a rest ih =>
    have ha : ¬ a = g := fun e => h (e ▸ List.mem_cons_self _ _)
    have hr : g ∉ rest := fun e => h (List.mem_cons_of_mem _ e)
    simp [find_index, ha, ih hr]

theorem find_index_get (g : Nat) (l : List Nat) (h : g ∈ l) :
    l[find_index g l]? = some g := by
  induction l with
  | nil => simp at h
  | cons a rest ih =>
    by_cases ha : a = g
    · simp [find_index, ha]
    · have : g ∈ rest := by
        rcases List.mem_cons.mp h with h1 | h1
        · exact absurd h1.symm ha
        · exact h1
      simp [find_index, ha, ih this]

/-! ### Sections with coordinates of their own -/

/-- One pass of the loop body over `node` without shared coordinates: the entry written to
`row` is the position of the global node index in `coords_added` afterwards. -/
theorem read_section_node_local (w : Nat) (elemNodes : List Int) (cnt elem : Nat)
    (row : List Nat) (fill : SectionFill) (n : Nat)
    (hinv : fill.coord_rows = fill.coords_added) :
    ∃ l fill1,
      read_section_node w false elemNodes cnt elem (row, fill) n = (row ++ [l], fill1) ∧
      fill1.coord_rows = fill1.coords_added ∧
      fill1.coords_added = fill.coords_added ++
        first_occurrences_after fill.coords_added
          [to_Uint w (elemNodes.getD (n + elem * cnt) 0 - 1)] ∧
      fill1.rows = fill.rows ∧ fill1.global_to_region = fill.global_to_region ∧
      fill1.coords_added[l]? = some (to_Uint w (elemNodes.getD (n + elem * cnt) 0 - 1)) := by
  have hstep : read_section_node w false elemNodes cnt elem (row, fill) n
      = if find_index (to_Uint w (elemNodes.getD (n + elem * cnt) 0 - 1)) fill.coords_added
            ≥ fill.coords_added.length then
          (row ++ [fill.coord_rows.length],
           { fill with
             coords_added := fill.coords_added
               ++ [to_Uint w (elemNodes.getD (n + elem * cnt) 0 - 1)],
             coord_rows := fill.coord_rows
               ++ [to_Uint w (elemNodes.getD (n + elem * cnt) 0 - 1)] })
        else
          (row ++ [find_index (to_Uint w (elemNodes.getD (n + elem * cnt) 0 - 1))
            fill.coords_added], fill) := rfl
  rw [hstep]
  generalize to_Uint w (elemNodes.getD (n + elem * cnt) 0 - 1) = g
  by_cases hg : g ∈ fill.coords_added
  · have hlt := find_index_lt_of_mem _ _ hg
    refine ⟨find_index g fill.coords_added, fill, ?_, hinv, ?_, rfl, rfl,
      find_index_get _ _ hg⟩
    · rw [if_neg (Nat.not_le.mpr hlt)]
    · simp only [first_occurrences_after, hg, if_true, List.append_nil]
  · have heq := find_index_of_not_mem _ _ hg
    refine ⟨fill.coord_rows.length,
      { fill with
        coords_added := fill.coords_added ++ [g],
        coord_rows := fill.coord_rows ++ [g] },
      ?_, ?_, ?_, rfl, rfl, ?_⟩
    · rw [if_pos (Nat.le_of_eq heq.symm)]
    · simp only [hinv]
    · simp only [first_occurrences_after, hg, if_false]
    · simp only [hinv]
      rw [List.getElem?_append_right (Nat.le_refl _)]
      simp

theorem getElem?_some_append (ca ext : List Nat) (l g : Nat) (h : ca[l]? = some g) :
    (ca ++ ext)[l]? = some g := by
  have hl : l < ca.length := by
    by_contra hn
    rw [List.getElem?_eq_none (Nat.le_of_not_lt hn)] at h
    cases h
  rw [List.getElem?_append_left hl, h]

theorem forall₂_extend {β : Type} (ca ext : List Nat) (val : β → Nat) (ls : List Nat)
    (ns : List β) (h : List.Forall₂ (fun l n => ca[l]? = some (val n)) ls ns) :
    List.Forall₂ (fun l n => (ca ++ ext)[l]? = some (val n)) ls ns := by
  induction h with
  | nil => exact List.Forall₂.nil
  | cons h1 _ ih => exact List.Forall₂.cons (getElem?_some_append _ _ _ _ h1) ih

/-- The loop over `node` for one element without shared coordinates. -/
theorem read_section_nodes_local (w : Nat) (elemNodes : List Int) (cnt elem : Nat)
    (ns : List Nat) (row : List Nat) (fill : SectionFill)
    (hinv : fill.coord_rows = fill.coords_added) :
    ∃ locals fill1,
      ns.foldl (read_section_node w false elemNodes cnt elem) (row, fill)
        = (row ++ locals, fill1) ∧
      fill1.coord_rows = fill1.coords_added ∧
      fill1.coords_added = fill.coords_added ++
        first_occurrences_after fill.coords_added
          (ns.map (fun n => to_Uint w (elemNodes.getD (n + elem * cnt) 0 - 1))) ∧
      fill1.rows = fill.rows ∧ fill1.global_to_region = fill.global_to_region ∧
      List.Forall₂ (fun l n => fill1.coords_added[l]?
        = some (to_Uint w (elemNodes.getD (n + elem * cnt) 0 - 1))) locals ns := by
  induction ns generalizing row fill with
  | nil =>
    exact ⟨[], fill, by simp, hinv, by simp [first_occurrences_after], rfl, rfl,
      List.Forall₂.nil⟩
  | cons n rest ih =>
    obtain ⟨l, f1, hstep, hinv1, hca1, hrows1, hg1, hget1⟩ :=
      read_section_node_local w elemNodes cnt elem row fill n hinv
    obtain ⟨locals, f2, hfold, hinv2, hca2, hrows2, hg2, hall⟩ := ih (row ++ [l]) f1 hinv1
    refine ⟨l :: locals, f2, ?_, hinv2, ?_, hrows2.trans hrows1, hg2.trans hg1, ?_⟩
    · simp only [List.foldl_cons, hstep, hfold]
      simp
    · rw [hca2, hca1, List.map_cons]
      rw [show to_Uint w (elemNodes.getD (n + elem * cnt) 0 - 1)
            :: List.map (fun n => to_Uint w (elemNodes.getD (n + elem * cnt) 0 - 1)) rest
          = [to_Uint w (elemNodes.getD (n + elem * cnt) 0 - 1)]
            ++ List.map (fun n => to_Uint w (elemNodes.getD (n + elem * cnt) 0 - 1)) rest
          from rfl]
      rw [first_occurrences_after_append fill.coords_added, List.append_assoc]
    · refine List.Forall₂.cons ?_ hall
      rw [hca2]
      exact getElem?_some_append _ _ _ _ hget1

/-- The loop over `elem` without shared coordinates. -/
theorem read_section_elems_local (w : Nat) (elemNodes : List Int) (cnt : Nat)
    (region : String) (es : List Nat) (fill : SectionFill)
    (hinv : fill.coord_rows = fill.coords_added) :
    ∃ newrows fill1,
      es.foldl (read_section_elem w false elemNodes cnt region) fill = fill1 ∧
      fill1.coord_rows = fill1.coords_added ∧
      fill1.coords_added = fill.coords_added ++
        first_occurrences_after fill.coords_added
          (es.flatMap (fun e => (List.range cnt).map
            (fun n => to_Uint w (elemNodes.getD (n + e * cnt) 0 - 1)))) ∧
      fill1.rows = fill.rows ++ newrows ∧
      fill1.global_to_region = fill.global_to_region ++ es.map (fun e => (region, e)) ∧
      List.Forall₂ (fun r e => List.Forall₂ (fun l n => fill1.coords_added[l]?
        = some (to_Uint w (elemNodes.getD (n + e * cnt) 0 - 1))) r (List.range cnt))
        newrows es := by
  induction es generalizing fill with
  | nil =>
    exact ⟨[], fill, rfl, hinv, by simp [first_occurrences_after], by simp, by simp,
      List.Forall₂.nil⟩
  | cons e rest ih =>
    obtain ⟨locals, f1, hfold, hinv1, hca1, hrows1, hg1, hall1⟩ :=
      read_section_nodes_local w elemNodes cnt e (List.range cnt) [] fill hinv
    have hstep : read_section_elem w false elemNodes cnt region fill e
        = { f1 with rows := f1.rows ++ [locals],
                    global_to_region := f1.global_to_region ++ [(region, e)] } := by
      simp only [read_section_elem, hfold, List.nil_append]
    obtain ⟨newrows, f2, hfold2, hinv2, hca2, hrows2, hg2, hall2⟩ :=
      ih { f1 with rows := f1.rows ++ [locals],
                   global_to_region := f1.global_to_region ++ [(region, e)] } hinv1
    refine ⟨locals :: newrows, f2, ?_, hinv2, ?_, ?_, ?_, ?_⟩
    · simp only [List.foldl_cons, hstep, hfold2]
    · simp only at hca2
      rw [hca2, hca1, List.flatMap_cons, first_occurrences_after_append fill.coords_added,
        List.append_assoc]
    · simp only at hrows2
      rw [hrows2, hrows1]
      simp
    · simp only at hg2
      rw [hg2, hg1]
      simp
    · refine List.Forall₂.cons ?_ hall2
      simp only at hca2
      rw [hca2]
      exact forall₂_extend _ _ _ _ _ hall1

theorem forall₂_index {α β : Type} (R : α → β → Prop) (xs : List α) (ys : List β)
    (h : List.Forall₂ R xs ys) (i : Nat) (y : β) (hy : ys[i]? = some y) :
    ∃ x, xs[i]? = some x ∧ R x y := by
  induction h generalizing i with
  | nil => simp at hy
  | cons h1 _ ih =>
    cases i with
    | zero =>
      simp only [List.getElem?_cons_zero, Option.some.injEq] at hy
      exact ⟨_, by simp, hy ▸ h1⟩
    | succ i =>
      simp only [List.getElem?_cons_succ] at hy ⊢
      exact ih i hy

theorem range_getElem?_of_lt (k i : Nat) (h : i < k) : (List.range k)[i]? = some i := by
  rw [List.getElem?_eq_getElem (by simpa using h)]
  simp

theorem first_occurrences_length (l : List Nat) :
    (first_occurrences l).length = l.toFinset.card := by
  rw [← List.toFinset_card_of_nodup (first_occurrences_nodup l)]
  congr 1
  ext g
  simp [first_occurrences_mem]

/-- C25: local renumbering in `read_section` with `SharedCoordinates = false`, for a section
with one element type and `elemNodeCount > 0` whose vector `coords_added` and coordinate buffer
start empty. With `nbElems = elemDataSize / elemNodeCount` and the global node index of node
`n` of element `e` being `elemNodes[n + e*elemNodeCount] - 1` converted to `Uint`: after the
section is read `coords_added` is the list of the global node indices of the section in order
of first occurrence, it has no duplicates, and it holds exactly the referenced indices; row `e`
of the connectivity rows added has `elemNodeCount` entries and its entry `n` is a position `l`
of `coords_added` with `coords_added[l]` equal to the global node index of that node, which
is `elemNodes[n + e*elemNodeCount] - 1` itself for a 1-based node number that fits; the rows
of the coordinate buffer are, in order, the copies of the global coordinate rows listed in
`coords_added`; and their number is the number of distinct global node indices referenced;
`nbElems` is the number of whole elements that the node data hold. -/
theorem C25_read_section_local_renumbering (uint_bits : Nat) (elemNodeCount : Nat)
    (elemNodes : List Int) (element_region : String) (fill : SectionFill)
    (hcount : 0 < elemNodeCount)
    (hadded : fill.coords_added = []) (hbuffer : fill.coord_rows = []) :
    (read_section_single uint_bits false elemNodeCount elemNodes element_region fill).coords_added
      = first_occurrences ((List.range (elemNodes.length / elemNodeCount)).flatMap
          (fun e => (List.range elemNodeCount).map
            (fun n => to_Uint uint_bits (elemNodes.getD (n + e * elemNodeCount) 0 - 1)))) ∧
    (read_section_single uint_bits false elemNodeCount elemNodes element_region
        fill).coords_added.Nodup ∧
    (∀ g, g ∈ (read_section_single uint_bits false elemNodeCount elemNodes element_region
        fill).coords_added ↔
      ∃ e n, e < elemNodes.length / elemNodeCount ∧ n < elemNodeCount ∧
        g = to_Uint uint_bits (elemNodes.getD (n + e * elemNodeCount) 0 - 1)) ∧
    (∀ (e n : Nat), e < elemNodes.length / elemNodeCount → n < elemNodeCount →
      n + e * elemNodeCount < elemNodes.length ∧
      ∃ row, (read_section_single uint_bits false elemNodeCount elemNodes element_region
          fill).rows[fill.rows.length + e]? = some row ∧
        row.length = elemNodeCount ∧
        ∃ l, row[n]? = some l ∧
          (read_section_single uint_bits false elemNodeCount elemNodes element_region
            fill).coords_added[l]?
            = some (to_Uint uint_bits (elemNodes.getD (n + e * elemNodeCount) 0 - 1)) ∧
          (1 ≤ elemNodes.getD (n + e * elemNodeCount) 0 →
            elemNodes.getD (n + e * elemNodeCount) 0 - 1 < 2 ^ uint_bits →
            ((to_Uint uint_bits (elemNodes.getD (n + e * elemNodeCount) 0 - 1) : Nat) : Int)
              = elemNodes.getD (n + e * elemNodeCount) 0 - 1)) ∧
    (read_section_single uint_bits false elemNodeCount elemNodes element_region fill).rows.length
      = fill.rows.length + elemNodes.length / elemNodeCount ∧
    (read_section_single uint_bits false elemNodeCount elemNodes element_region fill).coord_rows
      = (read_section_single uint_bits false elemNodeCount elemNodes element_region
          fill).coords_added ∧
    (read_section_single uint_bits false elemNodeCount elemNodes element_region
        fill).coord_rows.length
      = ((List.range (elemNodes.length / elemNodeCount)).flatMap
          (fun e => (List.range elemNodeCount).map
            (fun n => to_Uint uint_bits (elemNodes.getD (n + e * elemNodeCount) 0 - 1)))
          ).toFinset.card ∧
    elemNodes.length / elemNodeCount * elemNodeCount ≤ elemNodes.length ∧
    elemNodes.length < (elemNodes.length / elemNodeCount + 1) * elemNodeCount := by
  have hfloor : elemNodes.length < (elemNodes.length / elemNodeCount + 1) * elemNodeCount := by
    have h1 := Nat.div_add_mod elemNodes.length elemNodeCount
    have h2 := Nat.mod_lt elemNodes.length hcount
    have h3 : (elemNodes.length / elemNodeCount + 1) * elemNodeCount
        = elemNodeCount * (elemNodes.length / elemNodeCount) + elemNodeCount := by ring
    omega
  obtain ⟨newrows, f1, hfold, hinv, hca, hrows, _, hall⟩ :=
    read_section_elems_local uint_bits elemNodes elemNodeCount element_region
      (List.range (elemNodes.length / elemNodeCount)) fill (by rw [hadded, hbuffer])
  have hr : read_section_single uint_bits false elemNodeCount elemNodes element_region fill
      = f1 := hfold
  rw [hr]
  rw [hadded, List.nil_append] at hca
  have hca2 : f1.coords_added
      = first_occurrences ((List.range (elemNodes.length / elemNodeCount)).flatMap
          (fun e => (List.range elemNodeCount).map
            (fun n => to_Uint uint_bits (elemNodes.getD (n + e * elemNodeCount) 0 - 1)))) :=
    hca
  have hlen : newrows.length = elemNodes.length / elemNodeCount := by
    rw [hall.length_eq, List.length_range]
  refine ⟨hca2, ?_, ?_, ?_, ?_, hinv, ?_,
    Nat.div_mul_le_self elemNodes.length elemNodeCount, hfloor⟩
  · rw [hca2]
    exact first_occurrences_nodup _
  · intro g
    rw [hca2, first_occurrences_mem]
    simp only [List.mem_flatMap, List.mem_map, List.mem_range]
    constructor
    · rintro ⟨e, he, n, hn, hg⟩
      exact ⟨e, n, he, hn, hg.symm⟩
    · rintro ⟨e, n, he, hn, hg⟩
      exact ⟨e, he, n, hn, hg.symm⟩
  · intro e n he hn
    constructor
    · have h1 := Nat.div_mul_le_self elemNodes.length elemNodeCount
      have h2 : (e + 1) * elemNodeCount ≤ elemNodes.length / elemNodeCount * elemNodeCount :=
        Nat.mul_le_mul_right _ he
      have h3 : (e + 1) * elemNodeCount = e * elemNodeCount + elemNodeCount := by ring
      omega
    · obtain ⟨row, hrow, hR⟩ := forall₂_index _ _ _ hall e e (range_getElem?_of_lt _ _ he)
      obtain ⟨l, hl, hget⟩ := forall₂_index _ _ _ hR n n (range_getElem?_of_lt _ _ hn)
      refine ⟨row, ?_, ?_, l, hl, hget,
        fun h1 h2 => to_Uint_of_range uint_bits _ (by omega) h2⟩
      · rw [hrows, List.getElem?_append_right (Nat.le_add_right _ _), Nat.add_sub_cancel_left]
        exact hrow
      · rw [hR.length_eq, List.length_range]
  · rw [hrows, List.length_append, hlen]
  · rw [hinv, hca2]
    exact first_occurrences_length _

theorem C25_read_section_local_renumbering_witness :
    (0 < 3 ∧ (SectionFill.mk [] [] [] []).coords_added = []
      ∧ (SectionFill.mk [] [] [] []).coord_rows = []) ∧
    (read_section_single 32 false 3 [1, 2, 3, 3, 2, 5] "elements" ⟨[], [], [], []⟩).coords_added
      = first_occurrences ((List.range (([1, 2, 3, 3, 2, 5] : List Int).length / 3)).flatMap
          (fun e => (List.range 3).map
            (fun n => to_Uint 32 (([1, 2, 3, 3, 2, 5] : List Int).getD (n + e * 3) 0 - 1)))) ∧
    (read_section_single 32 false 3 [1, 2, 3, 3, 2, 5] "elements" ⟨[], [], [], []⟩).coords_added
      = [0, 1, 2, 4] ∧
    (read_section_single 32 false 3 [1, 2, 3, 3, 2, 5] "elements" ⟨[], [], [], []⟩).rows
      = [[0, 1, 2], [2, 1, 3]] :=
  ⟨⟨by decide, rfl, rfl⟩,
   (C25_read_section_local_renumbering 32 3 [1, 2, 3, 3, 2, 5] "elements" ⟨[], [], [], []⟩
      (by decide) rfl rfl).1,
   by decide, by decide⟩

theorem C24_read_section_shared_witness :
    0 < 3 ∧
    (read_section_single 32 true 3 [1, 2, 3, 3, 2, 5] "elements" ⟨[], [], [], []⟩).rows
      = (SectionFill.mk [] [] [] []).rows
        ++ (List.range (([1, 2, 3, 3, 2, 5] : List Int).length / 3)).map
          (fun e => (List.range 3).map
            (fun n => to_Uint 32 (([1, 2, 3, 3, 2, 5] : List Int).getD (n + e * 3) 0 - 1))) ∧
    (read_section_single 32 true 3 [1, 2, 3, 3, 2, 5] "elements" ⟨[], [], [], []⟩).rows
      = [[0, 1, 2], [2, 1, 4]] ∧
    (read_section_single 32 true 3 [1, 2, 3, 3, 2, 5] "elements"
        ⟨[], [], [], []⟩).global_to_region
      = [("elements", 0), ("elements", 1)] :=
  ⟨by decide,
   (C24_read_section_shared 32 3 [1, 2, 3, 3, 2, 5] "elements" ⟨[], [], [], []⟩
      (by decide)).1,
   by decide, by decide⟩

/-! ### Boundary conditions given as a list of elements -/

theorem mapM_option_length {α β : Type} (f : α → Option β) (l : List α) (rows : List β)
    (h : l.mapM f = some rows) : rows.length = l.length := by
  induction l generalizing rows with
  | nil =>
    simp only [List.mapM_nil] at h
    cases h
    rfl
  | cons a rest ih =>
    rw [List.mapM_cons] at h
    cases ha : f a with
    | none =>
      rw [ha] at h
      simp at h
    | some b =>
      cases hr : rest.mapM f with
      | none =>
        rw [ha, hr] at h
        simp at h
      | some bs =>
        rw [ha, hr] at h
        simp only [Option.pure_def, Option.bind_eq_bind, Option.some_bind,
          Option.some.injEq] at h
        rw [← h, List.length_cons, List.length_cons, ih bs hr]

/-- When the case `ElementList` creates a region, the region is named after the boundary
condition and one row is copied for each listed element. -/
theorem read_boco_unstructured_created (w : Nat) (mesh : BocoMesh) (boco_name_char : String)
    (boco_elems : List Int) (name : String) (rows : List (String × List Nat))
    (h : read_boco_unstructured_ElementList w mesh boco_name_char boco_elems
      = some (BocoResult.created name rows)) :
    name = sanitise_name boco_name_char ∧ rows.length = boco_elems.length ∧
    boco_elems.mapM (read_boco_unstructured_row w mesh) = some rows := by
  unfold read_boco_unstructured_ElementList at h
  generalize hm : boco_elems.mapM (read_boco_unstructured_row w mesh) = m at h ⊢
  simp only [Option.bind_eq_bind, Option.pure_def] at h
  cases h1 : vector_at boco_elems 0 with
  | none => simp [h1] at h
  | some first =>
    cases h2 : vector_at boco_elems ((boco_elems.length : Int) - 1) with
    | none => simp [h1, h2] at h
    | some last =>
      cases h3 : vector_at mesh.m_global_to_region (first - 1) with
      | none => simp [h1, h2, h3] at h
      | some first_entry =>
        cases h4 : vector_at mesh.m_global_to_region (last - 1) with
        | none => simp [h1, h2, h3, h4] at h
        | some last_entry =>
          cases h5 : mesh.elements[first_entry.1]? with
          | none => simp [h1, h2, h3, h4, h5] at h
          | some first_elements =>
            cases h6 : mesh.elements[last_entry.1]? with
            | none => simp [h1, h2, h3, h4, h5, h6] at h
            | some last_elements =>
              simp only [h1, h2, h3, h4, h5, h6, Option.some_bind] at h
              split at h
              · simp at h
              · cases m with
                | none => simp at h
                | some rs =>
                  simp only [Option.some_bind, Option.some.injEq,
                    BocoResult.created.injEq] at h
                  obtain ⟨hn, hrs⟩ := h
                  subst hrs
                  exact ⟨hn.symm, mapM_option_length _ _ _ hm, rfl⟩

/-- C26, evaluated at a region of three elements of which a boundary condition lists the first
and the third: `m_global_to_region` holds the global elements 1, 2, 3, all in region 0, whose
`recursive_elements_count()` is 3, and the boundary condition `wall` has `nBC_elem = 2` and
`boco_elems = 1, 3`. The list is not the list of all the elements of the region, yet
`read_boco_unstructured` renames region 0 to the name of the boundary condition and creates
no region; creating the region would have copied the two rows of the listed elements. -/
theorem C26_partial_list_takes_over_region :
    region_global_elements
        ⟨[⟨0, "Line2DLagrangeP1", [[0, 1], [1, 2], [2, 3]]⟩], [(0, 0), (0, 1), (0, 2)],
          fun _ => 3⟩ 0 = [1, 2, 3] ∧
    (2 : Int) ∉ ([1, 3] : List Int) ∧
    read_boco_unstructured_ElementList 32
        ⟨[⟨0, "Line2DLagrangeP1", [[0, 1], [1, 2], [2, 3]]⟩], [(0, 0), (0, 1), (0, 2)],
          fun _ => 3⟩ "wall" [1, 3]
      = some (BocoResult.renamed 0 "wall") ∧
    ([1, 3] : List Int).mapM (read_boco_unstructured_row 32
        ⟨[⟨0, "Line2DLagrangeP1", [[0, 1], [1, 2], [2, 3]]⟩], [(0, 0), (0, 1), (0, 2)],
          fun _ => 3⟩)
      = some [("Line2DLagrangeP1", [0, 1]), ("Line2DLagrangeP1", [2, 3])] := by
  refine ⟨by decide, by decide, by decide, by decide⟩

end CF
